import Mathlib

/-!
# Outlining: parameter synthesis, unpack/repack and symbol remapping

A shallow embedding of `src/midend/astOutlining/GenerateFunc.cc` (ROSE outliner).

* AST nodes are values of `SgNode`; a node that the C++ code reaches through a
  pointer and whose identity matters (`SgInitializedName`, `SgVariableSymbol`)
  carries an explicit address `addr`.
* The static option flags of namespace `Outliner` and the language predicates of
  `SageInterface` are records passed to every function that reads them.
* `ROSE_ASSERT` failures are the value `none` of an `Option` result.
-/

namespace Outlining

/-! ## Types -/

/-- The `SgType` hierarchy as far as `GenerateFunc.cc` inspects it.  The leaf
constructors are the variants named in `isBaseTypePrimitive` plus some leaf
variants that are not named there. -/
inductive SgType where
  | typeBool | typeChar | typeDouble | typeFloat | typeInt | typeLong
  | typeLongDouble | typeLongLong | typeShort | typeSignedChar | typeSignedInt
  | typeSignedLong | typeSignedShort | typeUnsignedChar | typeUnsignedInt
  | typeUnsignedLong | typeUnsignedShort | typeVoid | typeWchar
  | typeUnsignedLongLong | typeSignedLongLong | typeComplex | typeString
  | classType (name : String)
  | enumType (name : String)
  | pointerType (base_type : SgType)
  | referenceType (base_type : SgType)
  | arrayType (base_type : SgType) (size : Option Nat)
  | modifierType (isConst : Bool) (isVolatile : Bool) (base_type : SgType)
  | typedefType (name : String) (base_type : SgType)
  deriving DecidableEq, Repr

/-- The C++ test `isSgArrayType(t)`: the element type when `t` is an array type. -/
def isSgArrayType : SgType → Option SgType
  | .arrayType b _ => some b
  | _ => none

/-- The C++ test `isSgReferenceType(t)`: the referent when `t` is a reference type. -/
def isSgReferenceType : SgType → Option SgType
  | .referenceType b => some b
  | _ => none

/-- The C++ test `isSgModifierType(t)`: the const flag when `t` is a modifier type
(the only modifier this file reads is `isConst`). -/
def isSgModifierType : SgType → Option Bool
  | .modifierType c _ _ => some c
  | _ => none

/-! ## Configuration -/

/-- The static flags of namespace `Outliner` read by this file. -/
structure Outliner where
  enable_classic : Bool
  temp_variable : Bool
  useParameterWrapper : Bool
  enable_liveness : Bool
  enable_debug : Bool
  useNewFile : Bool
  deriving DecidableEq, Repr

/-- The language predicates of `SageInterface`; they are properties of the whole
project and are taken as independent inputs. -/
structure SageInterface where
  is_Fortran_language : Bool
  is_C_language : Bool
  is_Cxx_language : Bool
  is_mixed_C_and_Cxx_language : Bool
  is_mixed_Fortran_and_Cxx_language : Bool
  is_mixed_Fortran_and_C_and_Cxx_language : Bool
  deriving DecidableEq, Repr

/-! ## AST nodes -/

/-- An `SgInitializedName`: the declaration of one variable.
`scopeIsFunctionDefinition` is `isSgFunctionDefinition(get_scope())`, i.e. the
variable is a function parameter; `symbol_from_symbol_table` is the address of
the symbol `get_symbol_from_symbol_table()` finds, if any. -/
structure SgInitializedName where
  addr : Nat
  name : String
  type : SgType
  scopeIsFunctionDefinition : Bool
  symbol_from_symbol_table : Option Nat
  deriving DecidableEq, Repr

/-- An `SgVariableSymbol`: a symbol object (with its own address) naming a declaration. -/
structure SgVariableSymbol where
  addr : Nat
  declaration : SgInitializedName
  deriving DecidableEq, Repr

/-- AST nodes: expressions, initializers and statements.  `other` stands for every
node kind that this file only traverses. -/
inductive SgNode where
  | varRefExp (symbol : SgVariableSymbol)
  | intVal (value : Int)
  | pntrArrRefExp (lhs rhs : SgNode)
  | castExp (operand : SgNode) (type : SgType) (c_style : Bool)
  | pointerDerefExp (operand : SgNode) (need_paren : Bool)
  | assignOp (lhs rhs : SgNode)
  | assignInitializer (operand : SgNode)
  | variableDeclaration (var : SgInitializedName) (initializer : Option SgNode)
  | exprStatement (expression : SgNode)
  | basicBlock (statements : List SgNode)
  | forStatement (init test increment body : SgNode)
  | functionDefinition (name : String) (args : List SgInitializedName) (body : SgNode)
  | lambdaExp (body : SgNode)
  | other (variant : String) (children : List SgNode)
  deriving Repr

/-- The traversal successors of a node (what `NodeQuery::querySubTree` descends into). -/
def SgNode.children : SgNode → List SgNode
  | .varRefExp _ => []
  | .intVal _ => []
  | .pntrArrRefExp l r => [l, r]
  | .castExp e _ _ => [e]
  | .pointerDerefExp e _ => [e]
  | .assignOp l r => [l, r]
  | .assignInitializer e => [e]
  | .variableDeclaration _ i => i.toList
  | .exprStatement e => [e]
  | .basicBlock ss => ss
  | .forStatement a b c d => [a, b, c, d]
  | .functionDefinition _ _ b => [b]
  | .lambdaExp b => [b]
  | .other _ cs => cs

/-- The node reached from `n` by following the child indices of `path`. -/
def SgNode.nodeAt (n : SgNode) : List Nat → Option SgNode
  | [] => some n
  | i :: path =>
    match n.children[i]? with
    | none => none
    | some c => c.nodeAt path

/-- A variable declaration statement with its single `SgInitializedName`
(`recordSymRemap` asserts `get_variables().size() == 1`) and that name's initializer. -/
structure SgVariableDeclaration where
  var : SgInitializedName
  initializer : Option SgNode
  deriving Repr

/-- The declaration as a statement node of a block. -/
def SgVariableDeclaration.toNode (d : SgVariableDeclaration) : SgNode :=
  .variableDeclaration d.var d.initializer

/-- The call `decl->get_decl_item(name)`: the initialized name of that name, if the
declaration has one. -/
def SgVariableDeclaration.get_decl_item (d : SgVariableDeclaration) (name : String) :
    Option SgInitializedName :=
  if d.var.name = name then some d.var else none

/-! ## Symbol tables, sets and maps -/

/-- A scope symbol table: the variable symbols entered under their names, in
insertion order. -/
abbrev SgSymbolTable := List (String × SgVariableSymbol)

/-- The call `scope->lookup_var_symbol(name)`. -/
def lookup_var_symbol (t : SgSymbolTable) (name : String) : Option SgVariableSymbol :=
  t.lookup name

/-- The call `scope->insert_symbol(name, sym)`. -/
def insert_symbol (t : SgSymbolTable) (name : String) (sym : SgVariableSymbol) :
    SgSymbolTable :=
  t ++ [(name, sym)]

/-- `ASTtools::VarSymSet_t`, a `std::set` of symbol pointers, listed in its
forward iteration order. -/
abbrev VarSymSet_t := List SgVariableSymbol

/-- Membership test `set.find(sym) != set.end()`, a comparison of pointers. -/
def VarSymSet_t.has (s : VarSymSet_t) (symAddr : Nat) : Bool :=
  s.any (fun x => x.addr == symAddr)

/-- `VarSymRemap_t`, a `std::map` from original symbol pointers to new symbols. -/
abbrev VarSymRemap_t := List (Nat × SgVariableSymbol)

/-- The call `map.find(key)`. -/
def VarSymRemap_t.find (m : VarSymRemap_t) (key : Nat) : Option SgVariableSymbol :=
  m.lookup key

/-- `std::map::insert`: an entry whose key is already present is not replaced. -/
def VarSymRemap_t.insert (m : VarSymRemap_t) (key : Nat) (v : SgVariableSymbol) :
    VarSymRemap_t :=
  match m.lookup key with
  | some _ => m
  | none => m ++ [(key, v)]

/-- A `std::set<SgInitializedName*>` given by the addresses of its members. -/
abbrev InitNameSet := List Nat

/-- Membership test `set.find(name) != set.end()`. -/
def InitNameSet.has (s : InitNameSet) (i_name : SgInitializedName) : Bool :=
  s.contains i_name.addr

/-! ## Collaborators outside `GenerateFunc.cc` -/

/-- Routines that `GenerateFunc.cc` calls and whose code lives elsewhere in ROSE;
they are inputs of the development.
* `findBaseType` is `SgType::findBaseType` (may return null),
* `isConstObj` is `ASTtools::isConstObj`,
* `collectReadOnlyVariables` and `getLiveVariables` (live-ins, live-outs) are the
  side-effect and liveness analyses, giving sets of declarations by address,
* `buildDefiningFunctionDeclaration name scope` and, for Fortran,
  `buildProcedureHeaderStatement name scope` give the function symbols of the
  target scope after the new function has been built, or `none` if they abort,
* `moveStatementsBetweenBlocks sourceBlock targetBlock` is
  `SageInterface::moveStatementsBetweenBlocks`: each block is given by its
  statements and its symbol table, and the result is the source block and the
  target block as they are after the call. -/
structure Collaborators where
  findBaseType : SgType → Option SgType
  isConstObj : SgType → Bool
  collectReadOnlyVariables : List SgNode → InitNameSet
  getLiveVariables : SgNode → InitNameSet × InitNameSet
  buildDefiningFunctionDeclaration : String → List String → Option (List String)
  buildProcedureHeaderStatement : String → List String → Option (List String)
  moveStatementsBetweenBlocks :
    List SgNode × SgSymbolTable → List SgNode × SgSymbolTable →
      (List SgNode × SgSymbolTable) × (List SgNode × SgSymbolTable)

/-! ## Outlined-function state -/

/-- The parts of the new function that `variableHandling` reads and writes through
`func`, and the allocator for the addresses of newly created nodes. -/
structure AstState where
  /-- The new function's parameter list: `func->get_parameterList()->get_args()`. -/
  args : List SgInitializedName
  /-- Symbol table of `func->get_definition()`. -/
  definition_symbols : SgSymbolTable
  /-- Statements of `func->get_definition()->get_body()`. -/
  body : List SgNode
  /-- Symbol table of the body block. -/
  body_symbols : SgSymbolTable
  /-- Address handed to the next node created with `new`. -/
  next_addr : Nat
  deriving Repr

/-! ## Parameter synthesis -/

/-- Creates an SgInitializedName (`createInitName`, lines 72-93): a new name in
`scope`, which at the only call site is the function definition, and a new
variable symbol for it entered in that scope's table.  It asserts that the name
is not empty. -/
def createInitName (name : String) (type : SgType) (ast : AstState) :
    Option (SgInitializedName × AstState) :=
  if name.isEmpty then none
  else
    let new_name : SgInitializedName :=
      { addr := ast.next_addr, name := name, type := type,
        scopeIsFunctionDefinition := true,
        symbol_from_symbol_table := some (ast.next_addr + 1) }
    let new_sym : SgVariableSymbol := { addr := ast.next_addr + 1, declaration := new_name }
    some (new_name,
      { ast with definition_symbols := insert_symbol ast.definition_symbols name new_sym,
                 next_addr := ast.next_addr + 2 })

/-- A new outlined-function parameter: its name and its type. -/
abbrev OutlinedFuncParam_t := String × SgType

/-- Returns true if the base type is a primitive type (`isBaseTypePrimitive`,
lines 99-132); the argument may be null. -/
def isBaseTypePrimitive (q : Collaborators) (type : Option SgType) : Bool :=
  match type with
  | none => false
  | some t =>
    match q.findBaseType t with
    | some base_type =>
      match base_type with
      | .typeBool | .typeChar | .typeDouble | .typeFloat | .typeInt | .typeLong
      | .typeLongDouble | .typeLongLong | .typeShort | .typeSignedChar | .typeSignedInt
      | .typeSignedLong | .typeSignedShort | .typeUnsignedChar | .typeUnsignedInt
      | .typeUnsignedLong | .typeUnsignedShort | .typeVoid | .typeWchar => true
      | _ => false
    | none => false

/-- Step 1 of `createParam` (lines 177-216): the adjusted base type `param_base_type`. -/
def createParam_base_type (o : Outliner) (q : Collaborators) (i_name : SgInitializedName) :
    SgType :=
  let init_type := i_name.type
  if isBaseTypePrimitive q (some init_type) || o.enable_classic then
    let param_base_type := init_type
    let param_base_type :=
      match isSgArrayType param_base_type with
      | some elem => if i_name.scopeIsFunctionDefinition then SgType.pointerType elem
                     else param_base_type
      | none => param_base_type
    match isSgReferenceType param_base_type with
    | some base => base
    | none => param_base_type
  else
    let param_base_type := SgType.typeVoid
    if q.isConstObj init_type then SgType.modifierType true false param_base_type
    else param_base_type

/-- Creates a new outlined-function parameter for a variable (`createParam`, lines
163-258).  `new_param_type` is assigned on every path that is not Fortran, and the
Fortran return does not read it, so the two returns are written as one choice. -/
def createParam (o : Outliner) (l : SageInterface) (q : Collaborators)
    (i_name : SgInitializedName) (readOnly : Bool) : OutlinedFuncParam_t :=
  let param_base_type := createParam_base_type o q i_name
  let init_name := i_name.name
  let new_param_name :=
    if o.enable_classic then
      if readOnly then init_name else init_name ++ "p__"
    else init_name ++ "p__"
  let new_param_type :=
    if o.enable_classic then
      if readOnly then param_base_type else SgType.pointerType param_base_type
    else SgType.pointerType param_base_type
  if l.is_Fortran_language then (new_param_name, param_base_type)
  else (new_param_name, new_param_type)

/-! ## Builders of `SageBuilder` / `SageInterface` -/

/-- Modelled from the spec: `SageBuilder::buildVarRefExp(name, scope)` is not under
src/; per the scope abstraction of the spec (symbol lookup by name, owner
navigation) the reference resolves to the symbol that the declaration has in the
symbol table (address 0 when it has none yet). -/
def buildVarRefExp (n : SgInitializedName) : SgNode :=
  .varRefExp { addr := n.symbol_from_symbol_table.getD 0, declaration := n }

/-- Modelled from the spec: `SageBuilder::buildVariableDeclaration(name, type, init,
scope)` is not under src/; it builds a declaration of one new SgInitializedName
and, when a scope is given (`scope = true`: the body block), enters a variable
symbol for it in that scope (symbol insertion of the spec's scope abstraction). -/
def buildVariableDeclaration (name : String) (type : SgType) (init : Option SgNode)
    (scope : Bool) (ast : AstState) : SgVariableDeclaration × AstState :=
  let new_name : SgInitializedName :=
    { addr := ast.next_addr, name := name, type := type,
      scopeIsFunctionDefinition := false,
      symbol_from_symbol_table := if scope then some (ast.next_addr + 1) else none }
  let new_sym : SgVariableSymbol := { addr := ast.next_addr + 1, declaration := new_name }
  ({ var := new_name, initializer := init },
   { ast with
       body_symbols := if scope then insert_symbol ast.body_symbols name new_sym
                       else ast.body_symbols,
       next_addr := ast.next_addr + 2 })

/-- Modelled from the spec: `SageInterface::prependStatement(stmt, body)` is not
under src/; the statement becomes the first statement of the body. -/
def prependStatement (stmt : SgNode) (ast : AstState) : AstState :=
  { ast with body := stmt :: ast.body }

/-- Modelled from the spec: `SageInterface::appendStatement(stmt, body)` is not
under src/; the statement becomes the last statement of the body
("repack statements appended at its end"). -/
def appendStatement (stmt : SgNode) (ast : AstState) : AstState :=
  { ast with body := ast.body ++ [stmt] }

/-- Whether a statement is the declaration of the initialized name at `a`. -/
def isDeclarationOf (a : Nat) : SgNode → Bool
  | .variableDeclaration v _ => v.addr == a
  | _ => false

/-- Inserts `new_stmt` after the first statement satisfying `p`. -/
def insertAfter (p : SgNode → Bool) (new_stmt : SgNode) : List SgNode → List SgNode
  | [] => []
  | s :: rest => if p s then s :: new_stmt :: rest else s :: insertAfter p new_stmt rest

/-- Modelled from the spec: `SageInterface::insertStatementAfter(target, new_stmt)`
is not under src/; `new_stmt` is placed right after the declaration `target` in
the body. -/
def insertStatementAfter (target : SgVariableDeclaration) (new_stmt : SgNode)
    (ast : AstState) : AstState :=
  { ast with body := insertAfter (isDeclarationOf target.var.addr) new_stmt ast.body }

/-- Modelled from the spec: `SageInterface::prependArg(params, name)` is not under
src/; the name becomes the first parameter. -/
def prependArg (p : SgInitializedName) (ast : AstState) : AstState :=
  { ast with args := p :: ast.args }

/-- Modelled from the spec: `SageBuilder::buildInitializedName` followed by
`SageInterface::appendArg` (lines 811-812) is not under src/; the new name
becomes the last parameter and gets a symbol in the function definition. -/
def buildInitializedName_appendArg (name : String) (type : SgType) (ast : AstState) :
    SgInitializedName × AstState :=
  let new_name : SgInitializedName :=
    { addr := ast.next_addr, name := name, type := type,
      scopeIsFunctionDefinition := true,
      symbol_from_symbol_table := some (ast.next_addr + 1) }
  let new_sym : SgVariableSymbol := { addr := ast.next_addr + 1, declaration := new_name }
  (new_name,
   { ast with args := ast.args ++ [new_name],
              definition_symbols := insert_symbol ast.definition_symbols name new_sym,
              next_addr := ast.next_addr + 2 })

/-! ## Unpack and repack -/

/-- The type `local_var_type` of `createUnpackDecl` (lines 291-297): the type of
the original variable, with the first dimension of an array that is a function
parameter turned into a pointer. -/
def createUnpackDecl_local_var_type (i_name : SgInitializedName) : SgType :=
  let local_var_type := i_name.type
  match isSgArrayType local_var_type with
  | some elem => if i_name.scopeIsFunctionDefinition then SgType.pointerType elem
                 else local_var_type
  | none => local_var_type

/-- The expression `cast_expr` of `createUnpackDecl` (lines 299-318): the
parameter, or the element `index` of the wrapper parameter, cast C-style to a
pointer to the original type (to its referent for a reference type). -/
def createUnpackDecl_cast_expr (o : Outliner) (param : SgInitializedName) (index : Int)
    (i_name : SgInitializedName) : SgNode :=
  let param_ref := buildVarRefExp param
  let param_ref :=
    if o.useParameterWrapper then SgNode.pntrArrRefExp param_ref (.intVal index)
    else param_ref
  let param_deref_type := createUnpackDecl_local_var_type i_name
  let local_var_type_ptr :=
    SgType.pointerType
      (match isSgReferenceType param_deref_type with
       | some base => base
       | none => param_deref_type)
  SgNode.castExp param_ref local_var_type_ptr true

/-- The initializer `local_val` of `createUnpackDecl` (lines 334-372); outer
`none`: the assertion on the language fails. -/
def createUnpackDecl_local_val (o : Outliner) (l : SageInterface) (isPointerDeref : Bool)
    (cast_expr : SgNode) : Option (Option SgNode) :=
  if l.is_Fortran_language then some none
  else if o.temp_variable then
    if isPointerDeref then some (some (.assignInitializer cast_expr))
    else some (some (.assignInitializer (.pointerDerefExp cast_expr false)))
  else if l.is_C_language then some (some (.assignInitializer cast_expr))
  else if l.is_Cxx_language then
    some (some (.assignInitializer (.pointerDerefExp cast_expr false)))
  else none

/-- The type `local_type` of `createUnpackDecl` (lines 376-413). -/
def createUnpackDecl_local_type (o : Outliner) (l : SageInterface) (isPointerDeref : Bool)
    (i_name : SgInitializedName) : SgType :=
  let local_var_type := createUnpackDecl_local_var_type i_name
  let param_deref_type := local_var_type
  if l.is_Fortran_language then local_var_type
  else if o.temp_variable then
    if isPointerDeref then SgType.pointerType param_deref_type else param_deref_type
  else if l.is_C_language then SgType.pointerType param_deref_type
  else
    match isSgReferenceType param_deref_type with
    | some _ => param_deref_type
    | none => SgType.referenceType param_deref_type

/-- Creates the local declaration that unpacks a parameter (`createUnpackDecl`,
lines 282-421): "the key is to set local_name, local_type, and local_val for all
cases".  `param` is the parameter (or the wrapper parameter), `index` the offset
inside the wrapper, the scope is the body.  The result is `none` when an
assertion fails (null parameter, or an unsupported language). -/
def createUnpackDecl (o : Outliner) (l : SageInterface) (param : Option SgInitializedName)
    (index : Int) (isPointerDeref : Bool) (i_name : SgInitializedName) (ast : AstState) :
    Option (SgVariableDeclaration × AstState) :=
  match param with
  | none => none
  | some param =>
    let local_var_name := i_name.name
    let cast_expr := createUnpackDecl_cast_expr o param index i_name
    let local_name := if l.is_Fortran_language then param.name else local_var_name
    let local_type := createUnpackDecl_local_type o l isPointerDeref i_name
    match createUnpackDecl_local_val o l isPointerDeref cast_expr with
    | none => none
    | some local_val => some (buildVariableDeclaration local_name local_type local_val true ast)

/-- Returns true if the given type is const (`isReadOnlyType`, lines 423-448). -/
def isReadOnlyType (type : SgType) : Bool :=
  let mod : Option Bool :=
    match type with
    | .modifierType _ _ _ => isSgModifierType type
    | .referenceType base => isSgModifierType base
    | .pointerType base => isSgModifierType base
    | _ => none
  match mod with
  | some isConst => isConst
  | none => false

mutual
/-- `ASTtools::deepCopy`: a structural copy of the subtree; symbols and
declarations are shared with the original, not copied. -/
def deepCopy : SgNode → SgNode
  | .varRefExp s => .varRefExp s
  | .intVal v => .intVal v
  | .pntrArrRefExp a b => .pntrArrRefExp (deepCopy a) (deepCopy b)
  | .castExp e t c => .castExp (deepCopy e) t c
  | .pointerDerefExp e p => .pointerDerefExp (deepCopy e) p
  | .assignOp a b => .assignOp (deepCopy a) (deepCopy b)
  | .assignInitializer e => .assignInitializer (deepCopy e)
  | .variableDeclaration v i => .variableDeclaration v (deepCopyOption i)
  | .exprStatement e => .exprStatement (deepCopy e)
  | .basicBlock ss => .basicBlock (deepCopyList ss)
  | .forStatement a b c d => .forStatement (deepCopy a) (deepCopy b) (deepCopy c) (deepCopy d)
  | .functionDefinition n ps b => .functionDefinition n ps (deepCopy b)
  | .lambdaExp b => .lambdaExp (deepCopy b)
  | .other v cs => .other v (deepCopyList cs)
/-- Deep copy of a list of children. -/
def deepCopyList : List SgNode → List SgNode
  | [] => []
  | n :: ns => deepCopy n :: deepCopyList ns
/-- Deep copy of an optional child. -/
def deepCopyOption : Option SgNode → Option SgNode
  | none => none
  | some n => some (deepCopy n)
end

/-- Creates the assignment that packs a local back into its parameter
(`createPackExpr`, lines 467-518).  `local_unpack_def` is the local's initialized
name together with its initializer, `scope` the symbol table of
`local_unpack_def->get_scope()` (null: `none`).  Outer `none`: an assertion
failed; `some none`: the function returned NULL. -/
def createPackExpr (o : Outliner) (l : SageInterface)
    (local_unpack_def : SgVariableDeclaration) (scope : Option SgSymbolTable) :
    Option (Option SgNode) :=
  if !o.temp_variable && l.is_C_language then some none
  else if (isSgReferenceType local_unpack_def.var.type).isSome then some none
  else if !isReadOnlyType local_unpack_def.var.type then
    let local_var_name := local_unpack_def.var.name
    match local_unpack_def.initializer with
    | some (.assignInitializer operand_i) =>
      match operand_i with
      | .pointerDerefExp e p =>
        let param_deref_unpack := SgNode.pointerDerefExp e p
        match deepCopy param_deref_unpack with
        | .pointerDerefExp e2 p2 =>
          let param_deref_pack := SgNode.pointerDerefExp e2 p2
          match scope with
          | none => none
          | some scope =>
            match lookup_var_symbol scope local_var_name with
            | none => none
            | some local_var_sym =>
              let local_var_ref := SgNode.varRefExp local_var_sym
              some (some (.assignOp param_deref_pack local_var_ref))
        | _ => none
      | _ => none
    | _ => none
  else some none

/-- Creates a pack statement (`createPackStmt`, lines 539-551): an expression
statement around the result of `createPackExpr`, or NULL. -/
def createPackStmt (o : Outliner) (l : SageInterface)
    (local_unpack_def : Option SgVariableDeclaration) (scope : Option SgSymbolTable) :
    Option (Option SgNode) :=
  match local_unpack_def with
  | none => some none
  | some d =>
    if l.is_Fortran_language then some none
    else
      match createPackExpr o l d scope with
      | none => none
      | some (some pack_expr) => some (some (.exprStatement pack_expr))
      | some none => some none

/-! ## Symbol remapping -/

/-- Records a mapping between two variable symbols (`recordSymRemap`, lines
563-585).  `orig_sym` is never null at the call sites; `name_new` may be;
`scope = true` is the body block, `false` a null scope.  The new symbol is
created for `name_new`, entered in the map with `std::map::insert`, and, with a
scope, entered in that scope's table while `set_scope` moves the name there. -/
def recordSymRemap (orig_sym : SgVariableSymbol) (name_new : Option SgInitializedName)
    (scope : Bool) (sym_remap : VarSymRemap_t) (ast : AstState) :
    Option (VarSymRemap_t × AstState) :=
  match name_new with
  | none => some (sym_remap, ast)
  | some name_new =>
    if name_new.name.isEmpty then none
    else
      let name_new : SgInitializedName :=
        if scope then { name_new with scopeIsFunctionDefinition := false } else name_new
      let sym_new : SgVariableSymbol := { addr := ast.next_addr, declaration := name_new }
      some (sym_remap.insert orig_sym.addr sym_new,
        { ast with
            body_symbols := if scope then insert_symbol ast.body_symbols name_new.name sym_new
                            else ast.body_symbols,
            next_addr := ast.next_addr + 1 })

/-- Records a mapping between variable symbols, for a declaration
(`recordSymRemap`, lines 593-608). -/
def recordSymRemap_decl (orig_sym : SgVariableSymbol) (new_decl : Option SgVariableDeclaration)
    (scope : Bool) (sym_remap : VarSymRemap_t) (ast : AstState) :
    Option (VarSymRemap_t × AstState) :=
  match new_decl with
  | none => some (sym_remap, ast)
  | some d => recordSymRemap orig_sym (some d.var) scope sym_remap ast

/-- One round of the loop of `handlePrivateVariables` (lines 622-628). -/
def handlePrivateVariables_iter (i : SgVariableSymbol)
    (st : VarSymRemap_t × AstState) : Option (VarSymRemap_t × AstState) :=
  let i_name := i.declaration
  let name_str := i_name.name
  let v_type := i_name.type
  let (local_var_decl, ast) := buildVariableDeclaration name_str v_type none true st.2
  let ast := prependStatement local_var_decl.toNode ast
  recordSymRemap_decl i (some local_var_decl) true st.1 ast

/-- Runs `f` over a list, threading the state and stopping at the first abort. -/
def foldAbort {α σ : Type} (f : α → σ → Option σ) : List α → σ → Option σ
  | [], st => some st
  | x :: xs, st =>
    match f x st with
    | none => none
    | some st1 => foldAbort f xs st1

/-- Handles OpenMP private variables (`handlePrivateVariables`, lines 614-630):
the set is walked from its last element to its first. -/
def handlePrivateVariables (pSyms : VarSymSet_t) (private_remap : VarSymRemap_t)
    (ast : AstState) : Option (VarSymRemap_t × AstState) :=
  foldAbort handlePrivateVariables_iter pSyms.reverse (private_remap, ast)

/-- Creates one parameter for an outlined function (`createOneFunctionParameter`,
lines 634-657). -/
def createOneFunctionParameter (o : Outliner) (l : SageInterface) (q : Collaborators)
    (i_name : SgInitializedName) (readOnly : Bool) (ast : AstState) :
    Option (SgInitializedName × AstState) :=
  let param := createParam o l q i_name readOnly
  match createInitName param.1 param.2 ast with
  | none => none
  | some (p_init_name, ast) => some (p_init_name, prependArg p_init_name ast)

/-- The loop body of `remapVarSyms` (lines 677-724) for one reference
`ref_orig` with symbol `sym`: the node that stands in its place afterwards. -/
def remapVarRef (o : Outliner) (l : SageInterface) (vsym_remap : VarSymRemap_t)
    (pdSyms : VarSymSet_t) (private_remap : VarSymRemap_t) (sym : SgVariableSymbol) :
    SgNode :=
  let ref_new := vsym_remap.find sym.addr
  let ref_private := private_remap.find sym.addr
  match ref_private with
  | some sym_new => .varRefExp sym_new
  | none =>
    match ref_new with
    | some sym_new =>
      if o.temp_variable then
        if !pdSyms.has sym.addr then .varRefExp sym_new
        else .pointerDerefExp (.varRefExp sym_new) true
      else if l.is_C_language then .pointerDerefExp (.varRefExp sym_new) true
      else .varRefExp sym_new
    | none => .varRefExp sym

mutual
/-- The effect of the loop of `remapVarSyms` on a subtree: every `SgVarRefExp`
found by `NodeQuery::querySubTree` is handled once by `remapVarRef`.  The query
`NodeQuery::querySubTree (b, V_SgVarRefExp)` is not under src/; it is taken as
what its name and arguments state, the query for every node of that variant in
the subtree of `b`; `remapVarSyms` applies no test of its own for an enclosing
function definition or lambda. -/
def remapNode (f : SgVariableSymbol → SgNode) : SgNode → SgNode
  | .varRefExp s => f s
  | .intVal v => .intVal v
  | .pntrArrRefExp a b => .pntrArrRefExp (remapNode f a) (remapNode f b)
  | .castExp e t c => .castExp (remapNode f e) t c
  | .pointerDerefExp e p => .pointerDerefExp (remapNode f e) p
  | .assignOp a b => .assignOp (remapNode f a) (remapNode f b)
  | .assignInitializer e => .assignInitializer (remapNode f e)
  | .variableDeclaration v i => .variableDeclaration v (remapOption f i)
  | .exprStatement e => .exprStatement (remapNode f e)
  | .basicBlock ss => .basicBlock (remapList f ss)
  | .forStatement a b c d =>
    .forStatement (remapNode f a) (remapNode f b) (remapNode f c) (remapNode f d)
  | .functionDefinition n ps b => .functionDefinition n ps (remapNode f b)
  | .lambdaExp b => .lambdaExp (remapNode f b)
  | .other v cs => .other v (remapList f cs)
/-- The loop of `remapVarSyms` on a list of children. -/
def remapList (f : SgVariableSymbol → SgNode) : List SgNode → List SgNode
  | [] => []
  | n :: ns => remapNode f n :: remapList f ns
/-- The loop of `remapVarSyms` on an optional child. -/
def remapOption (f : SgVariableSymbol → SgNode) : Option SgNode → Option SgNode
  | none => none
  | some n => some (remapNode f n)
end

/-- Fixes up references in a block to point to alternative symbols
(`remapVarSyms`, lines 663-727); `b` is the block given by its statements. -/
def remapVarSyms (o : Outliner) (l : SageInterface) (vsym_remap : VarSymRemap_t)
    (pdSyms : VarSymSet_t) (private_remap : VarSymRemap_t) (b : List SgNode) :
    List SgNode :=
  if vsym_remap.isEmpty && private_remap.isEmpty then b
  else remapList (remapVarRef o l vsym_remap pdSyms private_remap) b

/-! ## variableHandling -/

/-- The local variables of `variableHandling` that live across the rounds of its
loop (lines 756-777), with the AST reached through `func`.  `args_scope` is
`true` while it points to the body and `false` once it is null. -/
structure LoopState where
  ast : AstState
  sym_remap : VarSymRemap_t
  private_remap : VarSymRemap_t
  args_scope : Bool
  counter : Int
  parameter1 : Option SgInitializedName
  local_var_decl : Option SgVariableDeclaration
  local_var_decl2 : Option SgVariableDeclaration
  deriving Repr

/-- The flag `isPointerDeref` of one round (lines 821-829); `none` when the
assertion on the symbol of `i_name` fails. -/
def variableHandling_isPointerDeref (o : Outliner) (pdSyms : VarSymSet_t)
    (i_name : SgInitializedName) : Option Bool :=
  if o.temp_variable then
    match i_name.symbol_from_symbol_table with
    | none => none
    | some i_sym => some (pdSyms.has i_sym)
  else some false

/-- Step 1 of one round of the loop of `variableHandling` (lines 801-817): the
parameter `p_init_name` for the variable, a new one or the wrapper parameter.
`isFirst` is `i == syms.rbegin()`. -/
def variableHandling_step1 (o : Outliner) (l : SageInterface) (q : Collaborators)
    (readOnlyVars : InitNameSet) (isFirst : Bool) (i : SgVariableSymbol) (st : LoopState) :
    Option (Option SgInitializedName × LoopState) :=
  let i_name := i.declaration
  let readOnly := readOnlyVars.has i_name
  if o.useParameterWrapper then
    let st :=
      if isFirst then
        let ptype := SgType.pointerType (SgType.pointerType SgType.typeVoid)
        let (parameter1, ast) := buildInitializedName_appendArg "__out_argv" ptype st.ast
        { st with parameter1 := some parameter1, ast := ast }
      else st
    some (st.parameter1, st)
  else
    match createOneFunctionParameter o l q i_name readOnly st.ast with
    | none => none
    | some (p, ast) => some (some p, { st with ast := ast })

/-- Step 2 of one round with classic mode off (lines 845-880): the unpack
declaration is created and put first in the body, and the remap entry is
recorded; a firstprivate variable also gets its private copy `_p_<name>`. -/
def variableHandling_step2_unpack (o : Outliner) (l : SageInterface) (fpSyms : VarSymSet_t)
    (isPointerDeref : Bool) (i : SgVariableSymbol) (p_init_name : Option SgInitializedName)
    (st : LoopState) : Option LoopState :=
  let i_name := i.declaration
  let name_str := i_name.name
  let st := if l.is_Fortran_language then { st with args_scope := false } else st
  match createUnpackDecl o l p_init_name st.counter isPointerDeref i_name st.ast with
  | none => none
  | some (local_var_decl, ast) =>
    let ast := prependStatement local_var_decl.toNode ast
    let st := { st with local_var_decl := some local_var_decl, ast := ast }
    if fpSyms.has i.addr || fpSyms.has i.addr then
      let (local_var_decl2, ast) :=
        buildVariableDeclaration ("_p_" ++ name_str) i_name.type none st.args_scope st.ast
      let ast := insertStatementAfter local_var_decl local_var_decl2.toNode ast
      match recordSymRemap_decl i (some local_var_decl2) st.args_scope
              st.private_remap ast with
      | none => none
      | some (private_remap, ast) =>
        let assign_stmt :=
          SgNode.exprStatement
            (.assignOp (buildVarRefExp local_var_decl2.var)
              (.pointerDerefExp (buildVarRefExp local_var_decl.var) false))
        let ast := insertStatementAfter local_var_decl2 assign_stmt ast
        some { st with local_var_decl2 := some local_var_decl2,
                       private_remap := private_remap, ast := ast }
    else
      match recordSymRemap_decl i (some local_var_decl) st.args_scope
              st.sym_remap st.ast with
      | none => none
      | some (sym_remap, ast) => some { st with sym_remap := sym_remap, ast := ast }

/-- Step 2 of one round of the loop of `variableHandling` (lines 819-880). -/
def variableHandling_step2 (o : Outliner) (l : SageInterface)
    (pdSyms fpSyms : VarSymSet_t) (readOnlyVars : InitNameSet)
    (i : SgVariableSymbol) (p_init_name : Option SgInitializedName) (st : LoopState) :
    Option LoopState :=
  let i_name := i.declaration
  let readOnly := readOnlyVars.has i_name
  match variableHandling_isPointerDeref o pdSyms i_name with
  | none => none
  | some isPointerDeref =>
    if o.enable_classic then
      if !readOnly then
        match recordSymRemap i p_init_name st.args_scope st.sym_remap st.ast with
        | none => none
        | some (sym_remap, ast) => some { st with sym_remap := sym_remap, ast := ast }
      else some st
    else variableHandling_step2_unpack o l fpSyms isPointerDeref i p_init_name st

/-- Steps 1 and 2 of one round of the loop of `variableHandling` (lines 790-880):
the parameter, the unpack declaration, the remap entry. -/
def variableHandling_unpack (o : Outliner) (l : SageInterface) (q : Collaborators)
    (pdSyms fpSyms : VarSymSet_t) (readOnlyVars : InitNameSet)
    (isFirst : Bool) (i : SgVariableSymbol) (st : LoopState) : Option LoopState :=
  match variableHandling_step1 o l q readOnlyVars isFirst i st with
  | none => none
  | some (p_init_name, st) =>
    variableHandling_step2 o l pdSyms fpSyms readOnlyVars i p_init_name st

/-- The debug output `cout << ... << local_var_init->unparseToString()` of step 3:
with `enable_debug` it dereferences `local_var_init`, and the run does not
continue past a null pointer. -/
def debugTrace (o : Outliner) (local_var_init : Option SgVariableDeclaration) : Option Unit :=
  if o.enable_debug then
    match local_var_init with
    | none => none
    | some _ => some ()
  else some ()

/-- Step 3 of one round of the loop of `variableHandling` (lines 882-932), run on
the state left by steps 1 and 2: the repack statement `pack_stmt` that is
appended to the body, if any.  Outer `none`: the run aborts. -/
def variableHandling_repack (o : Outliner) (l : SageInterface)
    (pdSyms : VarSymSet_t) (readOnlyVars liveOutVars : InitNameSet)
    (i : SgVariableSymbol) (st : LoopState) : Option (Option SgNode) :=
  let i_name := i.declaration
  let name_str := i_name.name
  match variableHandling_isPointerDeref o pdSyms i_name with
  | none => none
  | some isPointerDeref =>
    let local_var_init : Option SgVariableDeclaration :=
      match st.local_var_decl with
      | some d => (d.get_decl_item name_str).map (fun _ => d)
      | none => none
    if !l.is_Fortran_language && !o.enable_classic && local_var_init.isNone then none
    else if o.temp_variable then
      if !isPointerDeref then
        let isLiveOut := if o.enable_liveness then liveOutVars.has i_name else true
        if !readOnlyVars.has i_name && isLiveOut then
          match debugTrace o local_var_init with
          | none => none
          | some _ => createPackStmt o l local_var_init (some st.ast.body_symbols)
        else
          match debugTrace o local_var_init with
          | none => none
          | some _ => some none
      else
        match debugTrace o local_var_init with
        | none => none
        | some _ => some none
    else createPackStmt o l local_var_init (some st.ast.body_symbols)

/-- Whether step 3 of a round reaches one of its two calls of `createPackStmt`
(lines 894-932): in temp-variable mode the call of line 913, only for a variable
that does not use pointer dereferencing (line 896), is not in the read-only set
and is live-out (line 908); without temp variables the call of line 930,
always. -/
def variableHandling_repack_calls (o : Outliner) (readOnlyVars liveOutVars : InitNameSet)
    (i : SgVariableSymbol) (isPointerDeref : Bool) : Bool :=
  let i_name := i.declaration
  if o.temp_variable then
    if !isPointerDeref then
      let isLiveOut := if o.enable_liveness then liveOutVars.has i_name else true
      !readOnlyVars.has i_name && isLiveOut
    else false
  else true

/-- One round of the loop of `variableHandling` (lines 787-934). -/
def variableHandling_iter (o : Outliner) (l : SageInterface) (q : Collaborators)
    (pdSyms fpSyms : VarSymSet_t) (readOnlyVars liveOutVars : InitNameSet)
    (isFirst : Bool) (i : SgVariableSymbol) (st : LoopState) : Option LoopState :=
  match variableHandling_unpack o l q pdSyms fpSyms readOnlyVars isFirst i st with
  | none => none
  | some st =>
    match variableHandling_repack o l pdSyms readOnlyVars liveOutVars i st with
    | none => none
    | some pack_stmt =>
      let ast :=
        match pack_stmt with
        | some pack_stmt => appendStatement pack_stmt st.ast
        | none => st.ast
      some { st with ast := ast, counter := st.counter + 1 }

/-- The loop of `variableHandling` over the symbols still to visit. -/
def variableHandling_loop (o : Outliner) (l : SageInterface) (q : Collaborators)
    (pdSyms fpSyms : VarSymSet_t) (readOnlyVars liveOutVars : InitNameSet) :
    Bool → List SgVariableSymbol → LoopState → Option LoopState
  | _, [], st => some st
  | isFirst, i :: rest, st =>
    match variableHandling_iter o l q pdSyms fpSyms readOnlyVars liveOutVars isFirst i st with
    | none => none
    | some st1 => variableHandling_loop o l q pdSyms fpSyms readOnlyVars liveOutVars false rest st1

/-- The state in which the loop of `variableHandling` starts, once the private
variables are handled (lines 756-780). -/
def variableHandling_init (pSyms : VarSymSet_t) (ast : AstState) : Option LoopState :=
  match handlePrivateVariables pSyms [] ast with
  | none => none
  | some (private_remap, ast) =>
    some { ast := ast, sym_remap := [], private_remap := private_remap, args_scope := true,
           counter := 0, parameter1 := none, local_var_decl := none, local_var_decl2 := none }

/-- Creates the parameters, the unpack and repack statements and substitutes the
variables (`variableHandling`, lines 745-939).  `syms` is walked from its last
element to its first.  The result is the final state: the function in `ast`
(its body after `remapVarSyms`) and the two remap tables that were used. -/
def variableHandling (o : Outliner) (l : SageInterface) (q : Collaborators)
    (syms pdSyms pSyms fpSyms reductionSyms : VarSymSet_t)
    (readOnlyVars liveOutVars : InitNameSet) (func : AstState) : Option LoopState :=
  let _ := reductionSyms
  match variableHandling_init pSyms func with
  | none => none
  | some st =>
    match variableHandling_loop o l q pdSyms fpSyms readOnlyVars liveOutVars true
            syms.reverse st with
    | none => none
    | some st =>
      let func_body := remapVarSyms o l st.sym_remap pdSyms st.private_remap st.ast.body
      some { st with ast := { st.ast with body := func_body } }

/-! ## generateFunction -/

/-- The C++ test `isSgForStatement(stmt)` on a possibly null statement. -/
def isSgForStatement : Option SgNode → Bool
  | some (.forStatement _ _ _ _) => true
  | _ => false

/-- Step 1 of `generateFunction` (lines 962-973): the live-out and read-only sets
handed to `variableHandling`. -/
def generateFunction_analysis (o : Outliner) (q : Collaborators) (s : List SgNode) :
    InitNameSet × InitNameSet :=
  if o.temp_variable || o.enable_classic then
    let firstStmt := s.head?
    let liveOuts : InitNameSet :=
      match firstStmt with
      | some stmt =>
        if isSgForStatement firstStmt && o.enable_liveness then (q.getLiveVariables stmt).2
        else []
      | none => []
    (liveOuts, q.collectReadOnlyVariables s)
  else ([], [])

/-- The new function returned by `generateFunction`. -/
structure SgFunctionDeclaration where
  name : String
  /-- The storage modifier was set by `setExtern()`. -/
  storageModifier_isExtern : Bool
  /-- The linkage string, empty as created. -/
  linkage : String
  /-- Parameter list, definition and body. -/
  ast : AstState
  deriving Repr

/-- What a call of `generateFunction` leaves behind: the new function, the block
`s` after the call, the function symbols of `scope`, and the remap tables that
`variableHandling` used. -/
structure Generated where
  func : SgFunctionDeclaration
  s : List SgNode
  scope : List String
  sym_remap : VarSymRemap_t
  private_remap : VarSymRemap_t
  deriving Repr

/-- Creates a non-member function (`createFuncSkeleton`, lines 38-67): the
function symbols of `scope` afterwards; `none` when an assertion fails. -/
def createFuncSkeleton (l : SageInterface) (q : Collaborators) (name : String)
    (scope : List String) : Option (List String) :=
  let func :=
    if l.is_Fortran_language then q.buildProcedureHeaderStatement name scope
    else q.buildDefiningFunctionDeclaration name scope
  match func with
  | none => none
  | some scope1 => if scope1.contains name then some scope1 else none

/-- Creates the outlined function (`Outliner::generateFunction`, lines 948-1083).
`s` is the block by its statements and `s_symbols` its symbol table; the call
of `moveStatementsBetweenBlocks` (line 1024) hands both blocks to the
collaborator of that name, which gives them back as they are after the call;
`scope` holds the function symbols of the global scope and `next_addr` is the
first free address.  With `useNewFile` only source positions are marked, which
the AST values here do not carry. -/
def generateFunction (o : Outliner) (l : SageInterface) (q : Collaborators)
    (s : List SgNode) (s_symbols : SgSymbolTable) (func_name_str : String)
    (syms pdSyms psyms fpSyms reductionSyms : VarSymSet_t)
    (scope : List String) (next_addr : Nat) : Option Generated :=
  -- step 1
  let (liveOuts, readOnlyVars) := generateFunction_analysis o q s
  -- step 2
  match createFuncSkeleton l q func_name_str scope with
  | none => none
  | some scope1 =>
    let c_binding := l.is_Cxx_language || l.is_mixed_C_and_Cxx_language
      || l.is_mixed_Fortran_and_Cxx_language || l.is_mixed_Fortran_and_C_and_Cxx_language
    let func_body : AstState :=
      { args := [], definition_symbols := [], body := [], body_symbols := [],
        next_addr := next_addr }
    -- moveStatementsBetweenBlocks (s, func_body)
    let moved := q.moveStatementsBetweenBlocks (s, s_symbols)
      (func_body.body, func_body.body_symbols)
    let s := moved.1.1
    let func_body := { func_body with body := moved.2.1, body_symbols := moved.2.2 }
    -- step 3
    match variableHandling o l q syms pdSyms psyms fpSyms reductionSyms readOnlyVars liveOuts
            func_body with
    | none => none
    | some st =>
      if scope1.contains func_name_str then
        some { func := { name := func_name_str, storageModifier_isExtern := c_binding,
                         linkage := if c_binding then "C" else "", ast := st.ast },
               s := s, scope := scope1,
               sym_remap := st.sym_remap, private_remap := st.private_remap }
      else none

/-- What `SageInterface::moveStatementsBetweenBlocks` does by its name and by the
comment of lines 1013-1017, for the block `s` and the empty body of the new
function: afterwards the source block holds no statement and the target block
holds the statements that the source block had, in their order. -/
def MovesStatements (q : Collaborators) (s : List SgNode) (s_symbols : SgSymbolTable) : Prop :=
  (q.moveStatementsBetweenBlocks (s, s_symbols) ([], [])).1.1 = [] ∧
  (q.moveStatementsBetweenBlocks (s, s_symbols) ([], [])).2.1 = s

/-! ## Sample inputs -/

/-- A sample `findBaseType`: strips pointer, reference, array, modifier and typedef layers. -/
def stripType : SgType → SgType
  | .pointerType b => stripType b
  | .referenceType b => stripType b
  | .arrayType b _ => stripType b
  | .modifierType _ _ b => stripType b
  | .typedefType _ b => stripType b
  | t => t

/-- A sample `isConstObj`: a const-qualified type, looking through references and typedefs. -/
def sampleIsConstObj : SgType → Bool
  | .modifierType c _ b => c || sampleIsConstObj b
  | .referenceType b => sampleIsConstObj b
  | .typedefType _ b => sampleIsConstObj b
  | _ => false

/-- Sample collaborators: no variable is read-only or live, building the
function enters its name in the scope, and moving the statements leaves the
source block empty and gives its statements and symbols to the target block. -/
def sampleCollaborators : Collaborators :=
  { findBaseType := fun t => some (stripType t)
    isConstObj := sampleIsConstObj
    collectReadOnlyVariables := fun _ => []
    getLiveVariables := fun _ => ([], [])
    buildDefiningFunctionDeclaration := fun n sc => some (sc ++ [n])
    buildProcedureHeaderStatement := fun n sc => some (sc ++ [n])
    moveStatementsBetweenBlocks := fun sourceBlock _ => (([], []), sourceBlock) }

/-- Temp-variable mode, everything else off. -/
def tempMode : Outliner :=
  { enable_classic := false, temp_variable := true, useParameterWrapper := false,
    enable_liveness := false, enable_debug := false, useNewFile := false }

/-- A pure C project. -/
def langC : SageInterface :=
  { is_Fortran_language := false, is_C_language := true, is_Cxx_language := false,
    is_mixed_C_and_Cxx_language := false, is_mixed_Fortran_and_Cxx_language := false,
    is_mixed_Fortran_and_C_and_Cxx_language := false }

/-- The declaration `const int *p`. -/
def declP : SgInitializedName :=
  { addr := 1, name := "p", type := .pointerType (.modifierType true false .typeInt),
    scopeIsFunctionDefinition := false, symbol_from_symbol_table := some 2 }

/-- The symbol of `p`. -/
def symP : SgVariableSymbol := { addr := 2, declaration := declP }

/-- The declaration `int x`. -/
def declX : SgInitializedName :=
  { addr := 3, name := "x", type := .typeInt,
    scopeIsFunctionDefinition := false, symbol_from_symbol_table := some 4 }

/-- The symbol of `x`. -/
def symX : SgVariableSymbol := { addr := 4, declaration := declX }

/-- The statement `x = 1;`. -/
def stmtAssignX : SgNode := .exprStatement (.assignOp (.varRefExp symX) (.intVal 1))

/-- The statement `p = p;`. -/
def stmtAssignP : SgNode := .exprStatement (.assignOp (.varRefExp symP) (.varRefExp symP))

/-- An empty new function whose first free address is 100. -/
def emptyFunc (body : List SgNode) : AstState :=
  { args := [], definition_symbols := [], body := body, body_symbols := [], next_addr := 100 }

/-- The parameter `int *xp__` made for `x`. -/
def paramXp : SgInitializedName :=
  { addr := 100, name := "xp__", type := .pointerType .typeInt,
    scopeIsFunctionDefinition := true, symbol_from_symbol_table := some 101 }

/-- The unpack declaration `int x = *(int *) xp__;`. -/
def unpackX : SgVariableDeclaration :=
  { var := { addr := 102, name := "x", type := .typeInt, scopeIsFunctionDefinition := false,
             symbol_from_symbol_table := some 103 },
    initializer := some (.assignInitializer
      (.pointerDerefExp (.castExp (buildVarRefExp paramXp) (.pointerType .typeInt) true) false)) }

/-- The symbol of the local `x`. -/
def localSymX : SgVariableSymbol := { addr := 103, declaration := unpackX.var }

/-- The function after `xp__` was created. -/
def funcWithXp : AstState :=
  { args := [paramXp], definition_symbols := [("xp__", { addr := 101, declaration := paramXp })],
    body := [], body_symbols := [], next_addr := 102 }

/-- The primitive types of the specification: the leaf types that pass through
unchanged as a parameter base type. -/
def specPrimitiveTypes : List SgType :=
  [.typeBool, .typeChar, .typeDouble, .typeFloat, .typeInt, .typeLong, .typeLongDouble,
   .typeLongLong, .typeShort, .typeSignedChar, .typeSignedInt, .typeSignedLong,
   .typeSignedShort, .typeUnsignedChar, .typeUnsignedInt, .typeUnsignedLong,
   .typeUnsignedShort, .typeVoid, .typeWchar]

/-- The variable's base type (`findBaseType`) is primitive, as the specification
words it. -/
def specBaseIsPrimitive (q : Collaborators) (t : SgType) : Prop :=
  ∃ b, q.findBaseType t = some b ∧ b ∈ specPrimitiveTypes

/-- The base type of a parameter as the specification words it: the declared type
when the base type is primitive or classic mode is on, with an array type of a
function parameter replaced by pointer-to-element and then a reference type
replaced by its referent; otherwise `void`, const-qualified exactly when the
variable is a const object. -/
def specParamBaseType (o : Outliner) (q : Collaborators) (v : SgInitializedName) : SgType :=
  if (∃ b, q.findBaseType v.type = some b ∧ b ∈ specPrimitiveTypes) ∨
      o.enable_classic = true then
    let decayed : SgType :=
      match v.type, v.scopeIsFunctionDefinition with
      | .arrayType elem _, true => .pointerType elem
      | t, _ => t
    match decayed with
    | .referenceType referent => referent
    | t => t
  else if q.isConstObj v.type = true then .modifierType true false .typeVoid
  else .typeVoid

/-- Classic mode, everything else off. -/
def classicMode : Outliner :=
  { enable_classic := true, temp_variable := false, useParameterWrapper := false,
    enable_liveness := false, enable_debug := false, useNewFile := false }

/-- The parameter `const int **pp__` made for `p`. -/
def paramPp : SgInitializedName :=
  { addr := 100, name := "pp__",
    type := .pointerType (.pointerType (.modifierType true false .typeInt)),
    scopeIsFunctionDefinition := true, symbol_from_symbol_table := some 101 }

/-- The unpack declaration `const int *p = *(const int **) pp__;`. -/
def unpackP : SgVariableDeclaration :=
  { var := { addr := 102, name := "p", type := .pointerType (.modifierType true false .typeInt),
             scopeIsFunctionDefinition := false, symbol_from_symbol_table := some 103 },
    initializer := some (.assignInitializer
      (.pointerDerefExp (.castExp (buildVarRefExp paramPp)
        (.pointerType (.pointerType (.modifierType true false .typeInt))) true) false)) }

/-- The symbol that `recordSymRemap` creates for the local `p`. -/
def remapSymP : SgVariableSymbol := { addr := 104, declaration := unpackP.var }

/-- The symbol that `recordSymRemap` creates for the local `x`. -/
def remapSymX : SgVariableSymbol := { addr := 104, declaration := unpackX.var }

/-- The repack statement `*(int *) xp__ = x;`. -/
def repackX : SgNode :=
  .exprStatement (.assignOp
    (.pointerDerefExp (.castExp (buildVarRefExp paramXp) (.pointerType .typeInt) true) false)
    (.varRefExp localSymX))

/-- Temp-variable mode with liveness analysis enabled. -/
def tempLivenessMode : Outliner := { tempMode with enable_liveness := true }

/-- The state in which the loop starts for the block `x = 1;` with no private variable. -/
def loopStartX : LoopState :=
  { ast := emptyFunc [stmtAssignX], sym_remap := [], private_remap := [], args_scope := true,
    counter := 0, parameter1 := none, local_var_decl := none, local_var_decl2 := none }

/-- Classic mode together with the parameter wrapper. -/
def classicWrapperMode : Outliner := { classicMode with useParameterWrapper := true }

/-- Classic mode together with temp-variable mode. -/
def classicTempMode : Outliner := { classicMode with temp_variable := true }

/-- The wrapper parameter `void **__out_argv`, once `recordSymRemap` has moved it
to the body scope. -/
def wrapperParam : SgInitializedName :=
  { addr := 100, name := "__out_argv", type := .pointerType (.pointerType .typeVoid),
    scopeIsFunctionDefinition := false, symbol_from_symbol_table := some 101 }

/-- The parameter `int *xp__`, once `recordSymRemap` has moved it to the body scope. -/
def paramXpInBody : SgInitializedName := { paramXp with scopeIsFunctionDefinition := false }

/-- What the shared remap holds for the symbols of `syms` with classic mode off:
an entry for `k` leads to a symbol of the local that `createUnpackDecl` typed for
a symbol of `syms` at address `k`. -/
def SharedEntriesTyped (o : Outliner) (l : SageInterface) (pdSyms syms : VarSymSet_t)
    (sym_remap : VarSymRemap_t) : Prop :=
  ∀ (k : Nat) (n : SgVariableSymbol), (k, n) ∈ sym_remap →
    ∃ v ∈ syms, v.addr = k ∧ ∃ isPD,
      variableHandling_isPointerDeref o pdSyms v.declaration = some isPD ∧
      n.declaration.type = createUnpackDecl_local_type o l isPD v.declaration

/-- The state that `variableHandling` returns for `x` and the block `x = 1;` in
temp-variable mode for C. -/
def finalStateX : LoopState :=
  { ast := { args := [paramXp],
             definition_symbols := [("xp__", { addr := 101, declaration := paramXp })],
             body := [unpackX.toNode,
                      .exprStatement (.assignOp (.varRefExp remapSymX) (.intVal 1)),
                      repackX],
             body_symbols := [("x", localSymX), ("x", remapSymX)],
             next_addr := 105 },
    sym_remap := [(4, remapSymX)], private_remap := [], args_scope := true,
    counter := 1, parameter1 := none, local_var_decl := some unpackX, local_var_decl2 := none }

/-- The declaration `struct S s`. -/
def declS : SgInitializedName :=
  { addr := 5, name := "s", type := .classType "S",
    scopeIsFunctionDefinition := false, symbol_from_symbol_table := some 6 }

/-- The symbol of `s`. -/
def symS : SgVariableSymbol := { addr := 6, declaration := declS }
/-- The type of a variable with a function-parameter array decayed to
pointer-to-element, as the specification words it. -/
def specDecayedType (v : SgInitializedName) : SgType :=
  match v.type, v.scopeIsFunctionDefinition with
  | .arrayType elem _, true => .pointerType elem
  | t, _ => t

/-- A reference type replaced by its referent, as the specification words it. -/
def specReferent : SgType → SgType
  | .referenceType referent => referent
  | t => t

/-- The function parameter `int a[10]`. -/
def declA : SgInitializedName :=
  { addr := 7, name := "a", type := .arrayType .typeInt (some 10),
    scopeIsFunctionDefinition := true, symbol_from_symbol_table := some 8 }

/-- The symbol of `a`. -/
def symA : SgVariableSymbol := { addr := 8, declaration := declA }

/-- The parameter `int **ap__` made for `a`. -/
def paramAp : SgInitializedName :=
  { addr := 100, name := "ap__", type := .pointerType (.pointerType .typeInt),
    scopeIsFunctionDefinition := true, symbol_from_symbol_table := some 101 }

/-- A pure Fortran project. -/
def langFortran : SageInterface :=
  { is_Fortran_language := true, is_C_language := false, is_Cxx_language := false,
    is_mixed_C_and_Cxx_language := false, is_mixed_Fortran_and_Cxx_language := false,
    is_mixed_Fortran_and_C_and_Cxx_language := false }

/-- The state after the round for the written `x` in classic mode for C. -/
def classicAfterX : LoopState :=
  { ast := { args := [paramXp],
             definition_symbols := [("xp__", { addr := 101, declaration := paramXp })],
             body := [stmtAssignX],
             body_symbols := [("xp__", { addr := 102, declaration := paramXpInBody })],
             next_addr := 103 },
    sym_remap := [(4, { addr := 102, declaration := paramXpInBody })], private_remap := [],
    args_scope := true, counter := 1, parameter1 := none, local_var_decl := none,
    local_var_decl2 := none }

/-- The statements one round of `variableHandling` puts at the start of the body
for the symbol `v` (classic mode off): the unpack declaration `d` built by
`createUnpackDecl`, directly followed, for a firstprivate variable, by the
declaration of the private copy `_p_<name>` (original type, no initializer) and
the assignment that sets the private copy from the shared copy. -/
def IsUnpackGroup (fpSyms : VarSymSet_t) (v : SgVariableSymbol) (d : SgVariableDeclaration)
    (group : List SgNode) : Prop :=
  (fpSyms.has v.addr = false ∧ group = [d.toNode]) ∨
  (fpSyms.has v.addr = true ∧ ∃ d2 : SgVariableDeclaration,
    d2.var.name = "_p_" ++ v.declaration.name ∧ d2.var.type = v.declaration.type ∧
    d2.initializer = none ∧
    group = [d.toNode, d2.toNode,
      .exprStatement (.assignOp (buildVarRefExp d2.var)
        (.pointerDerefExp (buildVarRefExp d.var) false))])

/-- The statements one round of `variableHandling` appends to the body: nothing,
or the one repack statement that `createPackExpr` makes of the unpack
declaration `d`. -/
def IsRepackOf (o : Outliner) (l : SageInterface) (d : SgVariableDeclaration)
    (packs : List SgNode) : Prop :=
  packs = [] ∨
  ∃ (e : SgNode) (scope : SgSymbolTable),
    createPackExpr o l d (some scope) = some (some e) ∧ packs = [.exprStatement e]

/-- What one round of `variableHandling` adds to the body for the symbol `v`
(classic mode off): `r.1` at its start and `r.2` at its end. -/
def IsRound (o : Outliner) (l : SageInterface) (fpSyms : VarSymSet_t) (v : SgVariableSymbol)
    (r : List SgNode × List SgNode) : Prop :=
  ∃ (param : SgInitializedName) (index : Int) (isPD : Bool) (ast ast1 : AstState)
    (d : SgVariableDeclaration),
    createUnpackDecl o l (some param) index isPD v.declaration ast = some (d, ast1) ∧
    IsUnpackGroup fpSyms v d r.1 ∧ IsRepackOf o l d r.2

/-- The declaration that `handlePrivateVariables` makes for the private symbol
`v`: the variable's name and type, no initializer. -/
def IsPrivateDecl (v : SgVariableSymbol) (stmt : SgNode) : Prop :=
  ∃ d : SgVariableDeclaration, stmt = d.toNode ∧ d.var.name = v.declaration.name ∧
    d.var.type = v.declaration.type ∧ d.initializer = none

/-- The declaration that `handlePrivateVariables` makes for the private symbol
`v`, as the table `m` records it: the variable's name and type, no initializer,
and the entry of `v` in `m` is a symbol of that declaration. -/
def IsPrivateCopy (m : VarSymRemap_t) (v : SgVariableSymbol) (stmt : SgNode) : Prop :=
  ∃ (d : SgVariableDeclaration) (sym : SgVariableSymbol), stmt = d.toNode ∧
    d.var.name = v.declaration.name ∧ d.var.type = v.declaration.type ∧
    d.initializer = none ∧ m.find v.addr = some sym ∧ sym.declaration = d.var

/-- The unpack declaration `d` takes its value from the element `k` of the
wrapper parameter `w`: its initializer is the element `w[k]`, cast to a pointer
type, or the dereference of that cast. -/
def IsUnpackedFromElement (w : SgInitializedName) (k : Int) (d : SgVariableDeclaration) :
    Prop :=
  ∃ T : SgType,
    d.initializer = some (.assignInitializer
      (.castExp (.pntrArrRefExp (buildVarRefExp w) (.intVal k)) T true)) ∨
    d.initializer = some (.assignInitializer (.pointerDerefExp
      (.castExp (.pntrArrRefExp (buildVarRefExp w) (.intVal k)) T true) false))

/-- Temp-variable mode together with the parameter wrapper. -/
def wrapperMode : Outliner := { tempMode with useParameterWrapper := true }

/-- The name of the variable that a statement declares, if it is a declaration. -/
def declaredName : SgNode → Option String
  | .variableDeclaration v _ => some v.name
  | _ => none

/-- Whether a node is a nested function: a function definition or a lambda. -/
def SgNode.isNestedFunction : SgNode → Bool
  | .functionDefinition _ _ _ => true
  | .lambdaExp _ => true
  | _ => false

/-- Whether the way from `n` along the child indices of `path` leads through a
nested function, that is, whether the node reached lies inside one. -/
def SgNode.insideNestedFunction (n : SgNode) : List Nat → Bool
  | [] => false
  | i :: path =>
    n.isNestedFunction ||
      match n.children[i]? with
      | none => false
      | some c => c.insideNestedFunction path

/-- The statement `[&]() { x = 1; };`: a lambda whose body assigns to `x`. -/
def stmtLambdaAssignX : SgNode := .exprStatement (.lambdaExp (.basicBlock [stmtAssignX]))

/-- What `generateFunction` returns for the block `x = 1;` with the shared `x`, in
temp-variable mode for C, as the function `OUT__1__` in an empty scope. -/
def generatedX : Generated :=
  { func := { name := "OUT__1__", storageModifier_isExtern := false, linkage := "",
              ast := finalStateX.ast },
    s := [], scope := ["OUT__1__"],
    sym_remap := finalStateX.sym_remap, private_remap := finalStateX.private_remap }

/-- Sample collaborators whose function builders enter the function symbol in
the scope unless a symbol of that name is already there, which they then use. -/
def reusingCollaborators : Collaborators :=
  { sampleCollaborators with
    buildDefiningFunctionDeclaration := fun n sc => some (if sc.contains n then sc else sc ++ [n])
    buildProcedureHeaderStatement := fun n sc => some (if sc.contains n then sc else sc ++ [n]) }

/-- Classic mode together with temp-variable mode and the debug output. -/
def classicTempDebugMode : Outliner := { classicTempMode with enable_debug := true }

/-- The condition of lines 1004-1005 of `generateFunction`: the input is C++ or a
mixed-language input that includes C++. -/
def SageInterface.includesCxx (l : SageInterface) : Bool :=
  l.is_Cxx_language || l.is_mixed_C_and_Cxx_language
    || l.is_mixed_Fortran_and_Cxx_language || l.is_mixed_Fortran_and_C_and_Cxx_language

/-- A pure C++ project. -/
def langCxx : SageInterface :=
  { is_Fortran_language := false, is_C_language := false, is_Cxx_language := true,
    is_mixed_C_and_Cxx_language := false, is_mixed_Fortran_and_Cxx_language := false,
    is_mixed_Fortran_and_C_and_Cxx_language := false }

/-- The declaration `int &r`. -/
def declR : SgInitializedName :=
  { addr := 9, name := "r", type := .referenceType .typeInt,
    scopeIsFunctionDefinition := false, symbol_from_symbol_table := some 10 }
/-- What one round of `variableHandling` without the wrapper makes for the symbol
`v`: the parameter `r.1`, named and typed by `createParam`, and, with classic
mode off, the unpack group `r.2.1` whose declaration `createUnpackDecl` builds
from that very parameter, and the repack statements `r.2.2`. -/
def IsParameterRound (o : Outliner) (l : SageInterface) (q : Collaborators)
    (readOnlyVars : InitNameSet) (fpSyms : VarSymSet_t) (v : SgVariableSymbol)
    (r : SgInitializedName × List SgNode × List SgNode) : Prop :=
  r.1.name = (createParam o l q v.declaration (readOnlyVars.has v.declaration)).1 ∧
  r.1.type = (createParam o l q v.declaration (readOnlyVars.has v.declaration)).2 ∧
  (o.enable_classic = false →
    ∃ (index : Int) (isPD : Bool) (ast ast1 : AstState) (d : SgVariableDeclaration),
      createUnpackDecl o l (some r.1) index isPD v.declaration ast = some (d, ast1) ∧
      IsUnpackGroup fpSyms v d r.2.1 ∧ IsRepackOf o l d r.2.2)

/-! ## RTED: variable instrumentation (`projects/RTED/RtedTransf_variable.cpp`)

A shallow embedding of the methods of `RtedTransformation` that insert the calls
for the creation, the initialization and the access of a variable.

* An expression is a value of `SgExpression`; a node of the input tree carries
  its address, by which the C++ code compares pointers.
* A statement (a scope is a statement) is a value of `SgStatement` that holds
  the way up from it: its parent and its scope.
* What a method inserts into the tree is the list of `Insertion`s that it
  returns; `none` is an assertion failure (or a null pointer that is followed).
* The output on `cerr` is not part of the values.
-/

namespace Rted

/-- Source position of a node (`Sg_File_Info`). -/
structure Sg_File_Info where
  filename : String
  line : Int
  deriving DecidableEq, Repr

/-- The class of a statement node, as far as this file tests it; `V_other`
stands for every other class, by its name. -/
inductive VariantT where
  | V_SgClassDefinition
  | V_SgGlobal
  | V_SgNamespaceDefinitionStatement
  | V_SgBasicBlock
  | V_SgClassDeclaration
  | V_SgVariableDeclaration
  | V_SgForInitStatement
  | V_SgForStatement
  | V_SgExprStatement
  | V_other (class_name : String)
  deriving DecidableEq, Repr

/-- An `SgInitializedName`: `get_name()`, `get_mangled_name()`, `get_type()`,
the address of `get_initializer()` (null: `none`) and the address of
`get_scope()`. -/
structure SgInitializedName where
  addr : Nat
  name : String
  mangled_name : String
  type : SgType
  initializer : Option Nat
  scope : Option Nat
  deriving DecidableEq, Repr

/-- An `SgVariableSymbol` with its `get_declaration()`. -/
structure SgVariableSymbol where
  declaration : SgInitializedName
  deriving DecidableEq, Repr

/-- An `SgFunctionSymbol` with its `get_name()`. -/
structure SgFunctionSymbol where
  name : String
  deriving DecidableEq, Repr

/-- An `SgVarRefExp` of the input tree: its address and `get_symbol()`. -/
structure SgVarRefExp where
  addr : Nat
  symbol : SgVariableSymbol
  deriving DecidableEq, Repr

/-- Expressions.  The first five constructors are nodes that carry an address;
the value and call nodes are the ones this file builds; `other` stands for every
other class of expression. -/
inductive SgExpression where
  | varRefExp (ref : SgVarRefExp)
  | pointerDerefExp (addr : Nat) (operand : SgExpression)
  | arrowExp (addr : Nat) (lhs_operand rhs_operand : SgExpression)
  | dotExp (addr : Nat) (lhs_operand rhs_operand : SgExpression)
  | thisExp (addr : Nat) (class_symbol : String)
  | stringVal (value : String)
  | intVal (value : Int)
  | functionRefExp (symbol : SgFunctionSymbol)
  | functionCallExp (function : SgExpression) (args : List SgExpression)
  | other (addr : Nat) (class_name : String) (operands : List SgExpression)
  deriving Repr

/-- The address of an expression node; the value and call nodes, which this file
builds and never compares, have none. -/
def SgExpression.addr : SgExpression → Option Nat
  | .varRefExp ref => some ref.addr
  | .pointerDerefExp a _ => some a
  | .arrowExp a _ _ => some a
  | .dotExp a _ _ => some a
  | .thisExp a _ => some a
  | .other a _ _ => some a
  | _ => none

/-- A statement, or a scope, with the way up from it: `get_parent()` and
`get_scope()` (null: `none`), its source position and, for an expression
statement, `get_expression()`. -/
inductive SgStatement where
  | mk (addr : Nat) (variant : VariantT) (file_info : Sg_File_Info)
      (expression : Option SgExpression) (parent : Option SgStatement)
      (scope : Option SgStatement)
  deriving Repr

/-- The address of a statement. -/
def SgStatement.addr : SgStatement → Nat
  | .mk a _ _ _ _ _ => a

/-- The class of a statement. -/
def SgStatement.variant : SgStatement → VariantT
  | .mk _ v _ _ _ _ => v

/-- The call `stmt->get_file_info()`. -/
def SgStatement.get_file_info : SgStatement → Sg_File_Info
  | .mk _ _ f _ _ _ => f

/-- The call `stmt->get_expression()` of an expression statement. -/
def SgStatement.get_expression : SgStatement → Option SgExpression
  | .mk _ _ _ e _ _ => e

/-- The call `stmt->get_parent()`. -/
def SgStatement.get_parent : SgStatement → Option SgStatement
  | .mk _ _ _ _ p _ => p

/-- The call `stmt->get_scope()`. -/
def SgStatement.get_scope : SgStatement → Option SgStatement
  | .mk _ _ _ _ _ s => s

/-- The C++ test `isSgForInitStatement(n)` on a possibly null node. -/
def isSgForInitStatement : Option SgStatement → Bool
  | some s => s.variant == .V_SgForInitStatement
  | none => false

/-- The C++ cast `isSgForStatement(n)` on a possibly null node. -/
def isSgForStatement : Option SgStatement → Option SgStatement
  | some s => if s.variant == .V_SgForStatement then some s else none
  | none => none

/-- The C++ test `isSgNamespaceDefinitionStatement(n)` on a possibly null node. -/
def isSgNamespaceDefinitionStatement : Option SgStatement → Bool
  | some s => s.variant == .V_SgNamespaceDefinitionStatement
  | none => false

/-- The C++ test `isSgPointerType(t)`. -/
def isSgPointerType : SgType → Bool
  | .pointerType _ => true
  | _ => false

/-- The argument of `getSurroundingStatement(SgNode*)`: this file calls it on
variable references and on initialized names. -/
inductive SgNodeRef where
  | expression (e : SgExpression)
  | initializedName (n : SgInitializedName)

/-- An expression statement built by this file, with the comments that
`attachComment(..., PreprocessingInfo::before)` attached, in the order of the
calls. -/
structure SgExprStatement where
  expression : SgExpression
  comments : List String
  deriving Repr

/-- What a method inserts into the tree: the statement `newStmt` after or before
the statement `target` (`SageInterface::insertStatementAfter`,
`insertStatementBefore`), as the first statement of a block
(`prepend_statement`), or an expression handed to
`prependPseudoForInitializerExpression` together with the for statement. -/
inductive Insertion where
  | insertStatementAfter (target : SgStatement) (newStmt : SgExprStatement)
  | insertStatementBefore (target : SgStatement) (newStmt : SgExprStatement)
  | prepend_statement (block : SgStatement) (newStmt : SgExprStatement)
  | prependPseudoForInitializerExpression (e : SgExpression) (for_stmt : Option SgStatement)
  deriving Repr

/-- The object `RtedTransformation` as far as the methods of this file read it,
together with what they call that is not under src/.

* `mainFirst`, `mainBody`, `roseCreateVariable`, `roseInitVariable`,
  `roseAccessVariable` are data members (null: `none`).
* `Read` and `Write` are the enumerators of the read/write mask.
* `forceinit_default` is the default argument of `forceinit`, which the header
  declares.
* `getSurroundingStatement`, `isGlobalExternVariable`, `isNormalScope`,
  `isUsedAsLvalue`, `getExprBelowAssignment`, `buildVarRef` and
  `RoseBin_support::ToString` are functions defined elsewhere.
* `appendTypeInformation`, `appendAddressAndSize` and `appendClassName` are
  defined elsewhere; they append to the argument list, and the fields give the
  expressions that they append.
* `get_type`, `get_file_info` and `get_parent` are the accessors of an
  expression node. -/
structure RtedTransformation where
  mainFirst : Option SgStatement
  mainBody : Option SgStatement
  roseCreateVariable : Option SgFunctionSymbol
  roseInitVariable : Option SgFunctionSymbol
  roseAccessVariable : Option SgFunctionSymbol
  Read : Nat
  Write : Nat
  forceinit_default : Bool
  getSurroundingStatement : SgNodeRef → Option SgStatement
  isGlobalExternVariable : Option SgStatement → Bool
  isNormalScope : Option SgStatement → Bool
  isUsedAsLvalue : SgExpression → Bool
  getExprBelowAssignment : SgExpression → SgExpression
  buildVarRef : SgInitializedName → SgExpression
  RoseBin_support_ToString : Int → String
  appendTypeInformation : SgType → List SgExpression
  appendTypeInformation_initName : Option SgInitializedName → SgType → List SgExpression
  appendAddressAndSize_initName : SgInitializedName → SgExpression → Int → List SgExpression
  appendAddressAndSize_exp : SgExpression → SgType → Int → List SgExpression
  appendClassName : SgType → List SgExpression
  get_type : SgExpression → SgType
  get_file_info : SgExpression → Sg_File_Info
  get_parent : SgExpression → Option SgExpression

/-- The builder `SageBuilder::buildPointerDerefExp(e)`, which is not under src/:
a new dereference node around `e` (address 0: the node is not one of the input
tree). -/
def buildPointerDerefExp (e : SgExpression) : SgExpression :=
  .pointerDerefExp 0 e

/-- Builds the call of `roseCreateVariable` for the expression `var_ref`
(`buildVariableCreateCallExpr(SgExpression*, string&, bool)`, lines 232-289);
`none` when the assertion on `roseCreateVariable` fails. -/
def RtedTransformation.buildVariableCreateCallExpr (this : RtedTransformation)
    (var_ref : SgExpression) (debug_name : String) (initb : Bool) : Option SgExpression :=
  let arg_list : List SgExpression := []
  let callName := SgExpression.stringVal debug_name
  let callNameExp := SgExpression.stringVal debug_name
  let initBool := if initb then SgExpression.intVal 1 else SgExpression.intVal 0
  let arg_list := arg_list ++ [callName]
  let arg_list := arg_list ++ [callNameExp]
  let arg_list := arg_list ++ this.appendTypeInformation (this.get_type var_ref)
  let arg_list :=
    match var_ref with
    | .varRefExp ref =>
      arg_list ++ this.appendAddressAndSize_initName ref.symbol.declaration var_ref 0
    | _ => arg_list ++ this.appendAddressAndSize_exp var_ref (this.get_type var_ref) 0
  let arg_list := arg_list ++ [initBool]
  let arg_list := arg_list ++ this.appendClassName (this.get_type var_ref)
  let filename := SgExpression.stringVal (this.get_file_info var_ref).filename
  let currentlinenr := (this.get_file_info var_ref).line
  let linenr := SgExpression.stringVal (this.RoseBin_support_ToString currentlinenr)
  let arg_list := arg_list ++ [linenr]
  let arg_list := arg_list ++ [filename]
  let linenrTransformed := SgExpression.stringVal "x%%x"
  let arg_list := arg_list ++ [linenrTransformed]
  match this.roseCreateVariable with
  | none => none
  | some roseCreateVariable =>
    some (.functionCallExp (.functionRefExp roseCreateVariable) arg_list)

/-- The convenience function `buildVariableCreateCallExpr(SgThisExp*, bool)`
(lines 204-213). -/
def RtedTransformation.buildVariableCreateCallExpr_this (this : RtedTransformation)
    (exp : SgExpression) (forceinit : Bool) : Option SgExpression :=
  let debug_name := "this"
  this.buildVariableCreateCallExpr (buildPointerDerefExp exp) debug_name forceinit

/-- The convenience function
`buildVariableCreateCallExpr(SgInitializedName*, SgStatement*, bool)`
(lines 215-227). -/
def RtedTransformation.buildVariableCreateCallExpr_initName (this : RtedTransformation)
    (initName : SgInitializedName) (stmt : SgStatement) (forceinit : Bool) :
    Option SgExpression :=
  let _ := stmt
  let initializer := initName.initializer
  let initb := initializer.isSome || forceinit
  let debug_name := initName.name
  this.buildVariableCreateCallExpr (this.buildVarRef initName) debug_name initb

/-- Wraps the call in a statement with its comments
(`buildVariableCreateCallStmt(SgFunctionCallExp*)`, lines 310-319). -/
def buildVariableCreateCallStmt (funcCallExp : SgExpression) : SgExprStatement :=
  { expression := funcCallExp,
    comments := ["", "RS : Create Variable, paramaters : (name, mangl_name, type, basetype, address, sizeof, initialized, fileOpen, classname, filename, linenr, linenrTransformed)"] }

/-- The convenience function `buildVariableCreateCallStmt(SgThisExp*, bool)`
(lines 292-297). -/
def RtedTransformation.buildVariableCreateCallStmt_this (this : RtedTransformation)
    (exp : SgExpression) (forceinit : Bool) : Option SgExprStatement :=
  match this.buildVariableCreateCallExpr_this exp forceinit with
  | none => none
  | some fn_call => some (buildVariableCreateCallStmt fn_call)

/-- The convenience function
`buildVariableCreateCallStmt(SgInitializedName*, SgStatement*, bool)`
(lines 300-308). -/
def RtedTransformation.buildVariableCreateCallStmt_initName (this : RtedTransformation)
    (initName : SgInitializedName) (stmt : SgStatement) (forceinit : Bool) :
    Option SgExprStatement :=
  match this.buildVariableCreateCallExpr_initName initName stmt forceinit with
  | none => none
  | some fn_call => some (buildVariableCreateCallStmt fn_call)

/-- The statement and the scope that the three insert methods work with (lines
128-154, 400-425 and 481-507, the same code three times): for a class
definition the variable declaration that holds the class and the scope of the
class definition, for the global scope the first statement of `main` and its
scope.  `none`: an assertion fails or a null pointer is followed. -/
def RtedTransformation.surroundingScope (this : RtedTransformation) (stmt : SgStatement) :
    Option (SgStatement × Option SgStatement) :=
  match stmt.get_scope with
  | none => none
  | some scope =>
    match scope.variant with
    | .V_SgClassDefinition =>
      match scope.get_parent with
      | none => none
      | some decl =>
        match decl.variant with
        | .V_SgClassDeclaration =>
          match decl.get_parent with
          | none => none
          | some stmt =>
            match stmt.variant with
            | .V_SgVariableDeclaration => some (stmt, scope.get_scope)
            | _ => none
        | _ => none
    | .V_SgGlobal =>
      match this.mainFirst with
      | none => none
      | some stmt => some (stmt, stmt.get_scope)
    | _ => some (stmt, some scope)

/-- Inserts the call that registers the variable `initName`
(`insertVariableCreateCall(SgInitializedName*)`, lines 114-201). -/
def RtedTransformation.insertVariableCreateCall (this : RtedTransformation)
    (initName : SgInitializedName) : Option (List Insertion) :=
  let stmt := this.getSurroundingStatement (.initializedName initName)
  let isExternQual := this.isGlobalExternVariable stmt
  if isExternQual then some []
  else
    match stmt with
    | none => none
    | some stmt =>
      match this.surroundingScope stmt with
      | none => none
      | some (stmt, scope) =>
        if isSgForInitStatement stmt.get_parent then
          match this.buildVariableCreateCallExpr_initName initName stmt
                  this.forceinit_default with
          | none => none
          | some buildVar =>
            some [.prependPseudoForInitializerExpression buildVar
                    (isSgForStatement (stmt.get_parent.bind SgStatement.get_parent))]
        else if this.isNormalScope scope then
          match this.buildVariableCreateCallStmt_initName initName stmt
                  this.forceinit_default with
          | none => none
          | some exprStmt =>
            -- the output of lines 173-175 reads `mainFirst->get_scope()`
            match this.mainFirst with
            | none => none
            | some mainFirst =>
              if stmt.addr == mainFirst.addr
                  && initName.scope != mainFirst.get_scope.map SgStatement.addr then
                match this.mainBody with
                | none => none
                | some mainBody => some [.prepend_statement mainBody exprStmt]
              else some [.insertStatementAfter stmt exprStmt]
        else if isSgNamespaceDefinitionStatement scope then some []
        else none

/-- Builds the call of `roseInitVariable` (`buildVariableInitCallExpr`, lines
322-381); `none` when the assertion on `roseInitVariable` fails or the
expression of an expression statement is null. -/
def RtedTransformation.buildVariableInitCallExpr (this : RtedTransformation)
    (initName : SgInitializedName) (varRefE : SgVarRefExp) (stmt : SgStatement)
    (ismalloc : Bool) : Option SgExpression :=
  let arg_list : List SgExpression := []
  let exp := this.getExprBelowAssignment (.varRefExp varRefE)
  let arg_list := arg_list ++ this.appendTypeInformation_initName none (this.get_type exp)
  let arg_list := arg_list ++ this.appendClassName (this.get_type exp)
  let arg_list := arg_list ++ this.appendAddressAndSize_initName initName exp 0
  let ismallocV := if ismalloc then SgExpression.intVal 1 else SgExpression.intVal 0
  let arg_list := arg_list ++ [ismallocV]
  let is_pointer_change : Option Int :=
    match stmt.variant with
    | .V_SgExprStatement =>
      match stmt.get_expression with
      | none => none
      | some e => some (if isSgPointerType (this.get_type e) then 1 else 0)
    | _ => some 0
  match is_pointer_change with
  | none => none
  | some is_pointer_change =>
    let arg_list := arg_list ++ [.intVal is_pointer_change]
    let filename := SgExpression.stringVal stmt.get_file_info.filename
    let linenr :=
      SgExpression.stringVal (this.RoseBin_support_ToString stmt.get_file_info.line)
    let arg_list := arg_list ++ [filename]
    let arg_list := arg_list ++ [linenr]
    let linenrTransformed := SgExpression.stringVal "x%%x"
    let arg_list := arg_list ++ [linenrTransformed]
    match this.roseInitVariable with
    | none => none
    | some roseInitVariable =>
      some (.functionCallExp (.functionRefExp roseInitVariable) arg_list)

/-- Inserts the call that registers the initialization of a variable
(`insertInitializeVariable`, lines 383-460). -/
def RtedTransformation.insertInitializeVariable (this : RtedTransformation)
    (initName : SgInitializedName) (varRefE : SgVarRefExp) (ismalloc : Bool) :
    Option (List Insertion) :=
  let stmt :=
    if (this.get_parent (.varRefExp varRefE)).isSome then
      this.getSurroundingStatement (.expression (.varRefExp varRefE))
    else this.getSurroundingStatement (.initializedName initName)
  match stmt with
  | none => none
  | some stmt =>
    match this.surroundingScope stmt with
    | none => none
    | some (stmt, scope) =>
      if isSgForInitStatement stmt.get_parent then
        match this.buildVariableInitCallExpr initName varRefE stmt ismalloc with
        | none => none
        | some e =>
          some [.prependPseudoForInitializerExpression e
                  (isSgForStatement (stmt.get_parent.bind SgStatement.get_parent))]
      else if this.isNormalScope scope then
        match this.buildVariableInitCallExpr initName varRefE stmt ismalloc with
        | none => none
        | some funcCallExp =>
          let exprStmt : SgExprStatement :=
            { expression := funcCallExp,
              comments := ["", "RS : Init Variable, paramaters : (name, mangl_name, tpye, basetype, class_name, address, size, ismalloc, is_pointer_change, filename, line, linenrTransformed, error line)"] }
          some [.insertStatementAfter stmt exprStmt]
      else if isSgNamespaceDefinitionStatement scope then some []
      else none

/-- The read/write mask, the accessed expression and the write location of
`insertAccessVariable` (lines 516-546); `none` when `derefExp` is neither a
pointer dereference nor an arrow expression. -/
def RtedTransformation.insertAccessVariable_access (this : RtedTransformation)
    (varRefE : SgVarRefExp) (derefExp : Option SgExpression) :
    Option (Nat × SgExpression × SgExpression) :=
  let read_write_mask := this.Read
  let accessed_exp := SgExpression.varRefExp varRefE
  let write_location_exp := SgExpression.varRefExp varRefE
  match derefExp with
  | none => some (read_write_mask, accessed_exp, write_location_exp)
  | some derefExp =>
    match derefExp with
    | .arrowExp _ lhs_operand _ =>
      some (read_write_mask, buildPointerDerefExp lhs_operand, write_location_exp)
    | .pointerDerefExp _ operand =>
      if this.isUsedAsLvalue derefExp then
        some (read_write_mask ||| this.Write, operand, derefExp)
      else some (read_write_mask, derefExp, write_location_exp)
    | _ => none

/-- The test of lines 471-473 of `insertAccessVariable`:
`parent_dot && parent_dot -> get_lhs_operand() == varRefE`, with
`parent_dot = isSgDotExp( varRefE -> get_parent() )`. -/
def RtedTransformation.insertAccessVariable_isLhsOfDot (this : RtedTransformation)
    (varRefE : SgVarRefExp) : Bool :=
  match this.get_parent (.varRefExp varRefE) with
  | some (.dotExp _ lhs_operand _) => lhs_operand.addr == some varRefE.addr
  | _ => false

/-- Inserts the call that checks the access to a variable
(`insertAccessVariable`, lines 464-588). -/
def RtedTransformation.insertAccessVariable (this : RtedTransformation)
    (varRefE : SgVarRefExp) (derefExp : Option SgExpression) : Option (List Insertion) :=
  let stmt := this.getSurroundingStatement (.expression (.varRefExp varRefE))
  let initName := varRefE.symbol.declaration
  if this.insertAccessVariable_isLhsOfDot varRefE then some []
  else
    match stmt with
    | none => none
    | some stmt =>
      match this.surroundingScope stmt with
      | none => none
      | some (stmt, scope) =>
        if this.isNormalScope scope then
          let arg_list : List SgExpression := []
          match this.insertAccessVariable_access varRefE derefExp with
          | none => none
          | some (read_write_mask, accessed_exp, write_location_exp) =>
            let arg_list :=
              arg_list ++ this.appendAddressAndSize_initName initName accessed_exp 2
            let arg_list :=
              arg_list ++ this.appendAddressAndSize_initName initName write_location_exp 2
            let arg_list := arg_list ++ [.intVal read_write_mask]
            let filename := SgExpression.stringVal stmt.get_file_info.filename
            let linenr :=
              SgExpression.stringVal (this.RoseBin_support_ToString stmt.get_file_info.line)
            let arg_list := arg_list ++ [filename]
            let arg_list := arg_list ++ [linenr]
            let linenrTransformed := SgExpression.stringVal "x%%x"
            let arg_list := arg_list ++ [linenrTransformed]
            match this.roseAccessVariable with
            | none => none
            | some roseAccessVariable =>
              let funcCallExp :=
                SgExpression.functionCallExp (.functionRefExp roseAccessVariable) arg_list
              let exprStmt : SgExprStatement :=
                { expression := funcCallExp,
                  comments := ["", "RS : Access Variable, paramaters : (name, mangl_name, address, sizeof(type), filename, line, line transformed, error Str)"] }
              some [.insertStatementBefore stmt exprStmt]
        else if isSgNamespaceDefinitionStatement scope then some []
        else none

/-! ### Sample program

The samples are taken from the program
`int main() { struct S s; int x; int *p; x = s.y; *p = 1; }`, followed by a
namespace `N` that declares `int g;`. -/

/-- The global scope. -/
def sampleGlobal : SgStatement :=
  .mk 1 .V_SgGlobal { filename := "a.c", line := 0 } none none none

/-- The body of `main`. -/
def sampleMainBody : SgStatement :=
  .mk 31 .V_SgBasicBlock { filename := "a.c", line := 1 } none none (some sampleGlobal)

/-- The variable `s` of `main`. -/
def declS : SgInitializedName :=
  { addr := 40, name := "s", mangled_name := "L0R__s", type := .classType "S",
    initializer := none, scope := some 31 }

/-- The member `y` of `struct S`. -/
def declY : SgInitializedName :=
  { addr := 41, name := "y", mangled_name := "S__scope__y", type := .typeInt,
    initializer := none, scope := some 5 }

/-- The variable `x` of `main`. -/
def declX : SgInitializedName :=
  { addr := 42, name := "x", mangled_name := "L1R__x", type := .typeInt,
    initializer := none, scope := some 31 }

/-- The variable `p` of `main`. -/
def declP : SgInitializedName :=
  { addr := 43, name := "p", mangled_name := "L2R__p", type := .pointerType .typeInt,
    initializer := none, scope := some 31 }

/-- The reference to `s` in `s.y`. -/
def refS : SgVarRefExp := { addr := 21, symbol := { declaration := declS } }

/-- The reference to `y` in `s.y`. -/
def refY : SgVarRefExp := { addr := 22, symbol := { declaration := declY } }

/-- The reference to `p` in `*p`. -/
def refP : SgVarRefExp := { addr := 51, symbol := { declaration := declP } }

/-- The expression `s.y`. -/
def dotSY : SgExpression := .dotExp 20 (.varRefExp refS) (.varRefExp refY)

/-- The expression `*p`, the left-hand side of `*p = 1`. -/
def derefP : SgExpression := .pointerDerefExp 50 (.varRefExp refP)

/-- The statement `x = s.y;` of `main`. -/
def stmtAssignSY : SgStatement :=
  .mk 30 .V_SgExprStatement { filename := "a.c", line := 3 }
    (some (.other 19 "SgAssignOp"
      [.varRefExp { addr := 18, symbol := { declaration := declX } }, dotSY]))
    (some sampleMainBody) (some sampleMainBody)

/-- The definition of namespace `N`. -/
def sampleNamespace : SgStatement :=
  .mk 60 .V_SgNamespaceDefinitionStatement { filename := "a.c", line := 5 } none none
    (some sampleGlobal)

/-- The declaration `int g;` in namespace `N`. -/
def stmtDeclG : SgStatement :=
  .mk 61 .V_SgVariableDeclaration { filename := "a.c", line := 5 } none (some sampleNamespace)
    (some sampleNamespace)

/-- The variable `g` of namespace `N`. -/
def declG : SgInitializedName :=
  { addr := 62, name := "g", mangled_name := "N__scope__g", type := .typeInt,
    initializer := none, scope := some 60 }

/-- A reference to `g`. -/
def refG : SgVarRefExp := { addr := 63, symbol := { declaration := declG } }

/-- A sample transformation object for the sample program: a normal scope is a
basic block, every node is in the statement `x = s.y;`, `*p` is used as an
lvalue, `Read` is 1 and `Write` is 2, and the append functions give the address
and the size of the expression, two strings for the type and one for the class
name. -/
def sampleRted : RtedTransformation :=
  { mainFirst := some stmtAssignSY
    mainBody := some sampleMainBody
    roseCreateVariable := some { name := "RuntimeSystem_roseCreateVariable" }
    roseInitVariable := some { name := "RuntimeSystem_roseInitVariable" }
    roseAccessVariable := some { name := "RuntimeSystem_roseAccessVariable" }
    Read := 1
    Write := 2
    forceinit_default := false
    getSurroundingStatement := fun _ => some stmtAssignSY
    isGlobalExternVariable := fun _ => false
    isNormalScope := fun s =>
      match s with
      | some s => s.variant == .V_SgBasicBlock
      | none => false
    isUsedAsLvalue := fun e => e.addr == some 50
    getExprBelowAssignment := fun e => e
    buildVarRef := fun n => .varRefExp { addr := 0, symbol := { declaration := n } }
    RoseBin_support_ToString := fun n => toString n
    appendTypeInformation := fun _ => [.stringVal "type", .stringVal "basetype"]
    appendTypeInformation_initName := fun _ _ => [.stringVal "type", .stringVal "basetype"]
    appendAddressAndSize_initName := fun _ e _ =>
      [.other 0 "SgAddressOfOp" [e], .other 0 "SgSizeOfOp" [e]]
    appendAddressAndSize_exp := fun e _ _ =>
      [.other 0 "SgAddressOfOp" [e], .other 0 "SgSizeOfOp" [e]]
    appendClassName := fun _ => [.stringVal ""]
    get_type := fun _ => .typeInt
    get_file_info := fun _ => { filename := "a.c", line := 3 }
    get_parent := fun e =>
      if e.addr == some 21 || e.addr == some 22 then some dotSY else none }

/-- The sample object when the node at hand is in the declaration `int g;` of
namespace `N`. -/
def namespaceRted : RtedTransformation :=
  { sampleRted with getSurroundingStatement := fun _ => some stmtDeclG }

end Rted

/-- The declaration `int y`. -/
def declY : SgInitializedName :=
  { addr := 11, name := "y", type := .typeInt,
    scopeIsFunctionDefinition := false, symbol_from_symbol_table := some 12 }

/-- The symbol of `y`. -/
def symY : SgVariableSymbol := { addr := 12, declaration := declY }

/-- The declaration `int z`. -/
def declZ : SgInitializedName :=
  { addr := 13, name := "z", type := .typeInt,
    scopeIsFunctionDefinition := false, symbol_from_symbol_table := some 14 }

/-- The symbol of `z`. -/
def symZ : SgVariableSymbol := { addr := 14, declaration := declZ }

/-- The declaration `int t`. -/
def declT : SgInitializedName :=
  { addr := 15, name := "t", type := .typeInt,
    scopeIsFunctionDefinition := false, symbol_from_symbol_table := some 16 }

/-- The symbol of `t`. -/
def symT : SgVariableSymbol := { addr := 16, declaration := declT }

/-- The declaration `int u`. -/
def declU : SgInitializedName :=
  { addr := 17, name := "u", type := .typeInt,
    scopeIsFunctionDefinition := false, symbol_from_symbol_table := some 18 }

/-- The symbol of `u`. -/
def symU : SgVariableSymbol := { addr := 18, declaration := declU }

/-- The statement `y = 2;`. -/
def stmtAssignY : SgNode := .exprStatement (.assignOp (.varRefExp symY) (.intVal 2))

/-- The statement `z = 5;`. -/
def stmtAssignZ : SgNode := .exprStatement (.assignOp (.varRefExp symZ) (.intVal 5))

/-- The statement `t = 3;`. -/
def stmtAssignT : SgNode := .exprStatement (.assignOp (.varRefExp symT) (.intVal 3))

/-- The name of the variable that an assignment statement assigns to, when its
left-hand side is a plain reference. -/
def assignedName : SgNode → Option String
  | .exprStatement (.assignOp (.varRefExp s) _) => some s.declaration.name
  | _ => none

/-- The name of the variable that an assignment statement stores, when its
right-hand side is a plain reference and its left-hand side is a dereference:
the local of a repack statement. -/
def storedName : SgNode → Option String
  | .exprStatement (.assignOp (.pointerDerefExp _ _) (.varRefExp s)) => some s.declaration.name
  | _ => none

/-- The index `k` of the element `__out_argv[k]` that the initializer of a
declaration reads, directly under its cast or under the dereference of the
cast. -/
def unpackedIndex : SgNode → Option Int
  | .variableDeclaration _ (some (.assignInitializer
      (.pointerDerefExp (.castExp (.pntrArrRefExp _ (.intVal k)) _ _) _))) => some k
  | .variableDeclaration _ (some (.assignInitializer
      (.castExp (.pntrArrRefExp _ (.intVal k)) _ _))) => some k
  | _ => none

/-- The function in which the sample block `x = 1; y = 2; z = 5; t = 3;` was
put. -/
def funcXYZT : AstState := emptyFunc [stmtAssignX, stmtAssignY, stmtAssignZ, stmtAssignT]

/-- The state that `variableHandling` returns in temp-variable mode for C on the
body `x = 1; y = 2; z = 5; t = 3;` with `syms` = x, y, z, where `y` is
firstprivate and uses pointer dereferencing, and with the private variables
t, u. -/
def handledXYZ : LoopState :=
  (variableHandling tempMode langC sampleCollaborators [symX, symY, symZ] [symY] [symT, symU]
    [symY] [] [] [] funcXYZT).getD loopStartX

/-- The state that `variableHandling` returns for the same body and `syms` with
the wrapper in temp-variable mode for C, no variable being private,
firstprivate or using pointer dereferencing. -/
def wrappedXYZ : LoopState :=
  (variableHandling wrapperMode langC sampleCollaborators [symX, symY, symZ] [] [] [] [] [] []
    funcXYZT).getD loopStartX

/-- What `generateFunction` returns for the block `x = 1; y = 2; z = 5; t = 3;`
with the sets of `handledXYZ`, as the function `OUT__1__` in an empty scope. -/
def generatedXYZ : Generated :=
  (generateFunction tempMode langC sampleCollaborators
    [stmtAssignX, stmtAssignY, stmtAssignZ, stmtAssignT] [] "OUT__1__" [symX, symY, symZ]
    [symY] [symT, symU] [symY] [] [] 100).getD generatedX

/-- The state in which the loop of `variableHandling` starts for the body of
`funcXYZT` with the private variables t, u. -/
def loopStartTU : LoopState := (variableHandling_init [symT, symU] funcXYZT).getD loopStartX

/-- The state after the rounds for `z` and `y` of the run that gives
`handledXYZ`. -/
def loopAfterZY : LoopState :=
  (variableHandling_loop tempMode langC sampleCollaborators [symY] [symY] [] [] true
    [symZ, symY] loopStartTU).getD loopStartX

/-- The state after steps 1 and 2 of the round for `x` that follows
`loopAfterZY`. -/
def loopAfterZYUnpackX : LoopState :=
  (variableHandling_unpack tempMode langC sampleCollaborators [symY] [symY] [] false symX
    loopAfterZY).getD loopStartX

/-! ## Theorems -/

/-- An optional value that is there is its value, taken with any default. -/
theorem option_eq_some_getD {α : Type} (o : Option α) (d : α) (h : o.isSome = true) :
    o = some (o.getD d) := by
  cases o with
  | none => simp at h
  | some a => rfl


mutual
/-- A deep copy is structurally identical to the original subtree. -/
theorem deepCopy_eq : ∀ n : SgNode, deepCopy n = n
  | .varRefExp _ => rfl
  | .intVal _ => rfl
  | .pntrArrRefExp a b => by simp [deepCopy, deepCopy_eq a, deepCopy_eq b]
  | .castExp e _ _ => by simp [deepCopy, deepCopy_eq e]
  | .pointerDerefExp e _ => by simp [deepCopy, deepCopy_eq e]
  | .assignOp a b => by simp [deepCopy, deepCopy_eq a, deepCopy_eq b]
  | .assignInitializer e => by simp [deepCopy, deepCopy_eq e]
  | .variableDeclaration _ i => by simp [deepCopy, deepCopyOption_eq i]
  | .exprStatement e => by simp [deepCopy, deepCopy_eq e]
  | .basicBlock ss => by simp [deepCopy, deepCopyList_eq ss]
  | .forStatement a b c d => by
      simp [deepCopy, deepCopy_eq a, deepCopy_eq b, deepCopy_eq c, deepCopy_eq d]
  | .functionDefinition _ _ b => by simp [deepCopy, deepCopy_eq b]
  | .lambdaExp b => by simp [deepCopy, deepCopy_eq b]
  | .other _ cs => by simp [deepCopy, deepCopyList_eq cs]
/-- Deep copies of the children are identical to the children. -/
theorem deepCopyList_eq : ∀ ns : List SgNode, deepCopyList ns = ns
  | [] => rfl
  | n :: ns => by simp [deepCopyList, deepCopy_eq n, deepCopyList_eq ns]
/-- The deep copy of an optional child is identical to it. -/
theorem deepCopyOption_eq : ∀ n : Option SgNode, deepCopyOption n = n
  | none => rfl
  | some n => by simp [deepCopyOption, deepCopy_eq n]
end

/-- What `createPackExpr` read from the declaration when it returns an assignment. -/
theorem createPackExpr_some (o : Outliner) (l : SageInterface) (d : SgVariableDeclaration)
    (scope : Option SgSymbolTable) (a : SgNode)
    (h : createPackExpr o l d scope = some (some a)) :
    ∃ operand need_paren tbl sym,
      d.initializer = some (.assignInitializer (.pointerDerefExp operand need_paren)) ∧
      scope = some tbl ∧ lookup_var_symbol tbl d.var.name = some sym ∧
      a = .assignOp (.pointerDerefExp operand need_paren) (.varRefExp sym) := by
  unfold createPackExpr at h
  split at h
  · simp at h
  split at h
  · simp at h
  split at h
  · split at h
    · rename_i operand_i hinit
      split at h
      · rename_i e p
        simp only [deepCopy_eq] at h
        split at h
        · simp at h
        · rename_i tbl
          split at h
          · simp at h
          · rename_i sym hsym
            simp at h
            exact ⟨e, p, tbl, sym, hinit, rfl, hsym, h.symm⟩
      · simp at h
    · simp at h
  · simp at h

/-- The declaration built by `createUnpackDecl`, spelled out. -/
theorem createUnpackDecl_some (o : Outliner) (l : SageInterface) (param : SgInitializedName)
    (index : Int) (isPD : Bool) (i_name : SgInitializedName) (ast : AstState)
    (d : SgVariableDeclaration) (ast1 : AstState)
    (h : createUnpackDecl o l (some param) index isPD i_name ast = some (d, ast1)) :
    ∃ local_val,
      createUnpackDecl_local_val o l isPD (createUnpackDecl_cast_expr o param index i_name)
        = some local_val ∧
      (d, ast1) = buildVariableDeclaration
        (if l.is_Fortran_language then param.name else i_name.name)
        (createUnpackDecl_local_type o l isPD i_name) local_val true ast := by
  unfold createUnpackDecl at h
  simp only at h
  split at h
  · simp at h
  · rename_i local_val hv
    simp only [Option.some.injEq] at h
    exact ⟨local_val, hv, h.symm⟩

/-- C4: whenever `createPackExpr` returns an assignment for a declaration, the
declaration's initializer is an assign-initializer whose operand is a pointer
dereference, the left-hand side of the assignment is that very dereference
(same operand, same parenthesis flag) and the right-hand side is a reference to
the symbol found under the local's name in the local's scope; when the
declaration was built by `createUnpackDecl`, the dereferenced operand is the
C-style cast, to the same pointer type, of the parameter or of the wrapper
element `__out_argv[index]`. -/
theorem createPackExpr_mirrors_unpack (o : Outliner) (l : SageInterface)
    (d : SgVariableDeclaration) (scope : Option SgSymbolTable) (a : SgNode)
    (h : createPackExpr o l d scope = some (some a)) :
    ∃ operand need_paren tbl sym,
      d.initializer = some (.assignInitializer (.pointerDerefExp operand need_paren)) ∧
      scope = some tbl ∧ lookup_var_symbol tbl d.var.name = some sym ∧
      a = .assignOp (.pointerDerefExp operand need_paren) (.varRefExp sym) ∧
      ∀ (param : SgInitializedName) (index : Int) (isPD : Bool) (i_name : SgInitializedName)
        (ast ast1 : AstState),
        createUnpackDecl o l (some param) index isPD i_name ast = some (d, ast1) →
        need_paren = false ∧
        operand = createUnpackDecl_cast_expr o param index i_name ∧
        ∃ T, operand = .castExp
          (if o.useParameterWrapper then .pntrArrRefExp (buildVarRefExp param) (.intVal index)
           else buildVarRefExp param) (.pointerType T) true := by
  obtain ⟨operand, need_paren, tbl, sym, hinit, hscope, hsym, ha⟩ :=
    createPackExpr_some o l d scope a h
  refine ⟨operand, need_paren, tbl, sym, hinit, hscope, hsym, ha, ?_⟩
  intro param index isPD i_name ast ast1 hu
  obtain ⟨local_val, hv, hd⟩ := createUnpackDecl_some o l param index isPD i_name ast d ast1 hu
  have hd1 : d.initializer = local_val := by
    have := congrArg (fun x => x.1.initializer) hd
    simpa [buildVariableDeclaration] using this
  rw [hinit] at hd1
  subst hd1
  unfold createUnpackDecl_local_val at hv
  have hshape : ∃ T, createUnpackDecl_cast_expr o param index i_name = .castExp
      (if o.useParameterWrapper then .pntrArrRefExp (buildVarRefExp param) (.intVal index)
       else buildVarRefExp param) (.pointerType T) true := by
    unfold createUnpackDecl_cast_expr
    exact ⟨_, rfl⟩
  obtain ⟨T, hT⟩ := hshape
  rw [hT] at hv
  split at hv
  · simp at hv
  split at hv
  · split at hv
    · simp at hv
    · simp at hv
      refine ⟨hv.2, ?_, T, hv.1.symm⟩
      rw [hT]; exact hv.1.symm
  split at hv
  · simp at hv
  split at hv
  · simp at hv
    refine ⟨hv.2, ?_, T, hv.1.symm⟩
    rw [hT]; exact hv.1.symm
  · simp at hv

/-- Witness for C4: the unpack declaration `int x = *(int *) xp__;`. -/
theorem createPackExpr_mirrors_unpack_witness :
    createPackExpr tempMode langC unpackX (some [("x", localSymX)])
      = some (some (.assignOp
          (.pointerDerefExp (.castExp (buildVarRefExp paramXp) (.pointerType .typeInt) true) false)
          (.varRefExp localSymX))) ∧
    (createUnpackDecl tempMode langC (some paramXp) 0 false declX funcWithXp).map (·.1.var)
      = some unpackX.var ∧
    ∃ operand need_paren tbl sym,
      unpackX.initializer = some (.assignInitializer (.pointerDerefExp operand need_paren)) ∧
      some [("x", localSymX)] = some tbl ∧ lookup_var_symbol tbl unpackX.var.name = some sym ∧
      SgNode.assignOp
          (.pointerDerefExp (.castExp (buildVarRefExp paramXp) (.pointerType .typeInt) true) false)
          (.varRefExp localSymX)
        = .assignOp (.pointerDerefExp operand need_paren) (.varRefExp sym) ∧
      ∀ (param : SgInitializedName) (index : Int) (isPD : Bool) (i_name : SgInitializedName)
        (ast ast1 : AstState),
        createUnpackDecl tempMode langC (some param) index isPD i_name ast = some (unpackX, ast1) →
        need_paren = false ∧
        operand = createUnpackDecl_cast_expr tempMode param index i_name ∧
        ∃ T, operand = .castExp
          (if tempMode.useParameterWrapper then
             .pntrArrRefExp (buildVarRefExp param) (.intVal index)
           else buildVarRefExp param) (.pointerType T) true :=
  ⟨by rfl, by rfl, createPackExpr_mirrors_unpack _ _ _ _ _ (by rfl)⟩

/-- No type is a pointer to itself. -/
theorem pointerType_ne_self (t : SgType) : SgType.pointerType t ≠ t := by
  intro h
  have := congrArg sizeOf h
  simp at this

/-- Appending the suffix "p__" changes a name. -/
theorem append_suffix_ne_self (s : String) : s ++ "p__" ≠ s := by
  intro h
  have := congrArg String.length h
  simp [String.length_append] at this
  revert this
  decide

/-- C9: for input that is not Fortran, `createParam` returns the unchanged name
with the base type exactly when classic mode is on and `readOnly` is true, and in
every other case the name with the suffix "p__" (a different name) with a
pointer to the base type. -/
theorem createParam_by_value_iff_classic_readOnly (o : Outliner) (l : SageInterface)
    (q : Collaborators) (v : SgInitializedName) (readOnly : Bool)
    (hlang : l.is_Fortran_language = false) :
    ((o.enable_classic = true ∧ readOnly = true) →
      createParam o l q v readOnly = (v.name, createParam_base_type o q v)) ∧
    (¬(o.enable_classic = true ∧ readOnly = true) →
      createParam o l q v readOnly
        = (v.name ++ "p__", .pointerType (createParam_base_type o q v)) ∧
      v.name ++ "p__" ≠ v.name) ∧
    ((createParam o l q v readOnly).1 = v.name ↔ (o.enable_classic = true ∧ readOnly = true)) ∧
    ((createParam o l q v readOnly).2 = createParam_base_type o q v
      ↔ (o.enable_classic = true ∧ readOnly = true)) := by
  have hne := append_suffix_ne_self v.name
  have hpt := pointerType_ne_self (createParam_base_type o q v)
  cases hc : o.enable_classic <;> cases hr : readOnly <;>
    simp [createParam, hlang, hc, hne, hpt]

/-- Witness for C9: `int x`, read-only, in classic mode for C. -/
theorem createParam_by_value_iff_classic_readOnly_witness :
    langC.is_Fortran_language = false ∧
    createParam classicMode langC sampleCollaborators declX true = ("x", .typeInt) ∧
    createParam classicMode langC sampleCollaborators declX false
      = ("xp__", .pointerType .typeInt) ∧
    createParam tempMode langC sampleCollaborators declX true
      = ("xp__", .pointerType .typeInt) :=
  ⟨rfl,
   ((createParam_by_value_iff_classic_readOnly classicMode langC sampleCollaborators declX true
      rfl).1 ⟨rfl, rfl⟩).trans (by rfl),
   by rfl, by rfl⟩

/-- The test `isBaseTypePrimitive` accepts exactly the types whose base type is
one of the primitive types of the specification. -/
theorem isBaseTypePrimitive_iff_spec (q : Collaborators) (t : SgType) :
    isBaseTypePrimitive q (some t) = true ↔ specBaseIsPrimitive q t := by
  unfold isBaseTypePrimitive specBaseIsPrimitive
  cases hb : q.findBaseType t with
  | none => simp [hb]
  | some b => cases b <;> simp [hb, specPrimitiveTypes]

/-- C10: the base type chosen by `createParam` is the one the specification
describes (`specParamBaseType`): the declared type, array-parameter decayed and
reference removed, when the base type is primitive or classic mode is on, and
`void` (const-qualified for a const object) otherwise; the type `createParam`
returns is that base type or a pointer to it. -/
theorem createParam_base_type_eq_spec (o : Outliner) (q : Collaborators)
    (v : SgInitializedName) :
    createParam_base_type o q v = specParamBaseType o q v ∧
    ∀ (l : SageInterface) (readOnly : Bool),
      (createParam o l q v readOnly).2 = specParamBaseType o q v ∨
      (createParam o l q v readOnly).2 = .pointerType (specParamBaseType o q v) := by
  have h1 : createParam_base_type o q v = specParamBaseType o q v := by
    unfold createParam_base_type specParamBaseType
    have hprim := isBaseTypePrimitive_iff_spec q v.type
    unfold specBaseIsPrimitive at hprim
    by_cases hp : (isBaseTypePrimitive q (some v.type) || o.enable_classic) = true
    · have hp2 : (∃ b, q.findBaseType v.type = some b ∧ b ∈ specPrimitiveTypes) ∨
          o.enable_classic = true := by
        rw [← hprim]
        simpa using hp
      simp only [hp, if_true]
      rw [if_pos hp2]
      cases hs : v.scopeIsFunctionDefinition <;> cases ht : v.type <;>
        simp [isSgArrayType, isSgReferenceType]
    · have hp2 : ¬((∃ b, q.findBaseType v.type = some b ∧ b ∈ specPrimitiveTypes) ∨
          o.enable_classic = true) := by
        rw [← hprim]
        simpa using hp
      simp only [hp, if_false]
      rw [if_neg hp2]
      cases q.isConstObj v.type <;> simp
  refine ⟨h1, ?_⟩
  intro l readOnly
  rw [← h1]
  cases hc : o.enable_classic <;> cases hr : readOnly <;> cases hf : l.is_Fortran_language <;>
    simp [createParam, hc, hf]

/-- The traversal of a list of children handles each child. -/
theorem remapList_eq_map (f : SgVariableSymbol → SgNode) :
    ∀ ns : List SgNode, remapList f ns = ns.map (remapNode f)
  | [] => rfl
  | n :: ns => by simp [remapList, remapList_eq_map f ns]

/-- The traversal of an optional child handles the child. -/
theorem remapOption_eq_map (f : SgVariableSymbol → SgNode) (n : Option SgNode) :
    remapOption f n = n.map (remapNode f) := by
  cases n <;> rfl

/-- Away from the references, the traversal keeps every node in place: the
successors of the image are the images of the successors. -/
theorem children_remapNode (f : SgVariableSymbol → SgNode) (n : SgNode)
    (h : ∀ s, n ≠ .varRefExp s) :
    (remapNode f n).children = n.children.map (remapNode f) := by
  cases n <;>
    simp [remapNode, SgNode.children, remapList_eq_map, remapOption_eq_map] at h ⊢
  case variableDeclaration v i => cases i <;> simp

/-- A reference that sits at `path` is replaced, at the same place, by the node
that the loop body makes of it. -/
theorem nodeAt_remapNode (f : SgVariableSymbol → SgNode) (s : SgVariableSymbol) :
    ∀ (path : List Nat) (n : SgNode), n.nodeAt path = some (.varRefExp s) →
      (remapNode f n).nodeAt path = some (f s)
  | [], n, h => by
      simp only [SgNode.nodeAt, Option.some.injEq] at h
      subst h
      simp [SgNode.nodeAt, remapNode]
  | i :: path, n, h => by
      have hn : ∀ s0, n ≠ .varRefExp s0 := by
        intro s0 h0
        subst h0
        simp [SgNode.nodeAt, SgNode.children] at h
      simp only [SgNode.nodeAt] at h ⊢
      rw [children_remapNode f n hn]
      cases hc : n.children[i]? with
      | none => simp [hc] at h
      | some c =>
        simp only [hc] at h
        simp only [List.getElem?_map, hc, Option.map_some']
        exact nodeAt_remapNode f s path c h
/-- Past the early return, `remapVarSyms` is the traversal of the block. -/
theorem remapVarSyms_block (o : Outliner) (l : SageInterface) (vsym_remap : VarSymRemap_t)
    (pdSyms : VarSymSet_t) (private_remap : VarSymRemap_t) (b : List SgNode)
    (h : (vsym_remap.isEmpty && private_remap.isEmpty) = false) :
    SgNode.basicBlock (remapVarSyms o l vsym_remap pdSyms private_remap b)
      = remapNode (remapVarRef o l vsym_remap pdSyms private_remap) (.basicBlock b) := by
  simp [remapVarSyms, h, remapNode]

/-- C6: a variable reference of the block whose symbol is a key of both the
private remap and the shared remap is re-pointed, in place, to the symbol of the
private remap by a plain swap of the symbol; the shared entry is not used.  This
holds for every language and every setting of the flags. -/
theorem remapVarSyms_private_wins (o : Outliner) (l : SageInterface)
    (vsym_remap : VarSymRemap_t) (pdSyms : VarSymSet_t) (private_remap : VarSymRemap_t)
    (b : List SgNode) (path : List Nat) (s p q : SgVariableSymbol)
    (href : (SgNode.basicBlock b).nodeAt path = some (.varRefExp s))
    (hprivate : private_remap.find s.addr = some p)
    (hshared : vsym_remap.find s.addr = some q) :
    (SgNode.basicBlock (remapVarSyms o l vsym_remap pdSyms private_remap b)).nodeAt path
      = some (.varRefExp p) := by
  have _ := hshared
  have hne : (vsym_remap.isEmpty && private_remap.isEmpty) = false := by
    cases private_remap with
    | nil => simp [VarSymRemap_t.find] at hprivate
    | cons e es => simp
  rw [remapVarSyms_block o l vsym_remap pdSyms private_remap b hne]
  rw [nodeAt_remapNode _ s path _ href]
  simp [remapVarRef, hprivate]

/-- Witness for C6: the reference to `x` in `x = 1;`, with `x` in both tables. -/
theorem remapVarSyms_private_wins_witness :
    (SgNode.basicBlock [stmtAssignX]).nodeAt [0, 0, 0] = some (.varRefExp symX) ∧
    (SgNode.basicBlock (remapVarSyms tempMode langC
        [(4, { addr := 101, declaration := paramXp })] [symX] [(4, localSymX)]
        [stmtAssignX])).nodeAt [0, 0, 0] = some (.varRefExp localSymX) :=
  ⟨rfl, remapVarSyms_private_wins tempMode langC [(4, { addr := 101, declaration := paramXp })]
    [symX] [(4, localSymX)] [stmtAssignX] [0, 0, 0] symX localSymX
    { addr := 101, declaration := paramXp } rfl rfl rfl⟩

/-- C7: a variable reference whose symbol is a key of neither remap table is the
same reference at the same place afterwards, and with two empty tables the block
comes back as it was, whatever `pdSyms` holds. -/
theorem remapVarSyms_frame (o : Outliner) (l : SageInterface) (pdSyms : VarSymSet_t)
    (b : List SgNode) :
    (∀ (vsym_remap private_remap : VarSymRemap_t) (path : List Nat) (s : SgVariableSymbol),
      (SgNode.basicBlock b).nodeAt path = some (.varRefExp s) →
      vsym_remap.find s.addr = none → private_remap.find s.addr = none →
      (SgNode.basicBlock (remapVarSyms o l vsym_remap pdSyms private_remap b)).nodeAt path
        = some (.varRefExp s)) ∧
    remapVarSyms o l [] pdSyms [] b = b := by
  constructor
  · intro vsym_remap private_remap path s href hs hp
    by_cases hne : (vsym_remap.isEmpty && private_remap.isEmpty) = true
    · simp [remapVarSyms, hne, href]
    · have hne : (vsym_remap.isEmpty && private_remap.isEmpty) = false := by simpa using hne
      rw [remapVarSyms_block o l vsym_remap pdSyms private_remap b hne]
      rw [nodeAt_remapNode _ s path _ href]
      simp [remapVarRef, hs, hp]
  · simp [remapVarSyms]

/-- Witness for C7: the reference to `x` in `x = 1;` when only `p` is remapped. -/
theorem remapVarSyms_frame_witness :
    (SgNode.basicBlock (remapVarSyms tempMode langC
        [(2, { addr := 101, declaration := paramXp })] [symX] [] [stmtAssignX])).nodeAt [0, 0, 0]
      = some (.varRefExp symX) ∧
    remapVarSyms tempMode langC [] [symX] [] [stmtAssignX] = [stmtAssignX] :=
  ⟨(remapVarSyms_frame tempMode langC [symX] [stmtAssignX]).1
      [(2, { addr := 101, declaration := paramXp })] [] [0, 0, 0] symX rfl rfl rfl,
   (remapVarSyms_frame tempMode langC [symX] [stmtAssignX]).2⟩

set_option maxHeartbeats 4000000 in
/-- C1, at the failing input: in temp-variable mode for C, classic mode off, the
variable `const int *p` (not in pdSyms, not read-only, live-out because liveness
is off, its type neither a reference nor const-qualified itself) gets its
parameter and its unpack declaration but no repack statement, because
`isReadOnlyType` answers true for a pointer to const data and `createPackExpr`
then returns NULL for every such local; `int x` in the same setting does get
the repack statement at the end of the body. -/
theorem variableHandling_pointer_to_const_not_repacked :
    (variableHandling tempMode langC sampleCollaborators [symP] [] [] [] [] [] []
        (emptyFunc [stmtAssignP])).map (fun st => (st.ast.args, st.ast.body))
      = some ([paramPp],
          [unpackP.toNode,
           .exprStatement (.assignOp (.varRefExp remapSymP) (.varRefExp remapSymP))]) ∧
    (variableHandling tempMode langC sampleCollaborators [symX] [] [] [] [] [] []
        (emptyFunc [stmtAssignX])).map (fun st => (st.ast.args, st.ast.body))
      = some ([paramXp],
          [unpackX.toNode,
           .exprStatement (.assignOp (.varRefExp remapSymX) (.intVal 1)),
           repackX]) ∧
    isReadOnlyType declP.type = true ∧
    ∀ (o : Outliner) (l : SageInterface) (d : SgVariableDeclaration)
      (scope : Option SgSymbolTable) (v : Bool) (b : SgType),
      d.var.type = .pointerType (.modifierType true v b) →
      createPackExpr o l d scope = some none := by
  refine ⟨by rfl, by rfl, by rfl, ?_⟩
  intro o l d scope v b ht
  simp [createPackExpr, ht, isSgReferenceType, isReadOnlyType, isSgModifierType]

/-- The sample `moveStatementsBetweenBlocks` leaves the source block empty and
gives what it held to the target block. -/
theorem sampleCollaborators_move (a b : List SgNode × SgSymbolTable) :
    sampleCollaborators.moveStatementsBetweenBlocks a b = (([], []), a) := rfl

/-- The collaborators that reuse a function symbol move the statements as the
sample ones do. -/
theorem reusingCollaborators_move (a b : List SgNode × SgSymbolTable) :
    reusingCollaborators.moveStatementsBetweenBlocks a b = (([], []), a) := rfl

set_option maxHeartbeats 4000000 in
/-- C2, at the failing input: with liveness enabled and a block whose first
statement is the assignment `x = 1;` (not a for loop), `generateFunction` leaves
`liveOuts` empty and `variableHandling` then treats `x` (not read-only, not in
pdSyms, type `int`) as not live-out: the body gets the unpack declaration and
no repack statement, and with an empty live-out set no variable at all gets
one.  With liveness disabled the same block does get the repack of `x`. -/
theorem generateFunction_liveness_without_loop_drops_repack :
    generateFunction_analysis tempLivenessMode sampleCollaborators [stmtAssignX] = ([], []) ∧
    (generateFunction tempLivenessMode langC sampleCollaborators [stmtAssignX] [] "OUT__1__"
        [symX] [] [] [] [] [] 100).map (fun g => g.func.ast.body)
      = some [unpackX.toNode,
              .exprStatement (.assignOp (.varRefExp remapSymX) (.intVal 1))] ∧
    (generateFunction tempMode langC sampleCollaborators [stmtAssignX] [] "OUT__1__"
        [symX] [] [] [] [] [] 100).map (fun g => g.func.ast.body)
      = some [unpackX.toNode,
              .exprStatement (.assignOp (.varRefExp remapSymX) (.intVal 1)),
              repackX] ∧
    ∀ (o : Outliner) (l : SageInterface) (pdSyms : VarSymSet_t) (readOnlyVars : InitNameSet)
      (i : SgVariableSymbol) (st : LoopState) (pack : SgNode),
      o.temp_variable = true → o.enable_liveness = true →
      variableHandling_repack o l pdSyms readOnlyVars [] i st ≠ some (some pack) := by
  refine ⟨by rfl, by simp only [generateFunction, sampleCollaborators_move]; rfl,
    by simp only [generateFunction, sampleCollaborators_move]; rfl, ?_⟩
  intro o l pdSyms readOnlyVars i st pack ht hl h
  unfold variableHandling_repack at h
  simp only [ht, hl, InitNameSet.has, List.contains_nil, Bool.and_false, if_true] at h
  split at h
  · simp at h
  · split at h
    · simp at h
    · split at h
      · simp at h
        cases hd : debugTrace o (match st.local_var_decl with
            | some d => Option.map (fun _ => d) (d.get_decl_item i.declaration.name)
            | none => none) <;> simp [hd] at h
      · cases hd : debugTrace o (match st.local_var_decl with
            | some d => Option.map (fun _ => d) (d.get_decl_item i.declaration.name)
            | none => none) <;> simp [hd] at h

/-- Step 1 only touches the AST: the tables and the declaration variables of the
loop are left as they are. -/
theorem variableHandling_step1_frame (o : Outliner) (l : SageInterface) (q : Collaborators)
    (readOnlyVars : InitNameSet) (isFirst : Bool) (i : SgVariableSymbol)
    (st st1 : LoopState) (p : Option SgInitializedName)
    (h : variableHandling_step1 o l q readOnlyVars isFirst i st = some (p, st1)) :
    st1.sym_remap = st.sym_remap ∧ st1.private_remap = st.private_remap ∧
    st1.local_var_decl = st.local_var_decl ∧ st1.args_scope = st.args_scope ∧
    st1.counter = st.counter := by
  unfold variableHandling_step1 at h
  simp only at h
  split at h
  · simp only [Option.some.injEq, Prod.mk.injEq] at h
    obtain ⟨_, h2⟩ := h
    subst h2
    split <;> simp
  · split at h
    · simp at h
    · simp only [Option.some.injEq, Prod.mk.injEq] at h
      obtain ⟨_, h2⟩ := h
      subst h2
      simp

/-- In classic mode a round of steps 1 and 2 never sets `local_var_decl`. -/
theorem variableHandling_unpack_classic_local (o : Outliner) (l : SageInterface)
    (q : Collaborators) (pdSyms fpSyms : VarSymSet_t) (readOnlyVars : InitNameSet)
    (isFirst : Bool) (i : SgVariableSymbol) (st st2 : LoopState)
    (hc : o.enable_classic = true)
    (h : variableHandling_unpack o l q pdSyms fpSyms readOnlyVars isFirst i st = some st2) :
    st2.local_var_decl = st.local_var_decl := by
  unfold variableHandling_unpack at h
  split at h
  · simp at h
  · rename_i p st1 h1
    have hf := (variableHandling_step1_frame o l q readOnlyVars isFirst i st st1 p h1).2.2.1
    rw [← hf]
    unfold variableHandling_step2 at h
    simp only [hc, if_true] at h
    split at h
    · simp at h
    · split at h
      · split at h
        · simp at h
        · simp only [Option.some.injEq] at h
          subst h
          rfl
      · simp only [Option.some.injEq] at h
        subst h
        rfl

/-- With classic mode off, steps 1 and 2 leave in `local_var_decl` the
declaration that `createUnpackDecl` built in this round. -/
theorem variableHandling_unpack_local (o : Outliner) (l : SageInterface)
    (q : Collaborators) (pdSyms fpSyms : VarSymSet_t) (readOnlyVars : InitNameSet)
    (isFirst : Bool) (i : SgVariableSymbol) (st st2 : LoopState)
    (hc : o.enable_classic = false)
    (h : variableHandling_unpack o l q pdSyms fpSyms readOnlyVars isFirst i st = some st2) :
    ∃ (isPD : Bool) (param : SgInitializedName) (index : Int) (ast ast1 : AstState)
      (d : SgVariableDeclaration),
      variableHandling_isPointerDeref o pdSyms i.declaration = some isPD ∧
      createUnpackDecl o l (some param) index isPD i.declaration ast = some (d, ast1) ∧
      st2.local_var_decl = some d := by
  unfold variableHandling_unpack at h
  split at h
  · simp at h
  · rename_i p st1 h1
    unfold variableHandling_step2 at h
    simp only [hc] at h
    split at h
    · simp at h
    · rename_i isPD hpd
      simp only [Bool.false_eq_true, if_false] at h
      unfold variableHandling_step2_unpack at h
      simp only at h
      split at h
      · simp at h
      · rename_i d ast1 hd
        cases p with
        | none => simp [createUnpackDecl] at hd
        | some param =>
          refine ⟨isPD, param, _, _, ast1, d, hpd, hd, ?_⟩
          split at h
          · split at h
            · simp at h
            · simp only [Option.some.injEq] at h
              subst h
              rfl
          · split at h
            · simp at h
            · simp only [Option.some.injEq] at h
              subst h
              rfl
/-- In classic mode a whole round never sets `local_var_decl`. -/
theorem variableHandling_iter_classic_local (o : Outliner) (l : SageInterface)
    (q : Collaborators) (pdSyms fpSyms : VarSymSet_t) (readOnlyVars liveOutVars : InitNameSet)
    (isFirst : Bool) (i : SgVariableSymbol) (st st1 : LoopState)
    (hc : o.enable_classic = true)
    (h : variableHandling_iter o l q pdSyms fpSyms readOnlyVars liveOutVars isFirst i st
          = some st1) :
    st1.local_var_decl = st.local_var_decl := by
  unfold variableHandling_iter at h
  split at h
  · simp at h
  · rename_i st2 h2
    have := variableHandling_unpack_classic_local o l q pdSyms fpSyms readOnlyVars isFirst i
      st st2 hc h2
    split at h
    · simp at h
    · simp only [Option.some.injEq] at h
      subst h
      exact this

/-- In classic mode the loop never sets `local_var_decl`. -/
theorem variableHandling_loop_classic_local (o : Outliner) (l : SageInterface)
    (q : Collaborators) (pdSyms fpSyms : VarSymSet_t) (readOnlyVars liveOutVars : InitNameSet)
    (hc : o.enable_classic = true) :
    ∀ (todo : List SgVariableSymbol) (isFirst : Bool) (st st1 : LoopState),
      variableHandling_loop o l q pdSyms fpSyms readOnlyVars liveOutVars isFirst todo st
        = some st1 →
      st1.local_var_decl = st.local_var_decl
  | [], _, st, st1, h => by
      simp only [variableHandling_loop, Option.some.injEq] at h
      subst h
      rfl
  | i :: rest, isFirst, st, st1, h => by
      simp only [variableHandling_loop] at h
      split at h
      · simp at h
      · rename_i st2 h2
        rw [variableHandling_loop_classic_local o l q pdSyms fpSyms readOnlyVars liveOutVars hc
          rest false st2 st1 h]
        exact variableHandling_iter_classic_local o l q pdSyms fpSyms readOnlyVars liveOutVars
          isFirst i st st2 hc h2

/-- The loop starts with `local_var_decl` null and empty shared remap. -/
theorem variableHandling_init_local (pSyms : VarSymSet_t) (func : AstState) (st0 : LoopState)
    (h : variableHandling_init pSyms func = some st0) :
    st0.local_var_decl = none ∧ st0.sym_remap = [] := by
  unfold variableHandling_init at h
  split at h
  · simp at h
  · simp only [Option.some.injEq] at h
    subst h
    exact ⟨rfl, rfl⟩

/-- The type of a local built by `createUnpackDecl`. -/
theorem createUnpackDecl_type (o : Outliner) (l : SageInterface) (param : SgInitializedName)
    (index : Int) (isPD : Bool) (i_name : SgInitializedName) (ast : AstState)
    (d : SgVariableDeclaration) (ast1 : AstState)
    (h : createUnpackDecl o l (some param) index isPD i_name ast = some (d, ast1)) :
    d.var.type = createUnpackDecl_local_type o l isPD i_name := by
  obtain ⟨local_val, _, hd⟩ := createUnpackDecl_some o l param index isPD i_name ast d ast1 h
  have := congrArg (fun x => x.1.var.type) hd
  simpa [buildVariableDeclaration] using this

set_option maxHeartbeats 4000000 in
/-- C5, at the failing input: with classic mode and the parameter wrapper both
on, the two distinct written variables `p` and `x` both get a shared-remap
entry, to two new symbols (102 and 103) of one and the same declaration, the
wrapper parameter `__out_argv` (address 100), which is the only parameter. -/
theorem variableHandling_classic_wrapper_shares_declaration :
    (variableHandling classicWrapperMode langC sampleCollaborators [symP, symX] [] [] [] [] []
        [] (emptyFunc [stmtAssignX])).map (fun st => (st.sym_remap, st.ast.args.map (·.addr)))
      = some ([(symX.addr, { addr := 102, declaration := wrapperParam }),
               (symP.addr, { addr := 103, declaration := wrapperParam })], [100]) ∧
    symP.addr ≠ symX.addr ∧ symP.declaration.addr ≠ symX.declaration.addr := by
  refine ⟨by rfl, by decide, by decide⟩

/-- An entry found by `find` is an entry of the table. -/
theorem lookup_some_mem {β : Type} (k : Nat) (v : β) :
    ∀ m : List (Nat × β), m.lookup k = some v → (k, v) ∈ m
  | [], h => by simp at h
  | (k1, v1) :: m, h => by
      by_cases hk : k = k1
      · subst hk
        simp [List.lookup] at h
        simp [h]
      · have hb : (k == k1) = false := by simpa using hk
        simp only [List.lookup, hb] at h
        exact List.mem_cons_of_mem _ (lookup_some_mem k v m h)

/-- The entries of the table after `std::map::insert`. -/
theorem VarSymRemap_insert_mem (m : VarSymRemap_t) (key : Nat) (v : SgVariableSymbol)
    (k : Nat) (n : SgVariableSymbol) (h : (k, n) ∈ m.insert key v) :
    (k, n) ∈ m ∨ (k = key ∧ n = v) := by
  unfold VarSymRemap_t.insert at h
  split at h
  · exact Or.inl h
  · simp only [List.mem_append, List.mem_singleton, Prod.mk.injEq] at h
    exact h

/-- The entries of the table after `recordSymRemap`: the old ones and at most one
for `orig_sym`, whose symbol declares `name_new`. -/
theorem recordSymRemap_mem (orig_sym : SgVariableSymbol) (name_new : SgInitializedName)
    (scope : Bool) (m m1 : VarSymRemap_t) (ast ast1 : AstState)
    (h : recordSymRemap orig_sym (some name_new) scope m ast = some (m1, ast1))
    (k : Nat) (n : SgVariableSymbol) (hmem : (k, n) ∈ m1) :
    (k, n) ∈ m ∨ (k = orig_sym.addr ∧ n.declaration.type = name_new.type ∧
      n.declaration.addr = name_new.addr ∧ n.declaration.name = name_new.name) := by
  unfold recordSymRemap at h
  simp only at h
  split at h
  · simp at h
  · simp only [Option.some.injEq, Prod.mk.injEq] at h
    obtain ⟨h1, _⟩ := h
    subst h1
    rcases VarSymRemap_insert_mem _ _ _ _ _ hmem with h2 | ⟨h2, h3⟩
    · exact Or.inl h2
    · refine Or.inr ⟨h2, ?_⟩
      subst h3
      cases scope <;> simp

/-- With classic mode off, the shared remap after steps 1 and 2 holds the old
entries and at most one for `i`, to a symbol of the local that
`createUnpackDecl` types. -/
theorem variableHandling_unpack_sym_remap (o : Outliner) (l : SageInterface)
    (q : Collaborators) (pdSyms fpSyms : VarSymSet_t) (readOnlyVars : InitNameSet)
    (isFirst : Bool) (i : SgVariableSymbol) (st st2 : LoopState)
    (hc : o.enable_classic = false)
    (h : variableHandling_unpack o l q pdSyms fpSyms readOnlyVars isFirst i st = some st2)
    (k : Nat) (n : SgVariableSymbol) (hmem : (k, n) ∈ st2.sym_remap) :
    (k, n) ∈ st.sym_remap ∨ (k = i.addr ∧ ∃ isPD,
      variableHandling_isPointerDeref o pdSyms i.declaration = some isPD ∧
      n.declaration.type = createUnpackDecl_local_type o l isPD i.declaration) := by
  unfold variableHandling_unpack at h
  split at h
  · simp at h
  · rename_i p st1 h1
    have hf := (variableHandling_step1_frame o l q readOnlyVars isFirst i st st1 p h1).1
    rw [← hf]
    unfold variableHandling_step2 at h
    simp only [hc] at h
    split at h
    · simp at h
    · rename_i isPD hpd
      simp only [Bool.false_eq_true, if_false] at h
      unfold variableHandling_step2_unpack at h
      simp only at h
      split at h
      · simp at h
      · rename_i d ast1 hd
        cases p with
        | none => simp [createUnpackDecl] at hd
        | some param =>
          have hty := createUnpackDecl_type o l param _ isPD i.declaration _ d ast1 hd
          split at h
          · split at h
            · simp at h
            · simp only [Option.some.injEq] at h
              subst h
              simp only at hmem
              left
              split at hmem <;> exact hmem
          · split at h
            · simp at h
            · rename_i m1 ast2 hrec
              simp only [Option.some.injEq] at h
              subst h
              simp only at hmem
              unfold recordSymRemap_decl at hrec
              simp only at hrec
              rcases recordSymRemap_mem i d.var _ _ m1 _ ast2 hrec k n hmem with h3 | h3
              · left
                split at h3 <;> exact h3
              · right
                exact ⟨h3.1, isPD, hpd, h3.2.1.trans hty⟩
/-- Step 3 of a round leaves the shared remap as steps 1 and 2 made it. -/
theorem variableHandling_iter_sym_remap (o : Outliner) (l : SageInterface)
    (q : Collaborators) (pdSyms fpSyms : VarSymSet_t) (readOnlyVars liveOutVars : InitNameSet)
    (isFirst : Bool) (i : SgVariableSymbol) (st st1 : LoopState)
    (h : variableHandling_iter o l q pdSyms fpSyms readOnlyVars liveOutVars isFirst i st
          = some st1) :
    ∃ st2, variableHandling_unpack o l q pdSyms fpSyms readOnlyVars isFirst i st = some st2 ∧
      st1.sym_remap = st2.sym_remap ∧ st1.private_remap = st2.private_remap := by
  unfold variableHandling_iter at h
  split at h
  · simp at h
  · rename_i st2 h2
    split at h
    · simp at h
    · simp only [Option.some.injEq] at h
      subst h
      exact ⟨st2, h2, rfl, rfl⟩

/-- The loop keeps the shared remap typed by `createUnpackDecl` when classic mode is off. -/
theorem variableHandling_loop_entries (o : Outliner) (l : SageInterface)
    (q : Collaborators) (syms pdSyms fpSyms : VarSymSet_t)
    (readOnlyVars liveOutVars : InitNameSet) (hc : o.enable_classic = false) :
    ∀ (todo : List SgVariableSymbol) (isFirst : Bool) (st st1 : LoopState),
      (∀ v ∈ todo, v ∈ syms) →
      variableHandling_loop o l q pdSyms fpSyms readOnlyVars liveOutVars isFirst todo st
        = some st1 →
      SharedEntriesTyped o l pdSyms syms st.sym_remap →
      SharedEntriesTyped o l pdSyms syms st1.sym_remap
  | [], _, st, st1, _, h, hinv => by
      simp only [variableHandling_loop, Option.some.injEq] at h
      subst h
      exact hinv
  | i :: rest, isFirst, st, st1, hsub, h, hinv => by
      simp only [variableHandling_loop] at h
      split at h
      · simp at h
      · rename_i st2 h2
        refine variableHandling_loop_entries o l q syms pdSyms fpSyms readOnlyVars liveOutVars
          hc rest false st2 st1 (fun v hv => hsub v (List.mem_cons_of_mem _ hv)) h ?_
        obtain ⟨st3, h3, hs, _⟩ := variableHandling_iter_sym_remap o l q pdSyms fpSyms
          readOnlyVars liveOutVars isFirst i st st2 h2
        intro k n hmem
        rw [hs] at hmem
        rcases variableHandling_unpack_sym_remap o l q pdSyms fpSyms readOnlyVars isFirst i
          st st3 hc h3 k n hmem with h4 | ⟨h4, isPD, h5, h6⟩
        · exact hinv k n h4
        · exact ⟨i, hsub i (List.mem_cons_self _ _), h4.symm, isPD, h5, h6⟩

/-- The tables that `variableHandling` returns are those the loop built. -/
theorem variableHandling_tables (o : Outliner) (l : SageInterface) (q : Collaborators)
    (syms pdSyms pSyms fpSyms reductionSyms : VarSymSet_t)
    (readOnlyVars liveOutVars : InitNameSet) (func : AstState) (st : LoopState)
    (h : variableHandling o l q syms pdSyms pSyms fpSyms reductionSyms readOnlyVars liveOutVars
          func = some st) :
    ∃ st0 st1, variableHandling_init pSyms func = some st0 ∧
      variableHandling_loop o l q pdSyms fpSyms readOnlyVars liveOutVars true syms.reverse st0
        = some st1 ∧
      st.sym_remap = st1.sym_remap ∧ st.private_remap = st1.private_remap ∧
      st.ast.body = remapVarSyms o l st1.sym_remap pdSyms st1.private_remap st1.ast.body := by
  unfold variableHandling at h
  simp only at h
  split at h
  · simp at h
  · rename_i st0 h0
    split at h
    · simp at h
    · rename_i st1 h1
      simp only [Option.some.injEq] at h
      subst h
      exact ⟨st0, st1, h0, h1, rfl, rfl, rfl⟩
/-- No type is a pointer to itself (symmetric form). -/
theorem pointerType_ne_self_symm (t : SgType) : t ≠ SgType.pointerType t :=
  fun h => pointerType_ne_self t h.symm

/-- Where the dereference follows the type of the new declaration: for input
that is not Fortran, with classic mode off, in every combination of
temp-variable and wrapper modes, let `V` be a symbol of `syms` with a
shared-remap entry `n` and no private-remap entry after `variableHandling`.  Every reference to `V` in the body is replaced in place by
`remapVarRef`, and that replacement is the parenthesised dereference of `n`
exactly when the declaration of `n` (the local built by `createUnpackDecl`) has
type pointer-to-`T`, `T` being the type of `V` with a function-parameter array
decayed to pointer-to-element; otherwise it is the plain reference to `n`, whose
declaration then has type `T` or, without temp variables (C++), a reference to
it. -/
theorem remapVarSyms_deref_iff_pointer_local (o : Outliner) (l : SageInterface)
    (q : Collaborators) (syms pdSyms pSyms fpSyms reductionSyms : VarSymSet_t)
    (readOnlyVars liveOutVars : InitNameSet) (func : AstState) (st : LoopState)
    (V n : SgVariableSymbol)
    (hlang : l.is_Fortran_language = false) (hclassic : o.enable_classic = false)
    (hident : ∀ a ∈ syms, ∀ b ∈ syms, a.addr = b.addr → a = b)
    (hV : V ∈ syms) (hsym : V.declaration.symbol_from_symbol_table = some V.addr)
    (h : variableHandling o l q syms pdSyms pSyms fpSyms reductionSyms readOnlyVars liveOutVars
          func = some st)
    (hn : st.sym_remap.find V.addr = some n) (hp : st.private_remap.find V.addr = none) :
    (remapVarRef o l st.sym_remap pdSyms st.private_remap V
        = .pointerDerefExp (.varRefExp n) true
      ↔ n.declaration.type = .pointerType (createUnpackDecl_local_var_type V.declaration)) ∧
    (remapVarRef o l st.sym_remap pdSyms st.private_remap V
        ≠ .pointerDerefExp (.varRefExp n) true →
      remapVarRef o l st.sym_remap pdSyms st.private_remap V = .varRefExp n ∧
      (n.declaration.type = createUnpackDecl_local_var_type V.declaration ∨
       (o.temp_variable = false ∧ n.declaration.type =
          match isSgReferenceType (createUnpackDecl_local_var_type V.declaration) with
          | some _ => createUnpackDecl_local_var_type V.declaration
          | none => .referenceType (createUnpackDecl_local_var_type V.declaration)))) ∧
    ∃ body0, st.ast.body = remapVarSyms o l st.sym_remap pdSyms st.private_remap body0 ∧
      ∀ path, (SgNode.basicBlock body0).nodeAt path = some (.varRefExp V) →
        (SgNode.basicBlock st.ast.body).nodeAt path
          = some (remapVarRef o l st.sym_remap pdSyms st.private_remap V) := by
  obtain ⟨st0, st1, h0, h1, hs, hpv, hb⟩ := variableHandling_tables o l q syms pdSyms pSyms
    fpSyms reductionSyms readOnlyVars liveOutVars func st h
  have hinv0 : SharedEntriesTyped o l pdSyms syms st0.sym_remap := by
    intro k n0 hmem
    rw [(variableHandling_init_local pSyms func st0 h0).2] at hmem
    simp at hmem
  have hinv := variableHandling_loop_entries o l q syms pdSyms fpSyms readOnlyVars liveOutVars
    hclassic syms.reverse true st0 st1 (fun v hv => by simpa using hv) h1 hinv0
  have hmem : (V.addr, n) ∈ st1.sym_remap := by
    rw [← hs]
    exact lookup_some_mem V.addr n st.sym_remap hn
  obtain ⟨v, hv, hva, isPD, hpd, hty⟩ := hinv V.addr n hmem
  have hvV : v = V := hident v hv V hV hva
  subst hvV
  have hne : (st.sym_remap.isEmpty && st.private_remap.isEmpty) = false := by
    cases hm : st.sym_remap with
    | nil => rw [hm] at hn; simp [VarSymRemap_t.find] at hn
    | cons e es => simp
  have hbody : ∃ body0, st.ast.body = remapVarSyms o l st.sym_remap pdSyms st.private_remap body0 ∧
      ∀ path, (SgNode.basicBlock body0).nodeAt path = some (.varRefExp v) →
        (SgNode.basicBlock st.ast.body).nodeAt path
          = some (remapVarRef o l st.sym_remap pdSyms st.private_remap v) := by
    refine ⟨st1.ast.body, by rw [hb, hs, hpv], ?_⟩
    intro path hpath
    rw [hb, ← hs, ← hpv, remapVarSyms_block o l st.sym_remap pdSyms st.private_remap _ hne]
    exact nodeAt_remapNode _ v path _ hpath
  refine ⟨?_, ?_, hbody⟩
  all_goals
    unfold variableHandling_isPointerDeref at hpd
    simp only [hsym] at hpd
    unfold createUnpackDecl_local_type at hty
    simp only [hlang, Bool.false_eq_true, if_false] at hty
    have hT := pointerType_ne_self_symm (createUnpackDecl_local_var_type v.declaration)
    cases ht : o.temp_variable <;> cases hC : l.is_C_language <;>
      cases hpdv : pdSyms.has v.addr <;>
      simp only [ht, hC, hpdv, if_true, Bool.false_eq_true, if_false, Option.some.injEq] at hpd hty <;>
      subst hpd <;>
      simp only [remapVarRef, hn, hp, ht, hC, hpdv, hty, Bool.false_eq_true, if_false,
        if_true, Bool.not_false, Bool.not_true] <;>
      simp [hT] <;>
      (try (split <;> simp_all [isSgReferenceType]))
set_option maxHeartbeats 4000000 in
/-- An instance of `remapVarSyms_deref_iff_pointer_local`: `int x` in
temp-variable mode for C, not in pdSyms: the local `int x` is not a pointer and
the reference is only re-pointed. -/
theorem remapVarSyms_deref_iff_pointer_local_witness :
    variableHandling tempMode langC sampleCollaborators [symX] [] [] [] [] [] []
      (emptyFunc [stmtAssignX]) = some finalStateX ∧
    remapVarRef tempMode langC finalStateX.sym_remap [] finalStateX.private_remap symX
      = .varRefExp remapSymX ∧
    (remapVarRef tempMode langC finalStateX.sym_remap [] finalStateX.private_remap symX
        = .pointerDerefExp (.varRefExp remapSymX) true
      ↔ remapSymX.declaration.type
          = .pointerType (createUnpackDecl_local_var_type symX.declaration)) :=
  ⟨by rfl, by rfl,
   (remapVarSyms_deref_iff_pointer_local tempMode langC sampleCollaborators [symX] [] [] [] []
      [] [] (emptyFunc [stmtAssignX]) finalStateX symX remapSymX rfl rfl
      (by intro a ha b hb _; simp at ha hb; rw [ha, hb]) (by simp) rfl (by rfl) (by rfl)
      (by rfl)).1⟩

set_option maxHeartbeats 4000000 in
/-- C8: with classic mode and temp-variable mode both on, C input, the written
variable `int x` (not in pdSyms) gets the shared-remap entry to a symbol of the
parameter `int *xp__`, whose type is pointer-to-`int`, yet the reference in
`x = 1;` is only re-pointed (`xp__ = 1;`), not dereferenced, although the
comment of lines 839-841 says that `remapVarSyms` dereferences all of them in C:
the "if and only if" of the claim fails, and the rewritten reference has type
pointer-to-`int`, not `int`. -/
theorem remapVarSyms_classic_temp_swaps_pointer_parameter :
    (variableHandling classicTempMode langC sampleCollaborators [symX] [] [] [] [] [] []
        (emptyFunc [stmtAssignX])).map (fun st => (st.sym_remap, st.ast.body))
      = some ([(symX.addr, { addr := 102, declaration := paramXpInBody })],
              [.exprStatement
                (.assignOp (.varRefExp { addr := 102, declaration := paramXpInBody })
                  (.intVal 1))]) ∧
    paramXpInBody.type = .pointerType symX.declaration.type ∧
    ¬(remapVarRef classicTempMode langC
          [(symX.addr, { addr := 102, declaration := paramXpInBody })] [] [] symX
        = .pointerDerefExp (.varRefExp { addr := 102, declaration := paramXpInBody }) true
      ↔ paramXpInBody.type = .pointerType symX.declaration.type) := by
  refine ⟨by rfl, by rfl, ?_⟩
  intro h
  have h2 := h.2 (by rfl)
  have h3 : remapVarRef classicTempMode langC
      [(symX.addr, { addr := 102, declaration := paramXpInBody })] [] [] symX
        = .varRefExp { addr := 102, declaration := paramXpInBody } := by rfl
  rw [h3] at h2
  cases h2

/-- C11 (amended): in every language and mode, `createParam` returns the
variable's unchanged name only if classic mode is on and the variable is
read-only, and the type is then the base type, not wrapped in a pointer; the
base type need not be primitive: for a variable of class type it is that class
type. -/
theorem createParam_by_value_only_if_classic_readOnly (o : Outliner) (l : SageInterface)
    (q : Collaborators) (v : SgInitializedName) (readOnly : Bool)
    (h : (createParam o l q v readOnly).1 = v.name) :
    o.enable_classic = true ∧ readOnly = true ∧
    (createParam o l q v readOnly).2 = createParam_base_type o q v ∧
    ∀ n, v.type = .classType n → (createParam o l q v readOnly).2 = .classType n := by
  have hne := append_suffix_ne_self v.name
  cases hc : o.enable_classic <;> cases hr : readOnly <;> cases hf : l.is_Fortran_language <;>
    simp [createParam, hc, hr, hf, hne] at h ⊢
  all_goals
    intro n hn
    simp [createParam_base_type, hc, hn, isSgArrayType, isSgReferenceType]

/-- Witness for C11 (amended): the read-only `struct S s` in classic mode for C. -/
theorem createParam_by_value_only_if_classic_readOnly_witness :
    (createParam classicMode langC sampleCollaborators declS true).1 = declS.name ∧
    classicMode.enable_classic = true ∧
    (createParam classicMode langC sampleCollaborators declS true).2 = .classType "S" :=
  ⟨rfl,
   (createParam_by_value_only_if_classic_readOnly classicMode langC sampleCollaborators declS
      true rfl).1,
   (createParam_by_value_only_if_classic_readOnly classicMode langC sampleCollaborators declS
      true rfl).2.2.2 "S" rfl⟩

/-- C11, counterexample: in classic mode the read-only variable `struct S s`,
whose base type is not primitive, is passed by value: `createParam` returns the
unchanged name `s` with the class type itself. -/
theorem createParam_classic_readOnly_struct_by_value :
    createParam classicMode langC sampleCollaborators declS true = ("s", .classType "S") ∧
    isBaseTypePrimitive sampleCollaborators (some declS.type) = false ∧
    ¬((createParam classicMode langC sampleCollaborators declS true).1 = declS.name →
      isBaseTypePrimitive sampleCollaborators (some declS.type) = true) := by
  refine ⟨by rfl, by rfl, ?_⟩
  intro h
  have := h rfl
  revert this
  decide
/-- The decay of `createUnpackDecl` is the decay of the specification. -/
theorem createUnpackDecl_local_var_type_eq_spec (v : SgInitializedName) :
    createUnpackDecl_local_var_type v = specDecayedType v := by
  unfold createUnpackDecl_local_var_type specDecayedType
  cases hs : v.scopeIsFunctionDefinition <;> cases ht : v.type <;> simp [isSgArrayType]

/-- C12 (amended): in temp-variable mode for input that is not Fortran,
`createUnpackDecl` returns a declaration of a local with the original variable's
name; its initializer is built from the C-style cast of the parameter (in
wrapper mode of the element `__out_argv[index]`) to pointer-to-`T`, `T` being
the decayed type `D` with a reference replaced by its referent, and `D` the
original type with a function-parameter array decayed to pointer-to-element.
When `isPointerDeref` is false the local has type `D` and the initializer is the
dereference of the cast; when it is true the local has type pointer-to-`D` and
the initializer is the cast itself.  `D` is the original type for every
variable that is not an array-typed function parameter. -/
theorem createUnpackDecl_temp_variable (o : Outliner) (l : SageInterface)
    (param : SgInitializedName) (index : Int) (isPointerDeref : Bool)
    (v : SgInitializedName) (ast : AstState)
    (htemp : o.temp_variable = true) (hlang : l.is_Fortran_language = false) :
    ∃ d ast1, createUnpackDecl o l (some param) index isPointerDeref v ast = some (d, ast1) ∧
      d.var.name = v.name ∧
      (isPointerDeref = false →
        d.var.type = specDecayedType v ∧
        d.initializer = some (.assignInitializer (.pointerDerefExp
          (.castExp
            (if o.useParameterWrapper then
               .pntrArrRefExp (buildVarRefExp param) (.intVal index)
             else buildVarRefExp param)
            (.pointerType (specReferent (specDecayedType v))) true) false))) ∧
      (isPointerDeref = true →
        d.var.type = .pointerType (specDecayedType v) ∧
        d.initializer = some (.assignInitializer
          (.castExp
            (if o.useParameterWrapper then
               .pntrArrRefExp (buildVarRefExp param) (.intVal index)
             else buildVarRefExp param)
            (.pointerType (specReferent (specDecayedType v))) true))) ∧
      ((∀ elem n, v.type = .arrayType elem n → v.scopeIsFunctionDefinition = false) →
        specDecayedType v = v.type) := by
  have hcast : createUnpackDecl_cast_expr o param index v = .castExp
      (if o.useParameterWrapper then .pntrArrRefExp (buildVarRefExp param) (.intVal index)
       else buildVarRefExp param)
      (.pointerType (specReferent (specDecayedType v))) true := by
    unfold createUnpackDecl_cast_expr
    simp only [createUnpackDecl_local_var_type_eq_spec]
    cases hd : specDecayedType v <;> simp [isSgReferenceType, specReferent]
  have hD : (∀ elem n, v.type = .arrayType elem n → v.scopeIsFunctionDefinition = false) →
      specDecayedType v = v.type := by
    intro h
    unfold specDecayedType
    cases hs : v.scopeIsFunctionDefinition <;> cases ht : v.type <;> simp
    have := h _ _ ht
    rw [hs] at this
    cases this
  cases hpd : isPointerDeref
  · refine ⟨(buildVariableDeclaration v.name (createUnpackDecl_local_type o l false v)
        (some (.assignInitializer (.pointerDerefExp (createUnpackDecl_cast_expr o param index v)
          false))) true ast).1,
      (buildVariableDeclaration v.name (createUnpackDecl_local_type o l false v)
        (some (.assignInitializer (.pointerDerefExp (createUnpackDecl_cast_expr o param index v)
          false))) true ast).2, ?_, ?_, ?_, ?_, hD⟩
    · simp [createUnpackDecl, createUnpackDecl_local_val, htemp, hlang]
    · simp [buildVariableDeclaration]
    · intro _
      simp [buildVariableDeclaration, createUnpackDecl_local_type, htemp, hlang, hcast,
        createUnpackDecl_local_var_type_eq_spec]
    · intro h; cases h
  · refine ⟨(buildVariableDeclaration v.name (createUnpackDecl_local_type o l true v)
        (some (.assignInitializer (createUnpackDecl_cast_expr o param index v))) true ast).1,
      (buildVariableDeclaration v.name (createUnpackDecl_local_type o l true v)
        (some (.assignInitializer (createUnpackDecl_cast_expr o param index v))) true ast).2,
      ?_, ?_, ?_, ?_, hD⟩
    · simp [createUnpackDecl, createUnpackDecl_local_val, htemp, hlang]
    · simp [buildVariableDeclaration]
    · intro h; cases h
    · intro _
      simp [buildVariableDeclaration, createUnpackDecl_local_type, htemp, hlang, hcast,
        createUnpackDecl_local_var_type_eq_spec]
/-- Witness for C12 (amended): `int x` unpacked from `xp__` in temp-variable mode
for C gives `int x = *(int *) xp__;`. -/
theorem createUnpackDecl_temp_variable_witness :
    tempMode.temp_variable = true ∧ langC.is_Fortran_language = false ∧
    (createUnpackDecl tempMode langC (some paramXp) 0 false declX funcWithXp).map
        (fun r => (r.1.var, r.1.initializer)) = some (unpackX.var, unpackX.initializer) ∧
    ∃ d ast1, createUnpackDecl tempMode langC (some paramXp) 0 false declX funcWithXp
        = some (d, ast1) ∧ d.var.name = declX.name ∧ d.var.type = specDecayedType declX :=
  ⟨rfl, rfl, by rfl,
   match createUnpackDecl_temp_variable tempMode langC paramXp 0 false declX funcWithXp
      rfl rfl with
   | ⟨d, ast1, h1, h2, h3, _⟩ => ⟨d, ast1, h1, h2, (h3 rfl).1⟩⟩

/-- C12, counterexample: for the function parameter `int a[10]` in
temp-variable mode for C, the local declared with `isPointerDeref` false has
type `int *`, not the original array type, and with `isPointerDeref` true it
has type `int **`, not pointer-to-array. -/
theorem createUnpackDecl_array_parameter_decays :
    (createUnpackDecl tempMode langC (some paramAp) 0 false declA (emptyFunc [])).map
        (fun r => r.1.var.type) = some (.pointerType .typeInt) ∧
    (createUnpackDecl tempMode langC (some paramAp) 0 true declA (emptyFunc [])).map
        (fun r => r.1.var.type) = some (.pointerType (.pointerType .typeInt)) ∧
    declA.type = .arrayType .typeInt (some 10) ∧
    SgType.pointerType .typeInt ≠ declA.type ∧
    SgType.pointerType (.pointerType .typeInt) ≠ .pointerType declA.type := by
  refine ⟨by rfl, by rfl, by rfl, by decide, by decide⟩

/-- For Fortran input `createPackStmt` returns NULL for every argument. -/
theorem createPackStmt_fortran (o : Outliner) (l : SageInterface)
    (hlang : l.is_Fortran_language = true) (d : Option SgVariableDeclaration)
    (scope : Option SgSymbolTable) : createPackStmt o l d scope = some none := by
  cases d <;> simp [createPackStmt, hlang]

/-- C13: for Fortran input `createParam` returns, for every variable and every
`readOnly` flag, the base type itself as the parameter type (not wrapped in a
pointer), `createPackStmt` returns no statement for every argument, step 3 of a
round of `variableHandling` never produces a repack statement, and a round
leaves the function as steps 1 and 2 made it: nothing is appended to the body. -/
theorem fortran_base_type_and_no_repack (o : Outliner) (l : SageInterface)
    (q : Collaborators) (hlang : l.is_Fortran_language = true) :
    (∀ (v : SgInitializedName) (readOnly : Bool),
      (createParam o l q v readOnly).2 = createParam_base_type o q v) ∧
    (∀ (d : Option SgVariableDeclaration) (scope : Option SgSymbolTable),
      createPackStmt o l d scope = some none) ∧
    (∀ (pdSyms : VarSymSet_t) (readOnlyVars liveOutVars : InitNameSet) (i : SgVariableSymbol)
       (st : LoopState) (pack : SgNode),
      variableHandling_repack o l pdSyms readOnlyVars liveOutVars i st ≠ some (some pack)) ∧
    (∀ (pdSyms fpSyms : VarSymSet_t) (readOnlyVars liveOutVars : InitNameSet) (isFirst : Bool)
       (i : SgVariableSymbol) (st st1 : LoopState),
      variableHandling_iter o l q pdSyms fpSyms readOnlyVars liveOutVars isFirst i st = some st1 →
      ∃ st2, variableHandling_unpack o l q pdSyms fpSyms readOnlyVars isFirst i st = some st2 ∧
        st1.ast = st2.ast) := by
  have hrepack : ∀ (pdSyms : VarSymSet_t) (readOnlyVars liveOutVars : InitNameSet)
      (i : SgVariableSymbol) (st : LoopState) (pack : SgNode),
      variableHandling_repack o l pdSyms readOnlyVars liveOutVars i st ≠ some (some pack) := by
    intro pdSyms readOnlyVars liveOutVars i st pack h
    unfold variableHandling_repack at h
    simp only [hlang, Bool.not_true, Bool.false_and, Bool.false_eq_true, if_false,
      createPackStmt_fortran o l hlang] at h
    split at h
    · simp at h
    · generalize (match st.local_var_decl with
        | some d => Option.map (fun _ => d) (d.get_decl_item i.declaration.name)
        | none => none) = li at h
      cases hd : debugTrace o li <;>
        (repeat' split at h) <;> simp [hd] at h
  refine ⟨?_, createPackStmt_fortran o l hlang, hrepack, ?_⟩
  · intro v readOnly
    simp [createParam, hlang]
  · intro pdSyms fpSyms readOnlyVars liveOutVars isFirst i st st1 h
    unfold variableHandling_iter at h
    split at h
    · simp at h
    · rename_i st2 h2
      split at h
      · simp at h
      · rename_i pack_stmt hp
        cases pack_stmt with
        | some p => exact absurd hp (hrepack _ _ _ _ _ _)
        | none =>
          simp only [Option.some.injEq] at h
          subst h
          exact ⟨st2, h2, rfl⟩

/-- Witness for C13: `int x` for Fortran input. -/
theorem fortran_base_type_and_no_repack_witness :
    langFortran.is_Fortran_language = true ∧
    createParam tempMode langFortran sampleCollaborators declX false = ("xp__", .typeInt) ∧
    createPackStmt tempMode langFortran (some unpackX) (some [("x", localSymX)]) = some none :=
  ⟨rfl,
   Prod.ext rfl
     ((fortran_base_type_and_no_repack tempMode langFortran sampleCollaborators rfl).1 declX
        false),
   (fortran_base_type_and_no_repack tempMode langFortran sampleCollaborators rfl).2.1 _ _⟩

/-- Step 3 produces no statement when `local_var_decl` is null. -/
theorem variableHandling_repack_null_local (o : Outliner) (l : SageInterface)
    (pdSyms : VarSymSet_t) (readOnlyVars liveOutVars : InitNameSet) (i : SgVariableSymbol)
    (st : LoopState) (r : Option SgNode) (hnull : st.local_var_decl = none)
    (h : variableHandling_repack o l pdSyms readOnlyVars liveOutVars i st = some r) :
    r = none := by
  unfold variableHandling_repack at h
  simp only [hnull, createPackStmt] at h
  split at h
  · simp at h
  · cases hd : debugTrace o none <;> (repeat' split at h) <;> simp_all

/-- What step 1 does without the wrapper: one new parameter, built by
`createParam`, is put first in the parameter list. -/
theorem variableHandling_step1_parameter (o : Outliner) (l : SageInterface) (q : Collaborators)
    (readOnlyVars : InitNameSet) (isFirst : Bool) (i : SgVariableSymbol)
    (st st1 : LoopState) (p : Option SgInitializedName)
    (hw : o.useParameterWrapper = false)
    (h : variableHandling_step1 o l q readOnlyVars isFirst i st = some (p, st1)) :
    ∃ pn, p = some pn ∧
      pn = { addr := st.ast.next_addr,
             name := (createParam o l q i.declaration (readOnlyVars.has i.declaration)).1,
             type := (createParam o l q i.declaration (readOnlyVars.has i.declaration)).2,
             scopeIsFunctionDefinition := true,
             symbol_from_symbol_table := some (st.ast.next_addr + 1) } ∧
      pn.name ≠ "" ∧
      st1.ast.args = pn :: st.ast.args ∧ st1.ast.body = st.ast.body ∧
      st1.ast.body_symbols = st.ast.body_symbols ∧
      st1.ast.definition_symbols
        = insert_symbol st.ast.definition_symbols pn.name
            { addr := st.ast.next_addr + 1, declaration := pn } ∧
      st1.ast.next_addr = st.ast.next_addr + 2 := by
  unfold variableHandling_step1 at h
  simp only [hw, Bool.false_eq_true, if_false, createOneFunctionParameter, createInitName] at h
  split at h
  · simp at h
  · rename_i p0 ast0 h0
    split at h0
    · simp at h0
    · rename_i pn astn hn
      split at hn
      · simp at hn
      · rename_i hne
        simp only [Option.some.injEq, Prod.mk.injEq] at hn h0 h
        obtain ⟨hn1, hn2⟩ := hn
        obtain ⟨h01, h02⟩ := h0
        obtain ⟨h1, h2⟩ := h
        subst hn1 hn2 h01 h02 h1 h2
        refine ⟨_, rfl, rfl, ?_, rfl, rfl, rfl, rfl, rfl⟩
        intro hempty
        apply hne
        simp only at hempty
        rw [hempty]
        rfl
/-- C14 (amended): with classic mode on and the wrapper off, a round of the loop
of `variableHandling` (reached from the start of the call) puts one new
parameter first in the parameter list and leaves the body as it is: no unpack
declaration and no repack statement.  A read-only variable gets a parameter
with its own name and the base type and no shared-remap entry; every other
variable gets a parameter named with the suffix "p__", of type
pointer-to-base-type for input that is not Fortran and of the base type itself
for Fortran, and `recordSymRemap` enters it in the shared remap under a symbol
of that very parameter. -/
theorem variableHandling_classic_round (o : Outliner) (l : SageInterface) (q : Collaborators)
    (pdSyms pSyms fpSyms : VarSymSet_t) (readOnlyVars liveOutVars : InitNameSet)
    (func : AstState) (visited : List SgVariableSymbol) (first1 isFirst : Bool)
    (i : SgVariableSymbol) (st0 st st1 : LoopState)
    (hclassic : o.enable_classic = true) (hwrapper : o.useParameterWrapper = false)
    (hinit : variableHandling_init pSyms func = some st0)
    (hloop : variableHandling_loop o l q pdSyms fpSyms readOnlyVars liveOutVars first1
              visited st0 = some st)
    (h : variableHandling_iter o l q pdSyms fpSyms readOnlyVars liveOutVars isFirst i st
          = some st1) :
    ∃ p : SgInitializedName,
      st1.ast.args = p :: st.ast.args ∧ st1.ast.body = st.ast.body ∧
      p.addr = st.ast.next_addr ∧
      (readOnlyVars.has i.declaration = true →
        p.name = i.declaration.name ∧ p.type = createParam_base_type o q i.declaration ∧
        st1.sym_remap = st.sym_remap) ∧
      (readOnlyVars.has i.declaration = false →
        p.name = i.declaration.name ++ "p__" ∧
        (l.is_Fortran_language = false →
          p.type = .pointerType (createParam_base_type o q i.declaration)) ∧
        (l.is_Fortran_language = true →
          p.type = createParam_base_type o q i.declaration) ∧
        ∃ sym_new : SgVariableSymbol,
          st1.sym_remap = st.sym_remap.insert i.addr sym_new ∧
          sym_new.declaration.addr = p.addr ∧ sym_new.declaration.name = p.name ∧
          sym_new.declaration.type = p.type) := by
  have hnull : st.local_var_decl = none := by
    rw [variableHandling_loop_classic_local o l q pdSyms fpSyms readOnlyVars liveOutVars
      hclassic visited first1 st0 st hloop]
    exact (variableHandling_init_local pSyms func st0 hinit).1
  unfold variableHandling_iter at h
  split at h
  · simp at h
  · rename_i st2 h2
    have hnull2 : st2.local_var_decl = none := by
      rw [variableHandling_unpack_classic_local o l q pdSyms fpSyms readOnlyVars isFirst i
        st st2 hclassic h2]
      exact hnull
    split at h
    · simp at h
    · rename_i pack_stmt hp
      have hpn := variableHandling_repack_null_local o l pdSyms readOnlyVars liveOutVars i st2
        pack_stmt hnull2 hp
      subst hpn
      simp only [Option.some.injEq] at h
      subst h
      simp only
      unfold variableHandling_unpack at h2
      split at h2
      · simp at h2
      · rename_i p0 sta h1
        obtain ⟨pn, hp0, hpn, hne, hargs, hbody, hbs, _, hnext⟩ :=
          variableHandling_step1_parameter o l q readOnlyVars isFirst i st sta p0 hwrapper h1
        have hfr := variableHandling_step1_frame o l q readOnlyVars isFirst i st sta p0 h1
        subst hp0
        unfold variableHandling_step2 at h2
        simp only [hclassic, if_true] at h2
        split at h2
        · simp at h2
        · refine ⟨pn, ?_⟩
          cases hro : readOnlyVars.has i.declaration
          · simp only [hro, Bool.not_false, if_true] at h2
            split at h2
            · simp at h2
            · rename_i m1 ast1 hrec
              simp only [Option.some.injEq] at h2
              subst h2
              unfold recordSymRemap at hrec
              simp only at hrec
              split at hrec
              · simp at hrec
              · simp only [Option.some.injEq, Prod.mk.injEq] at hrec
                obtain ⟨hm, hast⟩ := hrec
                subst hm hast
                simp only [hargs, hbody, true_and]
                refine ⟨by rw [hpn], by simp, ?_⟩
                intro _
                have hname : pn.name = i.declaration.name ++ "p__" := by
                  rw [hpn]
                  cases hf : l.is_Fortran_language <;> simp [createParam, hclassic, hro, hf]
                refine ⟨hname, ?_, ?_, ?_⟩
                · intro hf
                  rw [hpn]; simp [createParam, hclassic, hro, hf]
                · intro hf
                  rw [hpn]; simp [createParam, hclassic, hro, hf]
                · refine ⟨_, by rw [hfr.1], ?_, ?_, ?_⟩ <;> cases sta.args_scope <;> simp
          · simp only [hro, Bool.not_true, Bool.false_eq_true, if_false,
              Option.some.injEq] at h2
            subst h2
            simp only [hargs, hbody, true_and]
            refine ⟨by rw [hpn], ?_, by simp⟩
            intro _
            refine ⟨?_, ?_, hfr.1⟩
            · rw [hpn]
              cases hf : l.is_Fortran_language <;> simp [createParam, hclassic, hro, hf]
            · rw [hpn]
              cases hf : l.is_Fortran_language <;> simp [createParam, hclassic, hro, hf]
set_option maxHeartbeats 4000000 in
/-- Witness for C14 (amended): the round for the written `int x` in classic mode
for C adds the parameter `int *xp__` and maps `x` to it. -/
theorem variableHandling_classic_round_witness :
    variableHandling_iter classicMode langC sampleCollaborators [] [] [] [] true symX loopStartX
      = some classicAfterX ∧
    ∃ p : SgInitializedName,
      classicAfterX.ast.args = p :: loopStartX.ast.args ∧
      classicAfterX.ast.body = loopStartX.ast.body ∧ p.addr = loopStartX.ast.next_addr :=
  ⟨by rfl,
   match variableHandling_classic_round classicMode langC sampleCollaborators [] [] [] [] []
      (emptyFunc [stmtAssignX]) [] true true symX loopStartX loopStartX classicAfterX rfl rfl
      (by rfl) (by rfl) (by rfl) with
   | ⟨p, h1, h2, h3, _⟩ => ⟨p, h1, h2, h3⟩⟩

set_option maxHeartbeats 4000000 in
/-- C14, counterexample: in classic mode for Fortran input the written variable
`x` gets the parameter `xp__` of type `int`, the base type itself and not a
pointer, and the shared-remap entry to it. -/
theorem variableHandling_classic_fortran_parameter_not_pointer :
    (variableHandling classicMode langFortran sampleCollaborators [symX] [] [] [] [] [] []
        (emptyFunc [stmtAssignX])).map
        (fun st => (st.ast.args.map (fun p => (p.name, p.type)),
                    st.sym_remap.map (fun e => (e.1, e.2.declaration.name))))
      = some ([("xp__", .typeInt)], [(symX.addr, "xp__")]) ∧
    ∀ t, SgType.typeInt ≠ .pointerType t := by
  refine ⟨by rfl, ?_⟩
  intro t h
  cases h

/-- What step 1 does with the wrapper: the first round appends the wrapper
parameter `void **__out_argv`; every round hands out the wrapper parameter. -/
theorem variableHandling_step1_wrapper (o : Outliner) (l : SageInterface) (q : Collaborators)
    (readOnlyVars : InitNameSet) (isFirst : Bool) (i : SgVariableSymbol)
    (st st1 : LoopState) (p : Option SgInitializedName)
    (hw : o.useParameterWrapper = true)
    (h : variableHandling_step1 o l q readOnlyVars isFirst i st = some (p, st1)) :
    p = st1.parameter1 ∧ st1.ast.body = st.ast.body ∧
    st1.ast.body_symbols = st.ast.body_symbols ∧
    (isFirst = false → st1 = st) ∧
    (isFirst = true →
      st1.parameter1 = some
        { addr := st.ast.next_addr, name := "__out_argv",
          type := .pointerType (.pointerType .typeVoid), scopeIsFunctionDefinition := true,
          symbol_from_symbol_table := some (st.ast.next_addr + 1) } ∧
      st1.ast.args = st.ast.args ++
        [{ addr := st.ast.next_addr, name := "__out_argv",
           type := .pointerType (.pointerType .typeVoid), scopeIsFunctionDefinition := true,
           symbol_from_symbol_table := some (st.ast.next_addr + 1) }] ∧
      st1.ast.next_addr = st.ast.next_addr + 2) := by
  unfold variableHandling_step1 at h
  simp only [hw, if_true, Option.some.injEq, Prod.mk.injEq] at h
  obtain ⟨h1, h2⟩ := h
  subst h2
  cases isFirst <;> simp [← h1, buildInitializedName_appendArg]

/-- Step 2 with classic mode off, spelled out: the unpack declaration is put
first in the body; for a firstprivate variable its private copy `_p_<name>` and
the assignment from the shared copy follow it directly; one remap entry is
recorded.  The parameter list and the loop counter stay as they are. -/
theorem variableHandling_step2_unpack_some (o : Outliner) (l : SageInterface)
    (fpSyms : VarSymSet_t) (isPD : Bool) (i : SgVariableSymbol)
    (p : Option SgInitializedName) (st st2 : LoopState)
    (h : variableHandling_step2_unpack o l fpSyms isPD i p st = some st2) :
    ∃ (param : SgInitializedName) (d : SgVariableDeclaration) (ast1 : AstState),
      p = some param ∧
      createUnpackDecl o l (some param) st.counter isPD i.declaration st.ast = some (d, ast1) ∧
      st2.local_var_decl = some d ∧ st2.ast.args = st.ast.args ∧
      st2.counter = st.counter ∧ st2.parameter1 = st.parameter1 ∧
      (fpSyms.has i.addr = false →
        st2.ast.body = d.toNode :: st.ast.body ∧ st2.private_remap = st.private_remap) ∧
      (fpSyms.has i.addr = true →
        st2.sym_remap = st.sym_remap ∧
        ∃ d2 : SgVariableDeclaration,
          d2.var.name = "_p_" ++ i.declaration.name ∧ d2.var.type = i.declaration.type ∧
          d2.initializer = none ∧
          st2.ast.body = d.toNode :: d2.toNode ::
            SgNode.exprStatement (.assignOp (buildVarRefExp d2.var)
              (.pointerDerefExp (buildVarRefExp d.var) false)) :: st.ast.body ∧
          ∃ sym_new : SgVariableSymbol, sym_new.declaration.addr = d2.var.addr ∧
            st2.private_remap = st.private_remap.insert i.addr sym_new) := by
  unfold variableHandling_step2_unpack at h
  simp only at h
  have hst : ∃ st' : LoopState,
      st' = (if l.is_Fortran_language then { st with args_scope := false } else st) ∧
      st'.ast = st.ast ∧ st'.counter = st.counter ∧ st'.sym_remap = st.sym_remap ∧
      st'.private_remap = st.private_remap ∧ st'.parameter1 = st.parameter1 := by
    refine ⟨_, rfl, ?_⟩
    cases l.is_Fortran_language <;> simp
  obtain ⟨st', hst', ha, hc, hs, hp, hp1⟩ := hst
  rw [← hst'] at h
  clear hst'
  split at h
  · simp at h
  · rename_i d ast1 hd
    cases p with
    | none => simp [createUnpackDecl] at hd
    | some param =>
      rw [ha, hc] at hd
      obtain ⟨lv, _, hbd⟩ := createUnpackDecl_some o l param st.counter isPD i.declaration
        st.ast d ast1 hd
      have hargs : ast1.args = st.ast.args := by
        have := congrArg (fun x => x.2.args) hbd
        simpa [buildVariableDeclaration] using this
      have hbody : ast1.body = st.ast.body := by
        have := congrArg (fun x => x.2.body) hbd
        simpa [buildVariableDeclaration] using this
      have haddr : d.var.addr = st.ast.next_addr := by
        have := congrArg (fun x => x.1.var.addr) hbd
        simpa [buildVariableDeclaration] using this
      have hnext : ast1.next_addr = st.ast.next_addr + 2 := by
        have := congrArg (fun x => x.2.next_addr) hbd
        simpa [buildVariableDeclaration] using this
      refine ⟨param, d, ast1, rfl, hd, ?_⟩
      cases hfp : fpSyms.has i.addr
      · simp only [hfp, Bool.or_self, Bool.false_eq_true, if_false] at h
        split at h
        · simp at h
        · rename_i m1 ast2 hrec
          simp only [Option.some.injEq] at h
          subst h
          unfold recordSymRemap_decl recordSymRemap at hrec
          simp only at hrec
          split at hrec
          · simp at hrec
          · simp only [Option.some.injEq, Prod.mk.injEq] at hrec
            obtain ⟨_, hast⟩ := hrec
            subst hast
            cases st'.args_scope <;>
              simp [prependStatement, hargs, hbody, hc, hp, hp1]
      · simp only [hfp, Bool.or_self, if_true] at h
        split at h
        · simp at h
        · rename_i m1 ast2 hrec
          simp only [Option.some.injEq] at h
          subst h
          unfold recordSymRemap_decl recordSymRemap at hrec
          simp only at hrec
          split at hrec
          · simp at hrec
          · simp only [Option.some.injEq, Prod.mk.injEq] at hrec
            obtain ⟨hm, hast⟩ := hrec
            subst hm hast
            have hne : (d.var.addr == ast1.next_addr) = false := by
              rw [haddr, hnext]; simp
            refine ⟨rfl, ?_, ?_, ?_, ?_, ?_⟩
            · cases st'.args_scope <;>
                simp [prependStatement, insertStatementAfter, buildVariableDeclaration, hargs]
            · simp [hc]
            · simp [hp1]
            · intro hh
              cases hh
            · intro _
              refine ⟨by simp [hs],
                (buildVariableDeclaration ("_p_" ++ i.declaration.name) i.declaration.type none
                  st'.args_scope (prependStatement d.toNode ast1)).1, rfl, rfl, rfl, ?_,
                ⟨_, ?_, by rw [hp]⟩⟩
              · cases st'.args_scope <;>
                  simp [prependStatement, insertStatementAfter, insertAfter, isDeclarationOf,
                    buildVariableDeclaration, SgVariableDeclaration.toNode, hbody, hne]
              · simp [buildVariableDeclaration]
/-- Step 1 leaves the body as it is. -/
theorem variableHandling_step1_body (o : Outliner) (l : SageInterface) (q : Collaborators)
    (readOnlyVars : InitNameSet) (isFirst : Bool) (i : SgVariableSymbol)
    (st st1 : LoopState) (p : Option SgInitializedName)
    (h : variableHandling_step1 o l q readOnlyVars isFirst i st = some (p, st1)) :
    st1.ast.body = st.ast.body := by
  cases hw : o.useParameterWrapper
  · obtain ⟨pn, _, _, _, _, hb, _⟩ :=
      variableHandling_step1_parameter o l q readOnlyVars isFirst i st st1 p hw h
    exact hb
  · exact (variableHandling_step1_wrapper o l q readOnlyVars isFirst i st st1 p hw h).2.1

/-- A round with classic mode off, spelled out: step 1 gives the parameter, the
unpack group goes to the start of the body, the repack statement (if any) to its
end, and the loop counter goes up by one. -/
theorem variableHandling_iter_round (o : Outliner) (l : SageInterface) (q : Collaborators)
    (pdSyms fpSyms : VarSymSet_t) (readOnlyVars liveOutVars : InitNameSet) (isFirst : Bool)
    (i : SgVariableSymbol) (st st1 : LoopState) (hclassic : o.enable_classic = false)
    (h : variableHandling_iter o l q pdSyms fpSyms readOnlyVars liveOutVars isFirst i st
          = some st1) :
    ∃ (sta : LoopState) (param : SgInitializedName) (isPD : Bool) (d : SgVariableDeclaration)
      (ast1 : AstState) (group packs : List SgNode),
      variableHandling_step1 o l q readOnlyVars isFirst i st = some (some param, sta) ∧
      createUnpackDecl o l (some param) st.counter isPD i.declaration sta.ast = some (d, ast1) ∧
      IsUnpackGroup fpSyms i d group ∧ IsRepackOf o l d packs ∧
      st1.ast.body = group ++ st.ast.body ++ packs ∧
      st1.ast.args = sta.ast.args ∧ st1.parameter1 = sta.parameter1 ∧
      st1.counter = st.counter + 1 := by
  unfold variableHandling_iter at h
  split at h
  · simp at h
  · rename_i st2 h2
    split at h
    · simp at h
    · rename_i pack_stmt hp
      simp only [Option.some.injEq] at h
      unfold variableHandling_unpack at h2
      split at h2
      · simp at h2
      · rename_i p sta h1
        have hbody1 := variableHandling_step1_body o l q readOnlyVars isFirst i st sta p h1
        have hfr := variableHandling_step1_frame o l q readOnlyVars isFirst i st sta p h1
        unfold variableHandling_step2 at h2
        simp only [hclassic, Bool.false_eq_true, if_false] at h2
        split at h2
        · simp at h2
        · rename_i isPD hpd
          obtain ⟨param, d, ast1, hpar, hd, hlocal, hargs, hcnt, hp1, hfpF, hfpT⟩ :=
            variableHandling_step2_unpack_some o l fpSyms isPD i p sta st2 h2
          subst hpar
          rw [hfr.2.2.2.2] at hd hcnt
          have hgroup : ∃ group, IsUnpackGroup fpSyms i d group ∧
              st2.ast.body = group ++ st.ast.body := by
            cases hfp : fpSyms.has i.addr
            · exact ⟨[d.toNode], Or.inl ⟨hfp, rfl⟩, by rw [(hfpF hfp).1, hbody1]; rfl⟩
            · obtain ⟨_, d2, hn, ht, hi, hb, _⟩ := hfpT hfp
              exact ⟨_, Or.inr ⟨hfp, d2, hn, ht, hi, rfl⟩, by rw [hb, hbody1]; rfl⟩
          obtain ⟨group, hg, hgb⟩ := hgroup
          have hpacks : ∃ packs, IsRepackOf o l d packs ∧
              st1.ast.body = st2.ast.body ++ packs := by
            cases pack_stmt with
            | none =>
              refine ⟨[], Or.inl rfl, ?_⟩
              subst h
              simp
            | some ps =>
              refine ⟨[ps], ?_, ?_⟩
              · right
                unfold variableHandling_repack at hp
                simp only [hpd, hlocal] at hp
                have hstmt : ∀ li, createPackStmt o l li (some st2.ast.body_symbols)
                    = some (some ps) → li = (match some d with
                      | some d => (d.get_decl_item i.declaration.name).map (fun _ => d)
                      | none => none) →
                    ∃ e, createPackExpr o l d (some st2.ast.body_symbols) = some (some e) ∧
                      ps = .exprStatement e := by
                  intro li hli heq
                  unfold createPackStmt at hli
                  split at hli
                  · simp at hli
                  · rename_i d0
                    have hd0 : d0 = d := by
                      simp only at heq
                      cases hg0 : d.get_decl_item i.declaration.name with
                      | none => simp [hg0] at heq
                      | some x => simp [hg0] at heq; exact heq
                    subst hd0
                    split at hli
                    · simp at hli
                    · split at hli
                      · simp at hli
                      · rename_i e he
                        simp only [Option.some.injEq] at hli
                        exact ⟨e, he, hli.symm⟩
                      · simp at hli
                split at hp
                · simp at hp
                · cases ht : o.temp_variable
                  · simp only [ht, Bool.false_eq_true, if_false] at hp
                    obtain ⟨e, he, hps⟩ := hstmt _ hp rfl
                    exact ⟨e, _, he, by rw [hps]⟩
                  · simp only [ht, if_true] at hp
                    repeat' split at hp
                    all_goals (try simp at hp)
                    all_goals
                      obtain ⟨e, he, hps⟩ := hstmt _ hp rfl
                      exact ⟨e, _, he, by rw [hps]⟩
              · subst h
                simp [appendStatement]
          obtain ⟨packs, hpk, hpb⟩ := hpacks
          refine ⟨sta, param, isPD, d, ast1, group, packs, h1, hd, hg, hpk, ?_, ?_, ?_, ?_⟩
          · rw [hpb, hgb]
          · subst h
            cases pack_stmt <;> simp [appendStatement, hargs]
          · subst h
            simp [hp1]
          · subst h
            simp [hcnt]

/-- The loop over a list made of two parts runs the first part and then the
second, whose first round is the first of the loop only if the first part is
empty. -/
theorem variableHandling_loop_append (o : Outliner) (l : SageInterface) (q : Collaborators)
    (pdSyms fpSyms : VarSymSet_t) (readOnlyVars liveOutVars : InitNameSet) :
    ∀ (xs ys : List SgVariableSymbol) (isFirst : Bool) (st : LoopState),
      variableHandling_loop o l q pdSyms fpSyms readOnlyVars liveOutVars isFirst (xs ++ ys) st
        = match variableHandling_loop o l q pdSyms fpSyms readOnlyVars liveOutVars isFirst xs st
            with
          | none => none
          | some st1 => variableHandling_loop o l q pdSyms fpSyms readOnlyVars liveOutVars
              (isFirst && xs.isEmpty) ys st1
  | [], ys, isFirst, st => by simp [variableHandling_loop]
  | x :: xs, ys, isFirst, st => by
      simp only [List.cons_append, variableHandling_loop]
      cases h : variableHandling_iter o l q pdSyms fpSyms readOnlyVars liveOutVars isFirst x st
        with
      | none => simp
      | some st1 =>
        have ih := variableHandling_loop_append o l q pdSyms fpSyms readOnlyVars liveOutVars
          xs ys false st1
        simp only [List.isEmpty_cons, Bool.and_false]
        simpa using ih

/-- The sequence of rounds of the loop with classic mode off: what each visited
symbol adds at the start and at the end of the body. -/
theorem variableHandling_loop_rounds (o : Outliner) (l : SageInterface) (q : Collaborators)
    (pdSyms fpSyms : VarSymSet_t) (readOnlyVars liveOutVars : InitNameSet)
    (hclassic : o.enable_classic = false) :
    ∀ (xs : List SgVariableSymbol) (isFirst : Bool) (st st1 : LoopState),
      variableHandling_loop o l q pdSyms fpSyms readOnlyVars liveOutVars isFirst xs st
        = some st1 →
      ∃ rs : List (List SgNode × List SgNode),
        List.Forall₂ (IsRound o l fpSyms) xs rs ∧
        st1.ast.body = (rs.reverse.map Prod.fst).flatten ++ st.ast.body ++ (rs.map Prod.snd).flatten
  | [], _, st, st1, h => by
      simp only [variableHandling_loop, Option.some.injEq] at h
      subst h
      exact ⟨[], List.Forall₂.nil, by simp⟩
  | x :: xs, isFirst, st, st1, h => by
      simp only [variableHandling_loop] at h
      split at h
      · simp at h
      · rename_i st2 h2
        obtain ⟨sta, param, isPD, d, ast1, group, packs, _, hd, hg, hp, hb, _⟩ :=
          variableHandling_iter_round o l q pdSyms fpSyms readOnlyVars liveOutVars isFirst x
            st st2 hclassic h2
        obtain ⟨rs, hrs, hbody⟩ := variableHandling_loop_rounds o l q pdSyms fpSyms
          readOnlyVars liveOutVars hclassic xs false st2 st1 h
        refine ⟨(group, packs) :: rs, List.Forall₂.cons ⟨param, _, isPD, _, ast1, d, hd, hg, hp⟩
          hrs, ?_⟩
        rw [hbody, hb]
        simp [List.append_assoc]

/-- One round of `handlePrivateVariables`, spelled out: a declaration with the
variable's name and type and no initializer is put first in the body, and the
symbol is entered in the private remap under a new symbol of that declaration;
the parameter list stays as it is. -/
theorem handlePrivateVariables_iter_some (i : SgVariableSymbol) (m m1 : VarSymRemap_t)
    (ast ast1 : AstState) (h : handlePrivateVariables_iter i (m, ast) = some (m1, ast1)) :
    ∃ (d : SgVariableDeclaration) (sym_new : SgVariableSymbol),
      d.var.addr = ast.next_addr ∧ d.var.name = i.declaration.name ∧
      d.var.type = i.declaration.type ∧ d.initializer = none ∧
      ast1.body = d.toNode :: ast.body ∧ ast1.args = ast.args ∧
      m1 = m.insert i.addr sym_new ∧ sym_new.declaration = d.var := by
  unfold handlePrivateVariables_iter recordSymRemap_decl recordSymRemap at h
  simp only [buildVariableDeclaration, prependStatement, if_true] at h
  split at h
  · simp at h
  · simp only [Option.some.injEq, Prod.mk.injEq] at h
    obtain ⟨hm, hast⟩ := h
    subst hm hast
    exact ⟨(buildVariableDeclaration i.declaration.name i.declaration.type none true ast).1,
      { addr := ast.next_addr + 2,
        declaration := (buildVariableDeclaration i.declaration.name i.declaration.type none
          true ast).1.var },
      rfl, rfl, rfl, rfl, rfl, rfl, rfl, rfl⟩

/-- An entry of the table is still found after `std::map::insert`. -/
theorem VarSymRemap_insert_find (m : VarSymRemap_t) (key : Nat) (v : SgVariableSymbol)
    (k : Nat) (n : SgVariableSymbol) (h : m.find k = some n) :
    (m.insert key v).find k = some n := by
  unfold VarSymRemap_t.insert
  split
  · exact h
  · unfold VarSymRemap_t.find at h ⊢
    rw [List.lookup_append]
    simp [h]

/-- A key that is not in the table is found with the inserted symbol after
`std::map::insert`. -/
theorem VarSymRemap_insert_find_new (m : VarSymRemap_t) (key : Nat) (v : SgVariableSymbol)
    (h : m.find key = none) : (m.insert key v).find key = some v := by
  unfold VarSymRemap_t.find at h
  unfold VarSymRemap_t.insert VarSymRemap_t.find
  rw [h]
  simp only
  rw [List.lookup_append]
  simp [h, List.lookup]

/-- The keys of the table after `std::map::insert`. -/
theorem VarSymRemap_insert_find_none (m : VarSymRemap_t) (key : Nat) (v : SgVariableSymbol)
    (k : Nat) (hk : k ≠ key) (h : m.find k = none) : (m.insert key v).find k = none := by
  unfold VarSymRemap_t.insert
  split
  · exact h
  · unfold VarSymRemap_t.find at h ⊢
    rw [List.lookup_append]
    have hb : (k == key) = false := by simpa using hk
    simp [h, List.lookup, hb]

/-- The table after `recordSymRemap` is the old one, or the old one after an
`insert` under the original symbol. -/
theorem recordSymRemap_table (orig_sym : SgVariableSymbol) (name_new : Option SgInitializedName)
    (scope : Bool) (m m1 : VarSymRemap_t) (ast ast1 : AstState)
    (h : recordSymRemap orig_sym name_new scope m ast = some (m1, ast1)) :
    m1 = m ∨ ∃ v, m1 = m.insert orig_sym.addr v := by
  unfold recordSymRemap at h
  split at h
  · simp only [Option.some.injEq, Prod.mk.injEq] at h
    exact Or.inl h.1.symm
  · simp only at h
    split at h
    · simp at h
    · simp only [Option.some.injEq, Prod.mk.injEq] at h
      exact Or.inr ⟨_, h.1.symm⟩

/-- In every mode, steps 1 and 2 of a round change each remap table by at most
one `insert` under the visited symbol. -/
theorem variableHandling_unpack_tables (o : Outliner) (l : SageInterface)
    (q : Collaborators) (pdSyms fpSyms : VarSymSet_t) (readOnlyVars : InitNameSet)
    (isFirst : Bool) (i : SgVariableSymbol) (st st2 : LoopState)
    (h : variableHandling_unpack o l q pdSyms fpSyms readOnlyVars isFirst i st = some st2) :
    (st2.sym_remap = st.sym_remap ∨ ∃ v, st2.sym_remap = st.sym_remap.insert i.addr v) ∧
    (st2.private_remap = st.private_remap ∨
      ∃ v, st2.private_remap = st.private_remap.insert i.addr v) := by
  unfold variableHandling_unpack at h
  split at h
  · simp at h
  · rename_i p st1 h1
    obtain ⟨hs, hp, _⟩ := variableHandling_step1_frame o l q readOnlyVars isFirst i st st1 p h1
    rw [← hs, ← hp]
    unfold variableHandling_step2 at h
    simp only at h
    split at h
    · simp at h
    · rename_i isPD hpd
      cases hc : o.enable_classic
      · simp only [hc, Bool.false_eq_true, if_false] at h
        unfold variableHandling_step2_unpack at h
        simp only at h
        split at h
        · simp at h
        · rename_i d ast1 hd
          split at h
          · split at h
            · simp at h
            · rename_i m1 ast2 hrec
              simp only [Option.some.injEq] at h
              subst h
              simp only
              unfold recordSymRemap_decl at hrec
              simp only at hrec
              refine ⟨Or.inl ?_, ?_⟩
              · split <;> rfl
              · rcases recordSymRemap_table _ _ _ _ _ _ _ hrec with h3 | ⟨v, h3⟩
                · left
                  rw [h3]
                  split <;> rfl
                · right
                  refine ⟨v, ?_⟩
                  rw [h3]
                  split <;> rfl
          · split at h
            · simp at h
            · rename_i m1 ast2 hrec
              simp only [Option.some.injEq] at h
              subst h
              simp only
              unfold recordSymRemap_decl at hrec
              simp only at hrec
              refine ⟨?_, Or.inl ?_⟩
              · rcases recordSymRemap_table _ _ _ _ _ _ _ hrec with h3 | ⟨v, h3⟩
                · left
                  rw [h3]
                  split <;> rfl
                · right
                  refine ⟨v, ?_⟩
                  rw [h3]
                  split <;> rfl
              · split <;> rfl
      · simp only [hc, if_true] at h
        split at h
        · split at h
          · simp at h
          · rename_i m1 ast2 hrec
            simp only [Option.some.injEq] at h
            subst h
            refine ⟨?_, Or.inl rfl⟩
            rcases recordSymRemap_table _ _ _ _ _ _ _ hrec with h3 | ⟨v, h3⟩
            · exact Or.inl h3
            · exact Or.inr ⟨v, h3⟩
        · simp only [Option.some.injEq] at h
          subst h
          exact ⟨Or.inl rfl, Or.inl rfl⟩

/-- In every mode, the loop keeps every entry of the private remap, and enters
in the shared remap only symbols that it visits. -/
theorem variableHandling_loop_tables (o : Outliner) (l : SageInterface) (q : Collaborators)
    (pdSyms fpSyms : VarSymSet_t) (readOnlyVars liveOutVars : InitNameSet) :
    ∀ (xs : List SgVariableSymbol) (isFirst : Bool) (st st1 : LoopState),
      variableHandling_loop o l q pdSyms fpSyms readOnlyVars liveOutVars isFirst xs st
        = some st1 →
      (∀ k n, st.private_remap.find k = some n → st1.private_remap.find k = some n) ∧
      (∀ k, (∀ x ∈ xs, k ≠ x.addr) → st.sym_remap.find k = none →
        st1.sym_remap.find k = none)
  | [], _, st, st1, h => by
      simp only [variableHandling_loop, Option.some.injEq] at h
      subst h
      exact ⟨fun _ _ h => h, fun _ _ h => h⟩
  | x :: xs, isFirst, st, st1, h => by
      simp only [variableHandling_loop] at h
      split at h
      · simp at h
      · rename_i st2 h2
        obtain ⟨st3, h3, hs, hp⟩ := variableHandling_iter_sym_remap o l q pdSyms fpSyms
          readOnlyVars liveOutVars isFirst x st st2 h2
        obtain ⟨hts, htp⟩ := variableHandling_unpack_tables o l q pdSyms fpSyms readOnlyVars
          isFirst x st st3 h3
        obtain ⟨ih1, ih2⟩ := variableHandling_loop_tables o l q pdSyms fpSyms readOnlyVars
          liveOutVars xs false st2 st1 h
        refine ⟨fun k n hk => ih1 k n ?_, fun k hne hk => ih2 k ?_ ?_⟩
        · rw [hp]
          rcases htp with h4 | ⟨v, h4⟩
          · rw [h4]
            exact hk
          · rw [h4]
            exact VarSymRemap_insert_find _ _ _ _ _ hk
        · exact fun y hy => hne y (List.mem_cons_of_mem _ hy)
        · rw [hs]
          rcases hts with h4 | ⟨v, h4⟩
          · rw [h4]
            exact hk
          · rw [h4]
            exact VarSymRemap_insert_find_none _ _ _ _ (hne x (List.mem_cons_self _ _)) hk

/-- The rounds of `handlePrivateVariables` over symbols with distinct addresses
that have no entry yet: one declaration per symbol goes to the start of the
body, the last visited first; each symbol is found in the table with a symbol of
its declaration; the parameter list stays as it is. -/
theorem handlePrivateVariables_rounds :
    ∀ (xs : List SgVariableSymbol) (m m1 : VarSymRemap_t) (ast ast1 : AstState),
      foldAbort handlePrivateVariables_iter xs (m, ast) = some (m1, ast1) →
      xs.Pairwise (fun a b => a.addr ≠ b.addr) →
      (∀ x ∈ xs, m.find x.addr = none) →
      (∃ ds : List SgNode, List.Forall₂ (IsPrivateCopy m1) xs ds ∧
        ast1.body = ds.reverse ++ ast.body) ∧
      ast1.args = ast.args ∧
      (∀ k n, m.find k = some n → m1.find k = some n)
  | [], m, m1, ast, ast1, h, _, _ => by
      simp only [foldAbort, Option.some.injEq, Prod.mk.injEq] at h
      obtain ⟨h1, h2⟩ := h
      subst h1 h2
      exact ⟨⟨[], List.Forall₂.nil, by simp⟩, rfl, fun _ _ h => h⟩
  | x :: xs, m, m1, ast, ast1, h, hpw, hfresh => by
      simp only [foldAbort] at h
      split at h
      · simp at h
      · rename_i st2 h2
        obtain ⟨m2, ast2⟩ := st2
        obtain ⟨d, sym_new, _, hn, ht, hi, hb, ha, hm, hs⟩ :=
          handlePrivateVariables_iter_some x m m2 ast ast2 h2
        rw [List.pairwise_cons] at hpw
        have hx : m2.find x.addr = some sym_new := by
          rw [hm]
          exact VarSymRemap_insert_find_new _ _ _ (hfresh x (List.mem_cons_self _ _))
        have hfresh2 : ∀ y ∈ xs, m2.find y.addr = none := by
          intro y hy
          rw [hm]
          exact VarSymRemap_insert_find_none _ _ _ _ (fun e => hpw.1 y hy e.symm)
            (hfresh y (List.mem_cons_of_mem _ hy))
        obtain ⟨⟨ds, hds, hbody⟩, hargs, hmono⟩ :=
          handlePrivateVariables_rounds xs m2 m1 ast2 ast1 h hpw.2 hfresh2
        refine ⟨⟨d.toNode :: ds, List.Forall₂.cons ?_ hds, ?_⟩, hargs.trans ha, ?_⟩
        · exact ⟨d, sym_new, rfl, hn, ht, hi, hmono _ _ hx, hs⟩
        · rw [hbody, hb]
          simp
        · intro k n hk
          apply hmono
          rw [hm]
          exact VarSymRemap_insert_find _ _ _ _ _ hk

/-- The traversal of `remapVarSyms` works statement by statement. -/
theorem remapVarSyms_append (o : Outliner) (l : SageInterface) (vsym_remap : VarSymRemap_t)
    (pdSyms : VarSymSet_t) (private_remap : VarSymRemap_t) (a b : List SgNode) :
    remapVarSyms o l vsym_remap pdSyms private_remap (a ++ b)
      = remapVarSyms o l vsym_remap pdSyms private_remap a
        ++ remapVarSyms o l vsym_remap pdSyms private_remap b := by
  unfold remapVarSyms
  split
  · rfl
  · simp [remapList_eq_map]

/-- A declaration without initializer holds no reference, and `remapVarSyms`
leaves it as it is. -/
theorem remapVarSyms_plain_declarations (o : Outliner) (l : SageInterface)
    (vsym_remap : VarSymRemap_t) (pdSyms : VarSymSet_t) (private_remap : VarSymRemap_t)
    (ds : List SgNode)
    (h : ∀ s ∈ ds, ∃ d : SgVariableDeclaration, s = d.toNode ∧ d.initializer = none) :
    remapVarSyms o l vsym_remap pdSyms private_remap ds = ds := by
  unfold remapVarSyms
  split
  · rfl
  · rw [remapList_eq_map]
    conv_rhs => rw [← List.map_id ds]
    apply List.map_congr_left
    intro s hs
    obtain ⟨d, hd, hi⟩ := h s hs
    subst hd
    simp [SgVariableDeclaration.toNode, hi, remapNode, remapOption]

/-- In every mode, a round of the loop adds statements only before and after
the body that it finds. -/
theorem variableHandling_iter_body (o : Outliner) (l : SageInterface) (q : Collaborators)
    (pdSyms fpSyms : VarSymSet_t) (readOnlyVars liveOutVars : InitNameSet) (isFirst : Bool)
    (i : SgVariableSymbol) (st st1 : LoopState)
    (h : variableHandling_iter o l q pdSyms fpSyms readOnlyVars liveOutVars isFirst i st
          = some st1) :
    ∃ pre post : List SgNode, st1.ast.body = pre ++ st.ast.body ++ post := by
  cases hclassic : o.enable_classic
  · obtain ⟨_, _, _, _, _, group, packs, _, _, _, _, hb, _⟩ :=
      variableHandling_iter_round o l q pdSyms fpSyms readOnlyVars liveOutVars isFirst i st st1
        hclassic h
    exact ⟨group, packs, hb⟩
  · unfold variableHandling_iter at h
    split at h
    · simp at h
    · rename_i st2 h2
      have hb2 : st2.ast.body = st.ast.body := by
        unfold variableHandling_unpack at h2
        split at h2
        · simp at h2
        · rename_i p sta ha
          have hba := variableHandling_step1_body o l q readOnlyVars isFirst i st sta p ha
          rw [← hba]
          unfold variableHandling_step2 at h2
          simp only [hclassic, if_true] at h2
          split at h2
          · simp at h2
          · split at h2
            · split at h2
              · simp at h2
              · rename_i m1 ast2 hrec
                simp only [Option.some.injEq] at h2
                subst h2
                unfold recordSymRemap at hrec
                split at hrec
                · simp only [Option.some.injEq, Prod.mk.injEq] at hrec
                  rw [← hrec.2]
                · simp only at hrec
                  split at hrec
                  · simp at hrec
                  · simp only [Option.some.injEq, Prod.mk.injEq] at hrec
                    rw [← hrec.2]
            · simp only [Option.some.injEq] at h2
              subst h2
              rfl
      split at h
      · simp at h
      · rename_i pack_stmt hp
        simp only [Option.some.injEq] at h
        subst h
        cases pack_stmt with
        | none => exact ⟨[], [], by simp [hb2]⟩
        | some s => exact ⟨[], [s], by simp [appendStatement, hb2]⟩

/-- In every mode, the loop adds statements only before and after the body that
it finds. -/
theorem variableHandling_loop_body (o : Outliner) (l : SageInterface) (q : Collaborators)
    (pdSyms fpSyms : VarSymSet_t) (readOnlyVars liveOutVars : InitNameSet) :
    ∀ (xs : List SgVariableSymbol) (isFirst : Bool) (st st1 : LoopState),
      variableHandling_loop o l q pdSyms fpSyms readOnlyVars liveOutVars isFirst xs st
        = some st1 →
      ∃ pre post : List SgNode, st1.ast.body = pre ++ st.ast.body ++ post
  | [], _, st, st1, h => by
      simp only [variableHandling_loop, Option.some.injEq] at h
      subst h
      exact ⟨[], [], by simp⟩
  | x :: xs, isFirst, st, st1, h => by
      simp only [variableHandling_loop] at h
      split at h
      · simp at h
      · rename_i st2 h2
        obtain ⟨pre, post, hb⟩ := variableHandling_iter_body o l q pdSyms fpSyms readOnlyVars
          liveOutVars isFirst x st st2 h2
        obtain ⟨pre1, post1, hb1⟩ := variableHandling_loop_body o l q pdSyms fpSyms
          readOnlyVars liveOutVars xs false st2 st1 h
        exact ⟨pre1 ++ pre, post ++ post1, by rw [hb1, hb]; simp [List.append_assoc]⟩

/-- Every element of the second list of a pairing has its partner in the
first. -/
theorem forall₂_mem_right {α β : Type} (R : α → β → Prop) (xs : List α) (ys : List β)
    (h : List.Forall₂ R xs ys) : ∀ y ∈ ys, ∃ x ∈ xs, R x y := by
  induction h with
  | nil => intro y hy; simp at hy
  | cons hr _ ih =>
    intro y hy
    rcases List.mem_cons.mp hy with h1 | h1
    · subst h1
      exact ⟨_, List.mem_cons_self _ _, hr⟩
    · obtain ⟨x, hx, hxy⟩ := ih y h1
      exact ⟨x, List.mem_cons_of_mem _ hx, hxy⟩

/-- `variableHandling_init` is `handlePrivateVariables` run on the empty private
remap; the shared remap starts empty. -/
theorem variableHandling_init_private (pSyms : VarSymSet_t) (func : AstState) (st0 : LoopState)
    (h : variableHandling_init pSyms func = some st0) :
    handlePrivateVariables pSyms [] func = some (st0.private_remap, st0.ast) ∧
    st0.sym_remap = [] ∧ st0.counter = 0 ∧ st0.parameter1 = none := by
  unfold variableHandling_init at h
  split at h
  · simp at h
  · rename_i m ast hp
    simp only [Option.some.injEq] at h
    subst h
    exact ⟨hp, rfl, rfl, rfl⟩

/-- With the wrapper, for input that is not Fortran, the declaration that
`createUnpackDecl` builds has the variable's name and is initialized from the
element `index` of the parameter. -/
theorem createUnpackDecl_wrapper_element (o : Outliner) (l : SageInterface)
    (w : SgInitializedName) (index : Int) (isPD : Bool) (i_name : SgInitializedName)
    (ast ast1 : AstState) (d : SgVariableDeclaration)
    (hw : o.useParameterWrapper = true) (hlang : l.is_Fortran_language = false)
    (h : createUnpackDecl o l (some w) index isPD i_name ast = some (d, ast1)) :
    d.var.name = i_name.name ∧ IsUnpackedFromElement w index d := by
  unfold createUnpackDecl at h
  simp only [hlang, Bool.false_eq_true, if_false, createUnpackDecl_local_val,
    createUnpackDecl_cast_expr, hw, if_true] at h
  unfold IsUnpackedFromElement
  cases ht : o.temp_variable <;> cases isPD <;> cases hc : l.is_C_language <;>
    cases hx : l.is_Cxx_language <;>
    simp only [ht, hc, hx, Bool.false_eq_true, if_false, if_true, Option.some.injEq,
      Prod.mk.injEq, reduceCtorEq] at h <;>
    (have hd := congrArg Prod.fst h
     simp only [buildVariableDeclaration] at hd
     subst hd
     simp)

/-- A round with the wrapper (classic mode off, input not Fortran): the variable
is unpacked from the element of the wrapper parameter at the loop counter; the
first round appends the wrapper parameter to the parameter list, a later round
uses the one that is there. -/
theorem variableHandling_iter_wrapper (o : Outliner) (l : SageInterface) (q : Collaborators)
    (pdSyms fpSyms : VarSymSet_t) (readOnlyVars liveOutVars : InitNameSet) (isFirst : Bool)
    (i : SgVariableSymbol) (st st1 : LoopState)
    (hw : o.useParameterWrapper = true) (hclassic : o.enable_classic = false)
    (hlang : l.is_Fortran_language = false)
    (h : variableHandling_iter o l q pdSyms fpSyms readOnlyVars liveOutVars isFirst i st
          = some st1) :
    ∃ (w : SgInitializedName) (d : SgVariableDeclaration),
      st1.parameter1 = some w ∧
      (isFirst = false → st.parameter1 = some w ∧ st1.ast.args = st.ast.args) ∧
      (isFirst = true → w.name = "__out_argv" ∧
        w.type = .pointerType (.pointerType .typeVoid) ∧ st1.ast.args = st.ast.args ++ [w]) ∧
      d.var.name = i.declaration.name ∧ IsUnpackedFromElement w st.counter d ∧
      d.toNode ∈ st1.ast.body ∧ st1.counter = st.counter + 1 := by
  obtain ⟨sta, param, isPD, d, ast1, group, packs, h1, hd, hg, _, hb, ha, hp, hc⟩ :=
    variableHandling_iter_round o l q pdSyms fpSyms readOnlyVars liveOutVars isFirst i st st1
      hclassic h
  obtain ⟨hp1, _, _, hnf, hf⟩ :=
    variableHandling_step1_wrapper o l q readOnlyVars isFirst i st sta (some param) hw h1
  obtain ⟨hname, helem⟩ := createUnpackDecl_wrapper_element o l param st.counter isPD
    i.declaration sta.ast ast1 d hw hlang hd
  have hmem : d.toNode ∈ st1.ast.body := by
    rw [hb]
    rcases hg with ⟨_, hg⟩ | ⟨_, d2, _, _, _, hg⟩ <;> simp [hg]
  refine ⟨param, d, by rw [hp, ← hp1], ?_, ?_, hname, helem, hmem, hc⟩
  · intro hfirst
    have := hnf hfirst
    subst this
    exact ⟨hp1.symm, ha⟩
  · intro hfirst
    obtain ⟨h2, h3, _⟩ := hf hfirst
    have hpar : param = _ := Option.some.inj (hp1.trans h2)
    refine ⟨by rw [hpar], by rw [hpar], ?_⟩
    rw [ha, h3, hpar]

/-- The rounds after the first with the wrapper (classic mode off, input not
Fortran): the parameter list stays as it is, and the `k`-th symbol visited is
unpacked from the element of the wrapper parameter at the loop counter plus
`k`. -/
theorem variableHandling_loop_wrapper_rest (o : Outliner) (l : SageInterface)
    (q : Collaborators) (pdSyms fpSyms : VarSymSet_t) (readOnlyVars liveOutVars : InitNameSet)
    (hw : o.useParameterWrapper = true) (hclassic : o.enable_classic = false)
    (hlang : l.is_Fortran_language = false) :
    ∀ (xs : List SgVariableSymbol) (st st1 : LoopState) (w : SgInitializedName),
      st.parameter1 = some w →
      variableHandling_loop o l q pdSyms fpSyms readOnlyVars liveOutVars false xs st
        = some st1 →
      st1.ast.args = st.ast.args ∧
      ∃ ds : List SgVariableDeclaration, ds.length = xs.length ∧
        ∀ (k : Nat) (v : SgVariableSymbol) (d : SgVariableDeclaration),
          xs[k]? = some v → ds[k]? = some d →
          d.var.name = v.declaration.name ∧ IsUnpackedFromElement w (st.counter + k) d ∧
          d.toNode ∈ st1.ast.body
  | [], st, st1, w, _, h => by
      simp only [variableHandling_loop, Option.some.injEq] at h
      subst h
      exact ⟨rfl, [], rfl, by simp⟩
  | x :: xs, st, st1, w, hpar, h => by
      simp only [variableHandling_loop] at h
      split at h
      · simp at h
      · rename_i st2 h2
        obtain ⟨w2, d, hp2, hnf, _, hname, helem, hmem, hc⟩ :=
          variableHandling_iter_wrapper o l q pdSyms fpSyms readOnlyVars liveOutVars false x
            st st2 hw hclassic hlang h2
        obtain ⟨hpw, hargs⟩ := hnf rfl
        have hww : w2 = w := Option.some.inj (hpw.symm.trans hpar)
        subst hww
        obtain ⟨hargs2, ds, hlen, hds⟩ := variableHandling_loop_wrapper_rest o l q pdSyms
          fpSyms readOnlyVars liveOutVars hw hclassic hlang xs st2 st1 w2 hp2 h
        obtain ⟨pre, post, hbody⟩ := variableHandling_loop_body o l q pdSyms fpSyms
          readOnlyVars liveOutVars xs false st2 st1 h
        refine ⟨hargs2.trans hargs, d :: ds, by simp [hlen], ?_⟩
        intro k v d1 hv hd1
        cases k with
        | zero =>
          simp only [List.getElem?_cons_zero, Option.some.injEq] at hv hd1
          subst hv hd1
          refine ⟨hname, by simpa using helem, ?_⟩
          rw [hbody]
          simp [hmem]
        | succ k =>
          simp only [List.getElem?_cons_succ] at hv hd1
          obtain ⟨h3, h4, h5⟩ := hds k v d1 hv hd1
          refine ⟨h3, ?_, h5⟩
          rw [hc] at h4
          have : st.counter + ((k + 1 : Nat) : Int) = st.counter + 1 + (k : Int) := by
            push_cast
            ring
          rw [this]
          exact h4

/-- The loop with the wrapper (classic mode off, input not Fortran): with no
symbol to visit the parameter list stays as it is; otherwise exactly one
parameter, `void **__out_argv`, is appended to it, and the `k`-th symbol visited
is unpacked from its element at the loop counter plus `k`. -/
theorem variableHandling_loop_wrapper (o : Outliner) (l : SageInterface)
    (q : Collaborators) (pdSyms fpSyms : VarSymSet_t) (readOnlyVars liveOutVars : InitNameSet)
    (hw : o.useParameterWrapper = true) (hclassic : o.enable_classic = false)
    (hlang : l.is_Fortran_language = false)
    (xs : List SgVariableSymbol) (st st1 : LoopState)
    (h : variableHandling_loop o l q pdSyms fpSyms readOnlyVars liveOutVars true xs st
          = some st1) :
    (xs = [] → st1.ast.args = st.ast.args) ∧
    (xs ≠ [] → ∃ w : SgInitializedName, w.name = "__out_argv" ∧
      w.type = .pointerType (.pointerType .typeVoid) ∧ st1.ast.args = st.ast.args ++ [w] ∧
      ∃ ds : List SgVariableDeclaration, ds.length = xs.length ∧
        ∀ (k : Nat) (v : SgVariableSymbol) (d : SgVariableDeclaration),
          xs[k]? = some v → ds[k]? = some d →
          d.var.name = v.declaration.name ∧ IsUnpackedFromElement w (st.counter + k) d ∧
          d.toNode ∈ st1.ast.body) := by
  cases xs with
  | nil =>
    simp only [variableHandling_loop, Option.some.injEq] at h
    subst h
    exact ⟨fun _ => rfl, fun hne => absurd rfl hne⟩
  | cons x xs =>
    refine ⟨fun hnil => absurd hnil (List.cons_ne_nil _ _), fun _ => ?_⟩
    simp only [variableHandling_loop] at h
    split at h
    · simp at h
    · rename_i st2 h2
      obtain ⟨w, d, hp2, _, hf, hname, helem, hmem, hc⟩ :=
        variableHandling_iter_wrapper o l q pdSyms fpSyms readOnlyVars liveOutVars true x
          st st2 hw hclassic hlang h2
      obtain ⟨hwn, hwt, hargs⟩ := hf rfl
      obtain ⟨hargs2, ds, hlen, hds⟩ := variableHandling_loop_wrapper_rest o l q pdSyms
        fpSyms readOnlyVars liveOutVars hw hclassic hlang xs st2 st1 w hp2 h
      obtain ⟨pre, post, hbody⟩ := variableHandling_loop_body o l q pdSyms fpSyms
        readOnlyVars liveOutVars xs false st2 st1 h
      refine ⟨w, hwn, hwt, hargs2.trans hargs, d :: ds, by simp [hlen], ?_⟩
      intro k v d1 hv hd1
      cases k with
      | zero =>
        simp only [List.getElem?_cons_zero, Option.some.injEq] at hv hd1
        subst hv hd1
        refine ⟨hname, by simpa using helem, ?_⟩
        rw [hbody]
        simp [hmem]
      | succ k =>
        simp only [List.getElem?_cons_succ] at hv hd1
        obtain ⟨h3, h4, h5⟩ := hds k v d1 hv hd1
        refine ⟨h3, ?_, h5⟩
        rw [hc] at h4
        have : st.counter + ((k + 1 : Nat) : Int) = st.counter + 1 + (k : Int) := by
          push_cast
          ring
        rw [this]
        exact h4

/-- The rounds of `handlePrivateVariables` leave the parameter list as it is. -/
theorem handlePrivateVariables_args :
    ∀ (xs : List SgVariableSymbol) (m m1 : VarSymRemap_t) (ast ast1 : AstState),
      foldAbort handlePrivateVariables_iter xs (m, ast) = some (m1, ast1) →
      ast1.args = ast.args
  | [], m, m1, ast, ast1, h => by
      simp only [foldAbort, Option.some.injEq, Prod.mk.injEq] at h
      rw [← h.2]
  | x :: xs, m, m1, ast, ast1, h => by
      simp only [foldAbort] at h
      split at h
      · simp at h
      · rename_i st2 h2
        obtain ⟨m2, ast2⟩ := st2
        obtain ⟨_, _, _, _, _, _, _, ha, _⟩ := handlePrivateVariables_iter_some x m m2 ast ast2 h2
        exact (handlePrivateVariables_args xs m2 m1 ast2 ast1 h).trans ha

/-- The function that `variableHandling` returns has the parameter list that the
loop built. -/
theorem variableHandling_args (o : Outliner) (l : SageInterface) (q : Collaborators)
    (syms pdSyms pSyms fpSyms reductionSyms : VarSymSet_t)
    (readOnlyVars liveOutVars : InitNameSet) (func : AstState) (st : LoopState)
    (h : variableHandling o l q syms pdSyms pSyms fpSyms reductionSyms readOnlyVars liveOutVars
          func = some st) :
    ∃ st0 st1, variableHandling_init pSyms func = some st0 ∧
      variableHandling_loop o l q pdSyms fpSyms readOnlyVars liveOutVars true syms.reverse st0
        = some st1 ∧
      st0.ast.args = func.args ∧ st0.counter = 0 ∧ st.ast.args = st1.ast.args ∧
      st.ast.body = remapVarSyms o l st.sym_remap pdSyms st.private_remap st1.ast.body := by
  unfold variableHandling at h
  simp only at h
  split at h
  · simp at h
  · rename_i st0 h0
    split at h
    · simp at h
    · rename_i st1 h1
      simp only [Option.some.injEq] at h
      subst h
      obtain ⟨hpriv, _, hc, _⟩ := variableHandling_init_private pSyms func st0 h0
      exact ⟨st0, st1, h0, h1, handlePrivateVariables_args _ _ _ _ _ hpriv, hc, rfl, rfl⟩

/-- C15 (amended): for input that is not Fortran, with the parameter wrapper on
and classic mode off, let `variableHandling` return.  With an empty `syms` the
parameter list is unchanged.  With a non-empty `syms` exactly one parameter is
appended to it, named `__out_argv` with type pointer-to-pointer-to-void, and the
body (as it is before the references are remapped) holds, for the `k`-th
variable visited (`syms` from its last element to its first, `k` from 0), an
unpack declaration with the variable's name whose initializer is the element
`__out_argv[k]`, cast to a pointer type, or the dereference of that cast; there
is one such declaration per variable of `syms`. -/
theorem variableHandling_wrapper_parameter (o : Outliner) (l : SageInterface)
    (q : Collaborators) (syms pdSyms pSyms fpSyms reductionSyms : VarSymSet_t)
    (readOnlyVars liveOutVars : InitNameSet) (func : AstState) (st : LoopState)
    (hw : o.useParameterWrapper = true) (hclassic : o.enable_classic = false)
    (hlang : l.is_Fortran_language = false)
    (h : variableHandling o l q syms pdSyms pSyms fpSyms reductionSyms readOnlyVars liveOutVars
          func = some st) :
    (syms = [] → st.ast.args = func.args) ∧
    (syms ≠ [] → ∃ w : SgInitializedName, w.name = "__out_argv" ∧
      w.type = .pointerType (.pointerType .typeVoid) ∧ st.ast.args = func.args ++ [w] ∧
      ∃ (body1 : List SgNode) (ds : List SgVariableDeclaration),
        st.ast.body = remapVarSyms o l st.sym_remap pdSyms st.private_remap body1 ∧
        ds.length = syms.length ∧
        ∀ (k : Nat) (v : SgVariableSymbol) (d : SgVariableDeclaration),
          syms.reverse[k]? = some v → ds[k]? = some d →
          d.var.name = v.declaration.name ∧ IsUnpackedFromElement w k d ∧
          d.toNode ∈ body1) := by
  obtain ⟨st0, st1, _, h1, ha0, hc0, ha, hb⟩ := variableHandling_args o l q syms pdSyms pSyms
    fpSyms reductionSyms readOnlyVars liveOutVars func st h
  obtain ⟨hnil, hcons⟩ := variableHandling_loop_wrapper o l q pdSyms fpSyms readOnlyVars
    liveOutVars hw hclassic hlang syms.reverse st0 st1 h1
  refine ⟨fun he => ?_, fun hne => ?_⟩
  · rw [ha, hnil (by simp [he]), ha0]
  · obtain ⟨w, hwn, hwt, hargs, ds, hlen, hds⟩ := hcons (by simpa using hne)
    refine ⟨w, hwn, hwt, by rw [ha, hargs, ha0], st1.ast.body, ds, hb, by simpa using hlen, ?_⟩
    intro k v d hv hd
    have := hds k v d hv hd
    rw [hc0] at this
    simpa using this

/-- Witness for C15 (amended): x, y, z with the wrapper in temp-variable mode for
C on the body `x = 1; y = 2; z = 5; t = 3;`.  The one parameter is
`void **__out_argv`; the body starts with the unpack declarations of x, y, z,
which read the elements 2, 1, 0: `z`, visited first, has the index 0. -/
theorem variableHandling_wrapper_parameter_witness :
    variableHandling wrapperMode langC sampleCollaborators [symX, symY, symZ] [] [] [] [] [] []
      funcXYZT = some wrappedXYZ ∧
    wrappedXYZ.ast.args.map (fun p => (p.name, p.type))
      = [("__out_argv", .pointerType (.pointerType .typeVoid))] ∧
    wrappedXYZ.ast.body.map (fun s => (declaredName s, unpackedIndex s))
      = [(some "x", some 2), (some "y", some 1), (some "z", some 0), (none, none),
         (none, none), (none, none), (none, none), (none, none), (none, none), (none, none)] ∧
    ∃ w : SgInitializedName, w.name = "__out_argv" ∧
      w.type = .pointerType (.pointerType .typeVoid) ∧
      wrappedXYZ.ast.args = funcXYZT.args ++ [w] ∧
      ∃ (body1 : List SgNode) (ds : List SgVariableDeclaration),
        wrappedXYZ.ast.body = remapVarSyms wrapperMode langC wrappedXYZ.sym_remap []
          wrappedXYZ.private_remap body1 ∧
        ds.length = [symX, symY, symZ].length ∧
        ∀ (k : Nat) (v : SgVariableSymbol) (d : SgVariableDeclaration),
          [symX, symY, symZ].reverse[k]? = some v → ds[k]? = some d →
          d.var.name = v.declaration.name ∧ IsUnpackedFromElement w k d ∧
          d.toNode ∈ body1 :=
  ⟨option_eq_some_getD _ _ (by decide!), by decide!, by decide!,
   (variableHandling_wrapper_parameter wrapperMode langC sampleCollaborators [symX, symY, symZ]
      [] [] [] [] [] [] funcXYZT wrappedXYZ rfl rfl rfl
      (option_eq_some_getD _ _ (by decide!))).2 (List.cons_ne_nil _ _)⟩

set_option maxHeartbeats 4000000 in
/-- C15, counterexample: with the wrapper on (classic off) for Fortran input and
`syms` holding `x`, the body of the returned function is a declaration named
`__out_argv` without any initializer, followed by the statement of the block:
the variable is not unpacked from `__out_argv[0]`. -/
theorem variableHandling_wrapper_fortran_not_unpacked :
    (variableHandling wrapperMode langFortran sampleCollaborators [symX] [] [] [] [] [] []
        (emptyFunc [stmtAssignX])).map
        (fun st => st.ast.body.map (fun s =>
          match s with
          | .variableDeclaration v i => some (v.name, i)
          | _ => none))
      = some [some ("__out_argv", none), none] := by
  rfl

/-- The set `reductionSyms` has no influence on what `variableHandling` does. -/
theorem variableHandling_ignores_reductionSyms (o : Outliner) (l : SageInterface)
    (q : Collaborators) (syms pdSyms pSyms fpSyms r1 r2 : VarSymSet_t)
    (readOnlyVars liveOutVars : InitNameSet) (func : AstState) :
    variableHandling o l q syms pdSyms pSyms fpSyms r1 readOnlyVars liveOutVars func
      = variableHandling o l q syms pdSyms pSyms fpSyms r2 readOnlyVars liveOutVars func := rfl

set_option maxHeartbeats 4000000 in
/-- C17, at the failing input: in temp-variable mode for C, classic mode off,
with `x` in `syms` and in `reductionSyms` but not in `fpSyms`, the body gets the
one declaration `x` and no private copy `_p_x`, and `x` is recorded in the shared
remap and not in the private remap.  With `x` in `fpSyms` instead, the body
gets `x` and `_p_x`, and `x` is recorded in the private remap only. -/
theorem variableHandling_reduction_without_private_copy :
    (variableHandling tempMode langC sampleCollaborators [symX] [] [] [] [symX] [] []
        (emptyFunc [stmtAssignX])).map
        (fun st => (st.private_remap.map (·.1), st.sym_remap.map (·.1),
                    st.ast.body.filterMap declaredName))
      = some ([], [symX.addr], ["x"]) ∧
    (variableHandling tempMode langC sampleCollaborators [symX] [] [] [symX] [] [] []
        (emptyFunc [stmtAssignX])).map
        (fun st => (st.private_remap.map (·.1), st.sym_remap.map (·.1),
                    st.ast.body.filterMap declaredName))
      = some ([symX.addr], [], ["x", "_p_x"]) := by
  refine ⟨by rfl, by rfl⟩

set_option maxHeartbeats 4000000 in
/-- C18, at the failing input: in classic mode for C with the written `int x` in
`syms`, the one new parameter `xp__` (address 100) ends up with two variable
symbols, both created for it during the call: symbol 101, entered in the table
of the function definition by `createInitName`, and symbol 102, entered in the
table of the body by `recordSymRemap`. -/
theorem variableHandling_classic_parameter_two_symbols :
    (variableHandling classicMode langC sampleCollaborators [symX] [] [] [] [] [] []
        (emptyFunc [stmtAssignX])).map
        (fun st => (st.ast.args.map (fun p => (p.name, p.addr)),
                    st.ast.definition_symbols.map (fun e => (e.1, e.2.addr, e.2.declaration.addr)),
                    st.ast.body_symbols.map (fun e => (e.1, e.2.addr, e.2.declaration.addr))))
      = some ([("xp__", 100)], [("xp__", 101, 100)], [("xp__", 102, 100)]) := by
  rfl

/-- C19 (amended): past the early return for two empty tables, `remapVarSyms`
handles a variable reference that lies inside a nested function definition or a
lambda of the body like every other reference: the node in its place afterwards
is the one that the loop body `remapVarRef` makes of its symbol (the new symbol,
or its parenthesised dereference, when the symbol is a key of a remap table). -/
theorem remapVarSyms_rewrites_inside_nested_function (o : Outliner) (l : SageInterface)
    (vsym_remap : VarSymRemap_t) (pdSyms : VarSymSet_t) (private_remap : VarSymRemap_t)
    (b : List SgNode) (path : List Nat) (s : SgVariableSymbol)
    (href : (SgNode.basicBlock b).nodeAt path = some (.varRefExp s))
    (hnested : (SgNode.basicBlock b).insideNestedFunction path = true)
    (hne : (vsym_remap.isEmpty && private_remap.isEmpty) = false) :
    (SgNode.basicBlock (remapVarSyms o l vsym_remap pdSyms private_remap b)).nodeAt path
      = some (remapVarRef o l vsym_remap pdSyms private_remap s) := by
  have _ := hnested
  rw [remapVarSyms_block o l vsym_remap pdSyms private_remap b hne]
  exact nodeAt_remapNode _ s path _ href

/-- Witness for C19 (amended): the reference to `x` inside the lambda
`[&]() { x = 1; }`, with `x` in the shared remap, in temp-variable mode for C. -/
theorem remapVarSyms_rewrites_inside_nested_function_witness :
    (SgNode.basicBlock [stmtLambdaAssignX]).nodeAt [0, 0, 0, 0, 0, 0] = some (.varRefExp symX) ∧
    (SgNode.basicBlock [stmtLambdaAssignX]).insideNestedFunction [0, 0, 0, 0, 0, 0] = true ∧
    (SgNode.basicBlock (remapVarSyms tempMode langC [(symX.addr, remapSymX)] [] []
        [stmtLambdaAssignX])).nodeAt [0, 0, 0, 0, 0, 0]
      = some (remapVarRef tempMode langC [(symX.addr, remapSymX)] [] [] symX) :=
  ⟨rfl, rfl,
   remapVarSyms_rewrites_inside_nested_function tempMode langC [(symX.addr, remapSymX)] [] []
     [stmtLambdaAssignX] [0, 0, 0, 0, 0, 0] symX rfl rfl rfl⟩

/-- C19, counterexample: the reference to `x` inside the lambda
`[&]() { x = 1; }` of the body, `x` being a key of the shared remap (temp-variable
mode, C): after `remapVarSyms` the reference inside the lambda points to the new
symbol, which is another symbol than that of `x`. -/
theorem remapVarSyms_rewrites_reference_in_lambda :
    (SgNode.basicBlock [stmtLambdaAssignX]).nodeAt [0, 0, 0, 0, 0, 0] = some (.varRefExp symX) ∧
    (SgNode.basicBlock [stmtLambdaAssignX]).insideNestedFunction [0, 0, 0, 0, 0, 0] = true ∧
    remapVarSyms tempMode langC [(symX.addr, remapSymX)] [] [] [stmtLambdaAssignX]
      = [.exprStatement (.lambdaExp (.basicBlock
          [.exprStatement (.assignOp (.varRefExp remapSymX) (.intVal 1))]))] ∧
    remapSymX.addr ≠ symX.addr := by
  refine ⟨rfl, rfl, by rfl, by decide⟩

/-- The rounds of `handlePrivateVariables`: one declaration per symbol goes to
the start of the body, the last visited first. -/
theorem handlePrivateVariables_decls :
    ∀ (xs : List SgVariableSymbol) (m m1 : VarSymRemap_t) (ast ast1 : AstState),
      foldAbort handlePrivateVariables_iter xs (m, ast) = some (m1, ast1) →
      ∃ ds : List SgNode, List.Forall₂ IsPrivateDecl xs ds ∧
        ast1.body = ds.reverse ++ ast.body
  | [], m, m1, ast, ast1, h => by
      simp only [foldAbort, Option.some.injEq, Prod.mk.injEq] at h
      obtain ⟨_, h2⟩ := h
      subst h2
      exact ⟨[], List.Forall₂.nil, by simp⟩
  | x :: xs, m, m1, ast, ast1, h => by
      simp only [foldAbort] at h
      split at h
      · simp at h
      · rename_i st2 h2
        obtain ⟨m2, ast2⟩ := st2
        obtain ⟨d, _, _, hn, ht, hi, hb, _⟩ :=
          handlePrivateVariables_iter_some x m m2 ast ast2 h2
        obtain ⟨ds, hds, hbody⟩ := handlePrivateVariables_decls xs m2 m1 ast2 ast1 h
        refine ⟨d.toNode :: ds, List.Forall₂.cons ⟨d, rfl, hn, ht, hi⟩ hds, ?_⟩
        rw [hbody, hb]
        simp

/-- What `generateFunction` returns is made of the result of `variableHandling`
on the new function whose body is the target block that
`moveStatementsBetweenBlocks` left; the block `s` is the source block that it
left. -/
theorem generateFunction_some (o : Outliner) (l : SageInterface) (q : Collaborators)
    (s : List SgNode) (s_symbols : SgSymbolTable) (func_name_str : String)
    (syms pdSyms psyms fpSyms reductionSyms : VarSymSet_t)
    (scope : List String) (next_addr : Nat) (g : Generated)
    (h : generateFunction o l q s s_symbols func_name_str syms pdSyms psyms fpSyms reductionSyms
          scope next_addr = some g) :
    ∃ st : LoopState,
      variableHandling o l q syms pdSyms psyms fpSyms reductionSyms
        (generateFunction_analysis o q s).2 (generateFunction_analysis o q s).1
        { args := [], definition_symbols := [],
          body := (q.moveStatementsBetweenBlocks (s, s_symbols) ([], [])).2.1,
          body_symbols := (q.moveStatementsBetweenBlocks (s, s_symbols) ([], [])).2.2,
          next_addr := next_addr } = some st ∧
      g.func.ast = st.ast ∧
      g.s = (q.moveStatementsBetweenBlocks (s, s_symbols) ([], [])).1.1 ∧
      g.sym_remap = st.sym_remap ∧ g.private_remap = st.private_remap := by
  unfold generateFunction at h
  simp only at h
  split at h
  · simp at h
  · split at h
    · simp at h
    · rename_i st hst
      split at h
      · simp only [Option.some.injEq] at h
        subst h
        exact ⟨st, hst, rfl, rfl, rfl, rfl⟩
      · simp at h

/-- C20: with classic mode off, when `generateFunction` returns, and
`moveStatementsBetweenBlocks` (which is not under src/) does what
`MovesStatements` states, the block `s` holds no statement, and the body of the
new function is, statement by statement (each with its references remapped by
`remapVarSyms`): for each variable of
`syms`, in the order of `syms`, its unpack group (the unpack declaration,
directly followed by the private copy `_p_<name>` and the initialising
assignment when the variable is in `fpSyms`); then one declaration per variable
of `psyms`, in the order of `psyms`; then the statements of `s`, in their
order; then the repack statements (none or one per variable, made from that
variable's unpack declaration), in the reverse of the order of `syms`. -/
theorem generateFunction_body_layout (o : Outliner) (l : SageInterface) (q : Collaborators)
    (s : List SgNode) (s_symbols : SgSymbolTable) (func_name_str : String)
    (syms pdSyms psyms fpSyms reductionSyms : VarSymSet_t)
    (scope : List String) (next_addr : Nat) (g : Generated)
    (hclassic : o.enable_classic = false)
    (hmove : MovesStatements q s s_symbols)
    (h : generateFunction o l q s s_symbols func_name_str syms pdSyms psyms fpSyms reductionSyms
          scope next_addr = some g) :
    g.s = [] ∧
    ∃ (rounds : List (List SgNode × List SgNode)) (P : List SgNode),
      List.Forall₂ (IsRound o l fpSyms) syms rounds ∧
      List.Forall₂ IsPrivateDecl psyms P ∧
      g.func.ast.body = remapVarSyms o l g.sym_remap pdSyms g.private_remap
        ((rounds.map Prod.fst).flatten ++ P ++ s ++ (rounds.reverse.map Prod.snd).flatten) := by
  obtain ⟨st, hst, hast, hs, hsr, hpr⟩ := generateFunction_some o l q s s_symbols func_name_str
    syms pdSyms psyms fpSyms reductionSyms scope next_addr g h
  obtain ⟨st0, st1, h0, h1, hs1, hp1, hb⟩ := variableHandling_tables o l q syms pdSyms psyms
    fpSyms reductionSyms _ _ _ st hst
  obtain ⟨hpriv, _⟩ := variableHandling_init_private psyms _ st0 h0
  unfold handlePrivateVariables at hpriv
  obtain ⟨ds, hds, hbody⟩ := handlePrivateVariables_decls psyms.reverse [] st0.private_remap
    _ st0.ast hpriv
  obtain ⟨rs, hrs, hloop⟩ := variableHandling_loop_rounds o l q pdSyms fpSyms _ _ hclassic
    syms.reverse true st0 st1 h1
  obtain ⟨hm1, hm2⟩ := hmove
  refine ⟨hs.trans hm1, rs.reverse, ds.reverse, ?_, ?_, ?_⟩
  · rw [← List.reverse_reverse syms, List.forall₂_reverse_iff]
    exact hrs
  · rw [← List.reverse_reverse psyms, List.forall₂_reverse_iff]
    exact hds
  · rw [hast, hb, hsr, hpr, hs1, hp1, hloop, hbody]
    simp [List.append_assoc, hm2]
/-- Witness for C20: the block `x = 1; y = 2; z = 5; t = 3;` with `syms` = x, y,
z, of which `y` is firstprivate and uses pointer dereferencing, and the private
t, u, in temp-variable mode for C.  The body of the new function is the unpack
declaration of `x`, that of `y` with its private copy `_p_y` and the assignment
to it, that of `z`, the declarations of `t` and `u`, the four statements of the
block, and the repack statements of `z` and of `x`, in this order. -/
theorem generateFunction_body_layout_witness :
    generateFunction tempMode langC sampleCollaborators
      [stmtAssignX, stmtAssignY, stmtAssignZ, stmtAssignT] [] "OUT__1__" [symX, symY, symZ]
      [symY] [symT, symU] [symY] [] [] 100 = some generatedXYZ ∧
    generatedXYZ.func.ast.body.map (fun s => (declaredName s, assignedName s, storedName s))
      = [(some "x", none, none), (some "y", none, none), (some "_p_y", none, none),
         (none, some "_p_y", none), (some "z", none, none),
         (some "t", none, none), (some "u", none, none),
         (none, some "x", none), (none, some "_p_y", none), (none, some "z", none),
         (none, some "t", none),
         (none, none, some "z"), (none, none, some "x")] ∧
    generatedXYZ.s = [] ∧
    ∃ (rounds : List (List SgNode × List SgNode)) (P : List SgNode),
      List.Forall₂ (IsRound tempMode langC [symY]) [symX, symY, symZ] rounds ∧
      List.Forall₂ IsPrivateDecl [symT, symU] P ∧
      generatedXYZ.func.ast.body = remapVarSyms tempMode langC generatedXYZ.sym_remap [symY]
        generatedXYZ.private_remap
        ((rounds.map Prod.fst).flatten ++ P
          ++ [stmtAssignX, stmtAssignY, stmtAssignZ, stmtAssignT]
          ++ (rounds.reverse.map Prod.snd).flatten) :=
  ⟨option_eq_some_getD _ _ (by decide!), by decide!,
   generateFunction_body_layout tempMode langC sampleCollaborators
     [stmtAssignX, stmtAssignY, stmtAssignZ, stmtAssignT] [] "OUT__1__" [symX, symY, symZ]
     [symY] [symT, symU] [symY] [] [] 100 generatedXYZ rfl ⟨rfl, rfl⟩
     (option_eq_some_getD _ _ (by decide!))⟩

/-- The parts of `generateFunction`, when it returns: the function builder gave
a scope in which the name resolves, and `variableHandling` returned. -/
theorem generateFunction_parts (o : Outliner) (l : SageInterface) (q : Collaborators)
    (s : List SgNode) (s_symbols : SgSymbolTable) (func_name_str : String)
    (syms pdSyms psyms fpSyms reductionSyms : VarSymSet_t)
    (scope : List String) (next_addr : Nat) (g : Generated)
    (h : generateFunction o l q s s_symbols func_name_str syms pdSyms psyms fpSyms reductionSyms
          scope next_addr = some g) :
    ∃ (scope1 : List String) (st : LoopState),
      (if l.is_Fortran_language then q.buildProcedureHeaderStatement func_name_str scope
       else q.buildDefiningFunctionDeclaration func_name_str scope) = some scope1 ∧
      scope1.contains func_name_str = true ∧
      g = { func := { name := func_name_str, storageModifier_isExtern := l.includesCxx,
                      linkage := if l.includesCxx then "C" else "", ast := st.ast },
            s := (q.moveStatementsBetweenBlocks (s, s_symbols) ([], [])).1.1,
            scope := scope1,
            sym_remap := st.sym_remap, private_remap := st.private_remap } := by
  unfold generateFunction at h
  simp only at h
  split at h
  · simp at h
  · rename_i scope1 hsk
    unfold createFuncSkeleton at hsk
    simp only at hsk
    split at hsk
    · simp at hsk
    · rename_i scope2 hb
      split at hsk
      · rename_i hc
        simp only [Option.some.injEq] at hsk
        subst hsk
        split at h
        · simp at h
        · rename_i st hst
          simp only [hc, if_true, Option.some.injEq] at h
          exact ⟨scope2, st, hb, hc, h.symm⟩
      · simp at hsk

/-- C21 (amended): `generateFunction` returns a function only when the function
builder returned one and, after it, `func_name_str` names a function symbol of
the target scope (the assertions of lines 58, 61 and 1081); the scope of the
result is the one the builder left.  The scope as it was before the call is
handed to the builder and used for nothing else: two calls for which the
builder gives the same answer have the same outcome, whether or not the name
was in the scope before. -/
theorem generateFunction_name_resolves_after (o : Outliner) (l : SageInterface)
    (q : Collaborators) (s : List SgNode) (s_symbols : SgSymbolTable) (func_name_str : String)
    (syms pdSyms psyms fpSyms reductionSyms : VarSymSet_t)
    (scope : List String) (next_addr : Nat) (g : Generated)
    (h : generateFunction o l q s s_symbols func_name_str syms pdSyms psyms fpSyms reductionSyms
          scope next_addr = some g) :
    (∃ scope1 : List String,
      (if l.is_Fortran_language then q.buildProcedureHeaderStatement func_name_str scope
       else q.buildDefiningFunctionDeclaration func_name_str scope) = some scope1 ∧
      scope1.contains func_name_str = true ∧ g.scope = scope1 ∧ g.func.name = func_name_str) ∧
    ∀ scope2 : List String,
      (if l.is_Fortran_language then q.buildProcedureHeaderStatement func_name_str scope2
       else q.buildDefiningFunctionDeclaration func_name_str scope2)
      = (if l.is_Fortran_language then q.buildProcedureHeaderStatement func_name_str scope
         else q.buildDefiningFunctionDeclaration func_name_str scope) →
      generateFunction o l q s s_symbols func_name_str syms pdSyms psyms fpSyms reductionSyms
        scope2 next_addr = some g := by
  obtain ⟨scope1, st, hb, hc, hg⟩ := generateFunction_parts o l q s s_symbols func_name_str
    syms pdSyms psyms fpSyms reductionSyms scope next_addr g h
  refine ⟨⟨scope1, hb, hc, by rw [hg], by rw [hg]⟩, ?_⟩
  intro scope2 h2
  rw [← h]
  unfold generateFunction createFuncSkeleton
  simp only [h2]

set_option maxHeartbeats 4000000 in
/-- Witness for C21 (amended): the function `OUT__1__` made of the block `x = 1;`
in an empty scope. -/
theorem generateFunction_name_resolves_after_witness :
    generateFunction tempMode langC sampleCollaborators [stmtAssignX] [] "OUT__1__" [symX] [] []
      [] [] [] 100 = some generatedX ∧
    ∃ scope1 : List String,
      (if langC.is_Fortran_language then
         sampleCollaborators.buildProcedureHeaderStatement "OUT__1__" []
       else sampleCollaborators.buildDefiningFunctionDeclaration "OUT__1__" []) = some scope1 ∧
      scope1.contains "OUT__1__" = true ∧ generatedX.scope = scope1 ∧
      generatedX.func.name = "OUT__1__" :=
  ⟨by simp only [generateFunction, sampleCollaborators_move]; rfl,
   (generateFunction_name_resolves_after tempMode langC sampleCollaborators [stmtAssignX] []
     "OUT__1__" [symX] [] [] [] [] [] 100 generatedX
     (by simp only [generateFunction, sampleCollaborators_move]; rfl)).1⟩

set_option maxHeartbeats 4000000 in
/-- C21, counterexample: with a function builder that uses the symbol that is
already in the scope, `generateFunction` called with the name `OUT__1__` for a
scope that already holds a symbol `OUT__1__` returns a function of that name. -/
theorem generateFunction_returns_for_name_in_use :
    ["OUT__1__"].contains "OUT__1__" = true ∧
    (generateFunction tempMode langC reusingCollaborators [stmtAssignX] [] "OUT__1__" [symX] []
        [] [] [] ["OUT__1__"] 100).map (fun g => (g.func.name, g.scope))
      = some ("OUT__1__", ["OUT__1__"]) := by
  refine ⟨by decide, by simp only [generateFunction, reusingCollaborators_move]; rfl⟩

set_option maxHeartbeats 4000000 in
/-- C22, at the failing input: with classic mode and temp-variable mode on, for
C and the written `int x` in `syms`, `generateFunction` returns the function
with the parameter `int *xp__` when the debug output is off, and does not
return when it is on: the debug output of step 3 calls `unparseToString()` on
the null `local_var_init`. -/
theorem generateFunction_debug_changes_outcome :
    (generateFunction classicTempMode langC sampleCollaborators [stmtAssignX] [] "OUT__1__"
        [symX] [] [] [] [] [] 100).map (fun g => g.func.ast.args.map (fun p => (p.name, p.type)))
      = some [("xp__", .pointerType .typeInt)] ∧
    generateFunction classicTempDebugMode langC sampleCollaborators [stmtAssignX] [] "OUT__1__"
        [symX] [] [] [] [] [] 100 = none ∧
    classicTempDebugMode = { classicTempMode with enable_debug := true } := by
  refine ⟨by simp only [generateFunction, sampleCollaborators_move]; rfl,
    by simp only [generateFunction, sampleCollaborators_move]; rfl, rfl⟩

/-- C25: when `generateFunction` returns, the new function is marked extern with
linkage "C" if and only if the input is C++ or a mixed-language input that
includes C++ (C and C++, Fortran and C++, Fortran and C and C++); otherwise,
as for pure C and pure Fortran input, the storage modifier is not set to extern
and the linkage is the empty one of a new function. -/
theorem generateFunction_extern_C_iff_includes_Cxx (o : Outliner) (l : SageInterface)
    (q : Collaborators) (s : List SgNode) (s_symbols : SgSymbolTable) (func_name_str : String)
    (syms pdSyms psyms fpSyms reductionSyms : VarSymSet_t)
    (scope : List String) (next_addr : Nat) (g : Generated)
    (h : generateFunction o l q s s_symbols func_name_str syms pdSyms psyms fpSyms reductionSyms
          scope next_addr = some g) :
    ((g.func.storageModifier_isExtern = true ∧ g.func.linkage = "C") ↔
      (l.is_Cxx_language = true ∨ l.is_mixed_C_and_Cxx_language = true ∨
       l.is_mixed_Fortran_and_Cxx_language = true ∨
       l.is_mixed_Fortran_and_C_and_Cxx_language = true)) ∧
    ((l.is_Cxx_language = false ∧ l.is_mixed_C_and_Cxx_language = false ∧
       l.is_mixed_Fortran_and_Cxx_language = false ∧
       l.is_mixed_Fortran_and_C_and_Cxx_language = false) →
      g.func.storageModifier_isExtern = false ∧ g.func.linkage = "") := by
  obtain ⟨scope1, st, _, _, hg⟩ := generateFunction_parts o l q s s_symbols func_name_str
    syms pdSyms psyms fpSyms reductionSyms scope next_addr g h
  subst hg
  clear h
  obtain ⟨f, c, x, m1, m2, m3⟩ := l
  simp only [SageInterface.includesCxx]
  cases x <;> cases m1 <;> cases m2 <;> cases m3 <;> simp

set_option maxHeartbeats 4000000 in
/-- Witness for C25: for pure C input the function `OUT__1__` is not marked. -/
theorem generateFunction_extern_C_iff_includes_Cxx_witness :
    generateFunction tempMode langC sampleCollaborators [stmtAssignX] [] "OUT__1__" [symX] [] []
      [] [] [] 100 = some generatedX ∧
    generatedX.func.storageModifier_isExtern = false ∧ generatedX.func.linkage = "" :=
  ⟨by simp only [generateFunction, sampleCollaborators_move]; rfl,
   (generateFunction_extern_C_iff_includes_Cxx tempMode langC sampleCollaborators [stmtAssignX]
     [] "OUT__1__" [symX] [] [] [] [] [] 100 generatedX
     (by simp only [generateFunction, sampleCollaborators_move]; rfl)).2 ⟨rfl, rfl, rfl, rfl⟩⟩

/-- In classic mode the base type of `createParam` is the variable's type with a
function-parameter array decayed and a reference replaced by its referent. -/
theorem createParam_base_type_classic (o : Outliner) (q : Collaborators)
    (v : SgInitializedName) (hc : o.enable_classic = true) :
    createParam_base_type o q v = specReferent (specDecayedType v) := by
  unfold createParam_base_type specReferent specDecayedType
  simp only [hc, Bool.or_true, if_true]
  cases hs : v.scopeIsFunctionDefinition <;> cases ht : v.type <;>
    simp [isSgArrayType, isSgReferenceType]

/-- C26 (amended): for every variable, language and mode, `createParam` returns
either the variable's unchanged name or the name with the suffix "p__".  With
the unchanged name (classic mode, read-only variable) the returned type is the
base type: the variable's own type with a function-parameter array decayed to
pointer-to-element and a reference replaced by its referent, hence the
variable's own type when it is neither of the two.  With the suffix "p__" the
returned type is pointer-to-base-type for input that is not Fortran, and the
base type itself for Fortran. -/
theorem createParam_name_reflects_type (o : Outliner) (l : SageInterface)
    (q : Collaborators) (v : SgInitializedName) (readOnly : Bool) :
    ((createParam o l q v readOnly).1 = v.name ∨
      (createParam o l q v readOnly).1 = v.name ++ "p__") ∧
    ((createParam o l q v readOnly).1 = v.name →
      (createParam o l q v readOnly).2 = specReferent (specDecayedType v) ∧
      ((∀ elem n, v.type = .arrayType elem n → v.scopeIsFunctionDefinition = false) →
        (∀ b, v.type ≠ .referenceType b) → (createParam o l q v readOnly).2 = v.type)) ∧
    ((createParam o l q v readOnly).1 = v.name ++ "p__" →
      (l.is_Fortran_language = false →
        (createParam o l q v readOnly).2 = .pointerType (createParam_base_type o q v)) ∧
      (l.is_Fortran_language = true →
        (createParam o l q v readOnly).2 = createParam_base_type o q v)) := by
  have hne := append_suffix_ne_self v.name
  refine ⟨?_, ?_, ?_⟩
  · cases hc : o.enable_classic <;> cases hr : readOnly <;> cases hf : l.is_Fortran_language <;>
      simp [createParam, hc, hr, hf]
  · intro h
    have hcr : o.enable_classic = true ∧ readOnly = true := by
      cases hc : o.enable_classic <;> cases hr : readOnly <;>
        cases hf : l.is_Fortran_language <;> simp [createParam, hc, hr, hf, hne] at h ⊢
    have hty : (createParam o l q v readOnly).2 = specReferent (specDecayedType v) := by
      rw [← createParam_base_type_classic o q v hcr.1]
      cases hf : l.is_Fortran_language <;> simp [createParam, hcr.1, hcr.2, hf]
    refine ⟨hty, ?_⟩
    intro harr href
    rw [hty]
    unfold specReferent specDecayedType
    cases hs : v.scopeIsFunctionDefinition <;> cases ht : v.type <;> simp
    all_goals first
      | exact absurd ht (href _)
      | exact absurd (harr _ _ ht) (by simp [hs])
  · intro h
    have hcr : ¬(o.enable_classic = true ∧ readOnly = true) := by
      rintro ⟨hc, hr⟩
      cases hf : l.is_Fortran_language <;> simp [createParam, hc, hr, hf, hne.symm] at h
    cases hc : o.enable_classic <;> cases hr : readOnly <;> cases hf : l.is_Fortran_language <;>
      simp [createParam, hc, hr, hf] at hcr ⊢

/-- C26, counterexample: in classic mode for C++ the read-only `int &r` gets the
unchanged name `r` with the type `int`, which is not its own type `int &`; and
for Fortran the variable `int x` gets the name `xp__` with the type `int`, which
is not a pointer type. -/
theorem createParam_name_does_not_reflect_type :
    createParam classicMode langCxx sampleCollaborators declR true = ("r", .typeInt) ∧
    declR.name = "r" ∧ declR.type ≠ .typeInt ∧
    createParam tempMode langFortran sampleCollaborators declX false = ("xp__", .typeInt) ∧
    declX.name ++ "p__" = "xp__" ∧ ∀ t, SgType.typeInt ≠ .pointerType t := by
  refine ⟨by rfl, rfl, by decide, by rfl, by decide, ?_⟩
  intro t h
  cases h
/-- In every mode, steps 2 and 3 of a round leave the parameter list as step 1
made it. -/
theorem variableHandling_iter_args (o : Outliner) (l : SageInterface) (q : Collaborators)
    (pdSyms fpSyms : VarSymSet_t) (readOnlyVars liveOutVars : InitNameSet) (isFirst : Bool)
    (i : SgVariableSymbol) (st st1 : LoopState)
    (h : variableHandling_iter o l q pdSyms fpSyms readOnlyVars liveOutVars isFirst i st
          = some st1) :
    ∃ (p : Option SgInitializedName) (sta : LoopState),
      variableHandling_step1 o l q readOnlyVars isFirst i st = some (p, sta) ∧
      st1.ast.args = sta.ast.args := by
  cases hclassic : o.enable_classic
  · obtain ⟨sta, param, _, _, _, _, _, h1, _, _, _, _, ha, _⟩ :=
      variableHandling_iter_round o l q pdSyms fpSyms readOnlyVars liveOutVars isFirst i st st1
        hclassic h
    exact ⟨some param, sta, h1, ha⟩
  · unfold variableHandling_iter at h
    split at h
    · simp at h
    · rename_i st2 h2
      have ha2 : ∃ (p : Option SgInitializedName) (sta : LoopState),
          variableHandling_step1 o l q readOnlyVars isFirst i st = some (p, sta) ∧
          st2.ast.args = sta.ast.args := by
        unfold variableHandling_unpack at h2
        split at h2
        · simp at h2
        · rename_i p sta ha
          refine ⟨p, sta, ha, ?_⟩
          unfold variableHandling_step2 at h2
          simp only [hclassic, if_true] at h2
          split at h2
          · simp at h2
          · split at h2
            · split at h2
              · simp at h2
              · rename_i m1 ast2 hrec
                simp only [Option.some.injEq] at h2
                subst h2
                unfold recordSymRemap at hrec
                split at hrec
                · simp only [Option.some.injEq, Prod.mk.injEq] at hrec
                  rw [← hrec.2]
                · simp only at hrec
                  split at hrec
                  · simp at hrec
                  · simp only [Option.some.injEq, Prod.mk.injEq] at hrec
                    rw [← hrec.2]
            · simp only [Option.some.injEq] at h2
              subst h2
              rfl
      obtain ⟨p, sta, ha, harg⟩ := ha2
      split at h
      · simp at h
      · rename_i pack_stmt hp
        simp only [Option.some.injEq] at h
        subst h
        refine ⟨p, sta, ha, ?_⟩
        cases pack_stmt <;> simp [appendStatement, harg]

/-- A round without the wrapper: one parameter, named and typed by
`createParam`, is put first in the parameter list; with classic mode off the
unpack declaration of the round is built from it. -/
theorem variableHandling_iter_parameter (o : Outliner) (l : SageInterface) (q : Collaborators)
    (pdSyms fpSyms : VarSymSet_t) (readOnlyVars liveOutVars : InitNameSet) (isFirst : Bool)
    (i : SgVariableSymbol) (st st1 : LoopState) (hw : o.useParameterWrapper = false)
    (h : variableHandling_iter o l q pdSyms fpSyms readOnlyVars liveOutVars isFirst i st
          = some st1) :
    ∃ r : SgInitializedName × List SgNode × List SgNode,
      IsParameterRound o l q readOnlyVars fpSyms i r ∧
      st1.ast.args = r.1 :: st.ast.args ∧
      (o.enable_classic = false → st1.ast.body = r.2.1 ++ st.ast.body ++ r.2.2) := by
  cases hclassic : o.enable_classic
  · obtain ⟨sta, param, isPD, d, ast1, group, packs, h1, hd, hg, hp, hb, ha, _⟩ :=
      variableHandling_iter_round o l q pdSyms fpSyms readOnlyVars liveOutVars isFirst i st st1
        hclassic h
    obtain ⟨pn, hpn, hval, _, hargs, _⟩ :=
      variableHandling_step1_parameter o l q readOnlyVars isFirst i st sta (some param) hw h1
    have hpp : param = pn := Option.some.inj hpn
    subst hpp
    refine ⟨(param, group, packs), ⟨by rw [hval], by rw [hval], fun _ =>
      ⟨_, isPD, _, ast1, d, hd, hg, hp⟩⟩, by rw [ha, hargs], fun _ => hb⟩
  · obtain ⟨p, sta, h1, ha⟩ := variableHandling_iter_args o l q pdSyms fpSyms readOnlyVars
      liveOutVars isFirst i st st1 h
    obtain ⟨pn, _, hval, _, hargs, _⟩ :=
      variableHandling_step1_parameter o l q readOnlyVars isFirst i st sta p hw h1
    refine ⟨(pn, [], []), ⟨by rw [hval], by rw [hval], fun hc => ?_⟩, by rw [ha, hargs],
      fun hc => ?_⟩
    · simp [hclassic] at hc
    · simp at hc

/-- The loop without the wrapper: each round puts its parameter first in the
parameter list; with classic mode off its unpack group goes to the start of the
body and its repack statements to the end. -/
theorem variableHandling_loop_parameters (o : Outliner) (l : SageInterface)
    (q : Collaborators) (pdSyms fpSyms : VarSymSet_t) (readOnlyVars liveOutVars : InitNameSet)
    (hw : o.useParameterWrapper = false) :
    ∀ (xs : List SgVariableSymbol) (isFirst : Bool) (st st1 : LoopState),
      variableHandling_loop o l q pdSyms fpSyms readOnlyVars liveOutVars isFirst xs st
        = some st1 →
      ∃ rs : List (SgInitializedName × List SgNode × List SgNode),
        List.Forall₂ (IsParameterRound o l q readOnlyVars fpSyms) xs rs ∧
        st1.ast.args = (rs.map (fun r => r.1)).reverse ++ st.ast.args ∧
        (o.enable_classic = false →
          st1.ast.body = (rs.reverse.map (fun r => r.2.1)).flatten ++ st.ast.body
            ++ (rs.map (fun r => r.2.2)).flatten)
  | [], _, st, st1, h => by
      simp only [variableHandling_loop, Option.some.injEq] at h
      subst h
      exact ⟨[], List.Forall₂.nil, by simp, fun _ => by simp⟩
  | x :: xs, isFirst, st, st1, h => by
      simp only [variableHandling_loop] at h
      split at h
      · simp at h
      · rename_i st2 h2
        obtain ⟨r, hr, hargs, hbody⟩ := variableHandling_iter_parameter o l q pdSyms fpSyms
          readOnlyVars liveOutVars isFirst x st st2 hw h2
        obtain ⟨rs, hrs, hargs1, hbody1⟩ := variableHandling_loop_parameters o l q pdSyms
          fpSyms readOnlyVars liveOutVars hw xs false st2 st1 h
        refine ⟨r :: rs, List.Forall₂.cons hr hrs, ?_, fun hc => ?_⟩
        · rw [hargs1, hargs]
          simp
        · rw [hbody1 hc, hbody hc]
          simp [List.append_assoc]

/-- C24: without the parameter wrapper, when `variableHandling` returns, the
parameter list is the old one preceded by exactly one new parameter per
variable of `syms`, in the order of `syms`, each named and typed by
`createParam` for its variable; with classic mode off the unpack declarations
at the start of the body come in the same order, each built from the parameter
of its variable. -/
theorem variableHandling_parameters_in_order (o : Outliner) (l : SageInterface)
    (q : Collaborators) (syms pdSyms pSyms fpSyms reductionSyms : VarSymSet_t)
    (readOnlyVars liveOutVars : InitNameSet) (func : AstState) (st : LoopState)
    (hw : o.useParameterWrapper = false)
    (h : variableHandling o l q syms pdSyms pSyms fpSyms reductionSyms readOnlyVars liveOutVars
          func = some st) :
    ∃ rs : List (SgInitializedName × List SgNode × List SgNode),
      List.Forall₂ (IsParameterRound o l q readOnlyVars fpSyms) syms rs ∧
      st.ast.args = rs.map (fun r => r.1) ++ func.args ∧
      (o.enable_classic = false → ∃ rest : List SgNode,
        st.ast.body = remapVarSyms o l st.sym_remap pdSyms st.private_remap
          ((rs.map (fun r => r.2.1)).flatten ++ rest)) := by
  obtain ⟨st0, st1, _, h1, ha0, _, ha, hb⟩ := variableHandling_args o l q syms pdSyms pSyms
    fpSyms reductionSyms readOnlyVars liveOutVars func st h
  obtain ⟨rs, hrs, hargs, hbody⟩ := variableHandling_loop_parameters o l q pdSyms fpSyms
    readOnlyVars liveOutVars hw syms.reverse true st0 st1 h1
  refine ⟨rs.reverse, ?_, ?_, fun hc => ?_⟩
  · rw [← List.reverse_reverse syms, List.forall₂_reverse_iff]
    exact hrs
  · rw [ha, hargs, ha0]
    simp
  · refine ⟨st0.ast.body ++ (rs.map (fun r => r.2.2)).flatten, ?_⟩
    rw [hb, hbody hc]
    simp [List.append_assoc]

/-- Witness for C24: x, y, z in temp-variable mode for C (with `y` firstprivate
and the private t, u): the parameters are `xp__`, `yp__`, `zp__`, in the order
of `syms`, and the body starts with the unpack declarations of x, y, z in that
order. -/
theorem variableHandling_parameters_in_order_witness :
    variableHandling tempMode langC sampleCollaborators [symX, symY, symZ] [symY] [symT, symU]
      [symY] [] [] [] funcXYZT = some handledXYZ ∧
    handledXYZ.ast.args.map (fun p => (p.name, p.type))
      = [("xp__", .pointerType .typeInt), ("yp__", .pointerType .typeInt),
         ("zp__", .pointerType .typeInt)] ∧
    handledXYZ.ast.body.map declaredName
      = [some "x", some "y", some "_p_y", none, some "z", some "t", some "u",
         none, none, none, none, none, none] ∧
    ∃ rs : List (SgInitializedName × List SgNode × List SgNode),
      List.Forall₂ (IsParameterRound tempMode langC sampleCollaborators [] [symY])
        [symX, symY, symZ] rs ∧
      handledXYZ.ast.args = rs.map (fun r => r.1) ++ funcXYZT.args ∧
      (tempMode.enable_classic = false → ∃ rest : List SgNode,
        handledXYZ.ast.body = remapVarSyms tempMode langC handledXYZ.sym_remap [symY]
          handledXYZ.private_remap ((rs.map (fun r => r.2.1)).flatten ++ rest)) :=
  ⟨option_eq_some_getD _ _ (by decide!), by decide!, by decide!,
   variableHandling_parameters_in_order tempMode langC sampleCollaborators [symX, symY, symZ]
     [symY] [symT, symU] [symY] [] [] [] funcXYZT handledXYZ rfl
     (option_eq_some_getD _ _ (by decide!))⟩

/-- The argument list of the call that `buildVariableCreateCallExpr` builds, for
every object and variable: the name twice, what the append functions give, the
flag, and at the end the line number, the file name and the placeholder. -/
theorem buildVariableCreateCallExpr_args (tr : Rted.RtedTransformation)
    (initName : Rted.SgInitializedName) (stmt : Rted.SgStatement) (forceinit : Bool)
    (call : Rted.SgExpression)
    (h : tr.buildVariableCreateCallExpr_initName initName stmt forceinit = some call) :
    ∃ (f : Rted.SgFunctionSymbol) (mid1 mid2 : List Rted.SgExpression),
      call = .functionCallExp (.functionRefExp f)
        ([.stringVal initName.name, .stringVal initName.name] ++ mid1 ++
         [if initName.initializer.isSome || forceinit then Rted.SgExpression.intVal 1
          else Rted.SgExpression.intVal 0] ++ mid2 ++
         [.stringVal (tr.RoseBin_support_ToString
            (tr.get_file_info (tr.buildVarRef initName)).line),
          .stringVal (tr.get_file_info (tr.buildVarRef initName)).filename,
          .stringVal "x%%x"]) := by
  unfold Rted.RtedTransformation.buildVariableCreateCallExpr_initName
    Rted.RtedTransformation.buildVariableCreateCallExpr at h
  simp only at h
  split at h
  · simp at h
  · rename_i f hf
    simp only [Option.some.injEq] at h
    subst h
    refine ⟨f, tr.appendTypeInformation (tr.get_type (tr.buildVarRef initName)) ++
      (match tr.buildVarRef initName with
       | .varRefExp ref =>
         tr.appendAddressAndSize_initName ref.symbol.declaration (tr.buildVarRef initName) 0
       | _ => tr.appendAddressAndSize_exp (tr.buildVarRef initName)
                (tr.get_type (tr.buildVarRef initName)) 0),
      tr.appendClassName (tr.get_type (tr.buildVarRef initName)), ?_⟩
    cases hv : tr.buildVarRef initName <;> simp [List.append_assoc]

/-- C29, at the failing input: for the variable `x` (mangled name `L1R__x`,
no initializer, `forceinit` not set) at line 3 of file `a.c`, the call built by
`buildVariableCreateCallExpr` has the arguments: the name `x`, the name `x`
again (not the mangled name), the type information, address and size, the flag
0, the class name, then "3", "a.c" and the placeholder: the line number comes
before the file name. -/
theorem buildVariableCreateCallExpr_line_before_file :
    Rted.sampleRted.buildVariableCreateCallExpr_initName Rted.declX Rted.stmtAssignSY false
      = some (.functionCallExp (.functionRefExp { name := "RuntimeSystem_roseCreateVariable" })
          [.stringVal "x", .stringVal "x", .stringVal "type", .stringVal "basetype",
           .other 0 "SgAddressOfOp"
             [.varRefExp { addr := 0, symbol := { declaration := Rted.declX } }],
           .other 0 "SgSizeOfOp"
             [.varRefExp { addr := 0, symbol := { declaration := Rted.declX } }],
           .intVal 0, .stringVal "", .stringVal "3", .stringVal "a.c", .stringVal "x%%x"]) ∧
    Rted.declX.name = "x" ∧ Rted.declX.mangled_name = "L1R__x" ∧
    Rted.sampleRted.get_file_info (Rted.sampleRted.buildVarRef Rted.declX)
      = { filename := "a.c", line := 3 } := by
  refine ⟨by rfl, rfl, rfl, rfl⟩

/-- C28, at the failing input: in `x = s.y;` the reference to `s` is the left
operand of the dot expression and the reference to `y` the right one;
`insertAccessVariable` inserts nothing for the reference to `s`, and inserts
one call before the statement for the reference to `y`, whose first argument is
the address of `y`. -/
theorem insertAccessVariable_checks_member_not_object :
    Rted.dotSY = .dotExp 20 (.varRefExp Rted.refS) (.varRefExp Rted.refY) ∧
    Rted.sampleRted.get_parent (.varRefExp Rted.refS) = some Rted.dotSY ∧
    Rted.sampleRted.get_parent (.varRefExp Rted.refY) = some Rted.dotSY ∧
    Rted.sampleRted.insertAccessVariable Rted.refS none = some [] ∧
    (Rted.sampleRted.insertAccessVariable Rted.refY none).map
        (fun ins => ins.map (fun i =>
          match i with
          | .insertStatementBefore target newStmt =>
            (target.addr,
             match newStmt.expression with
             | .functionCallExp _ (arg :: _) => some arg
             | _ => none)
          | _ => (0, none)))
      = some [(Rted.stmtAssignSY.addr,
               some (.other 0 "SgAddressOfOp" [.varRefExp Rted.refY]))] := by
  refine ⟨rfl, by rfl, by rfl, by rfl, by rfl⟩

/-- C27: in `insertAccessVariable`, when the scope is a normal scope (and the
reference is not skipped as the left operand of a dot expression): with a null
`derefExp` the mask is `Read` and the accessed expression and the write
location are the variable reference; with an arrow expression the mask is
`Read`, the accessed expression is the dereference of the arrow's left operand
and the write location is the variable reference; with a pointer dereference
used as an lvalue the mask is `Read|Write`, the accessed expression is the
operand of the dereference and the write location is the dereference; with any
other pointer dereference the mask is `Read`, the accessed expression is the
dereference and the write location is the variable reference; with any other
non-null `derefExp` the method aborts.  The call that is inserted before the
statement gets the address and size of the accessed expression, those of the
write location, and the mask, in this order. -/
theorem insertAccessVariable_mask_and_expressions (tr : Rted.RtedTransformation)
    (varRefE : Rted.SgVarRefExp) (derefExp : Option Rted.SgExpression)
    (stmt0 stmt : Rted.SgStatement) (scope : Option Rted.SgStatement)
    (hdot : tr.insertAccessVariable_isLhsOfDot varRefE = false)
    (hstmt : tr.getSurroundingStatement (.expression (.varRefExp varRefE)) = some stmt0)
    (hscope : tr.surroundingScope stmt0 = some (stmt, scope))
    (hnormal : tr.isNormalScope scope = true) :
    (derefExp = none →
      tr.insertAccessVariable_access varRefE derefExp
        = some (tr.Read, .varRefExp varRefE, .varRefExp varRefE)) ∧
    (∀ a lhs rhs, derefExp = some (.arrowExp a lhs rhs) →
      tr.insertAccessVariable_access varRefE derefExp
        = some (tr.Read, Rted.buildPointerDerefExp lhs, .varRefExp varRefE)) ∧
    (∀ a operand, derefExp = some (.pointerDerefExp a operand) →
      tr.isUsedAsLvalue (.pointerDerefExp a operand) = true →
      tr.insertAccessVariable_access varRefE derefExp
        = some (tr.Read ||| tr.Write, operand, .pointerDerefExp a operand)) ∧
    (∀ a operand, derefExp = some (.pointerDerefExp a operand) →
      tr.isUsedAsLvalue (.pointerDerefExp a operand) = false →
      tr.insertAccessVariable_access varRefE derefExp
        = some (tr.Read, .pointerDerefExp a operand, .varRefExp varRefE)) ∧
    (∀ e, derefExp = some e → (∀ a operand, e ≠ .pointerDerefExp a operand) →
      (∀ a lhs rhs, e ≠ .arrowExp a lhs rhs) →
      tr.insertAccessVariable_access varRefE derefExp = none ∧
      tr.insertAccessVariable varRefE derefExp = none) ∧
    (∀ mask accessed_exp write_location_exp,
      tr.insertAccessVariable_access varRefE derefExp
        = some (mask, accessed_exp, write_location_exp) →
      (tr.roseAccessVariable = none → tr.insertAccessVariable varRefE derefExp = none) ∧
      ∀ f, tr.roseAccessVariable = some f →
        tr.insertAccessVariable varRefE derefExp
          = some [.insertStatementBefore stmt
              { expression := .functionCallExp (.functionRefExp f)
                  (tr.appendAddressAndSize_initName varRefE.symbol.declaration accessed_exp 2 ++
                   tr.appendAddressAndSize_initName varRefE.symbol.declaration
                     write_location_exp 2 ++
                   [.intVal mask, .stringVal stmt.get_file_info.filename,
                    .stringVal (tr.RoseBin_support_ToString stmt.get_file_info.line),
                    .stringVal "x%%x"]),
                comments := ["", "RS : Access Variable, paramaters : (name, mangl_name, address, sizeof(type), filename, line, line transformed, error Str)"] }]) ∧
    (tr.Read ||| tr.Write ≠ tr.Read →
      ∀ mask accessed_exp write_location_exp,
        tr.insertAccessVariable_access varRefE derefExp
          = some (mask, accessed_exp, write_location_exp) →
        (mask = tr.Read ||| tr.Write ↔
          ∃ a operand, derefExp = some (.pointerDerefExp a operand) ∧
            tr.isUsedAsLvalue (.pointerDerefExp a operand) = true) ∧
        (mask ≠ tr.Read ||| tr.Write → mask = tr.Read)) := by
  have hrun : ∀ r, tr.insertAccessVariable_access varRefE derefExp = r →
      tr.insertAccessVariable varRefE derefExp =
        match r with
        | none => none
        | some (mask, accessed_exp, write_location_exp) =>
          match tr.roseAccessVariable with
          | none => none
          | some f =>
            some [.insertStatementBefore stmt
              { expression := .functionCallExp (.functionRefExp f)
                  (tr.appendAddressAndSize_initName varRefE.symbol.declaration accessed_exp 2 ++
                   tr.appendAddressAndSize_initName varRefE.symbol.declaration
                     write_location_exp 2 ++
                   [.intVal mask, .stringVal stmt.get_file_info.filename,
                    .stringVal (tr.RoseBin_support_ToString stmt.get_file_info.line),
                    .stringVal "x%%x"]),
                comments := ["", "RS : Access Variable, paramaters : (name, mangl_name, address, sizeof(type), filename, line, line transformed, error Str)"] }] := by
    intro r hr
    unfold Rted.RtedTransformation.insertAccessVariable
    simp only [hdot, hstmt, hscope, hnormal, hr, Bool.false_eq_true, if_false, if_true]
    cases r with
    | none => rfl
    | some t =>
      obtain ⟨m, a, w⟩ := t
      cases hf : tr.roseAccessVariable <;> simp [List.append_assoc]
  refine ⟨?_, ?_, ?_, ?_, ?_, ?_, ?_⟩
  · intro h
    subst h
    rfl
  · intro a lhs rhs h
    subst h
    rfl
  · intro a operand h hl
    subst h
    simp [Rted.RtedTransformation.insertAccessVariable_access, hl]
  · intro a operand h hl
    subst h
    simp [Rted.RtedTransformation.insertAccessVariable_access, hl]
  · intro e h hnd hna
    subst h
    have hacc : tr.insertAccessVariable_access varRefE (some e) = none := by
      cases e <;> simp [Rted.RtedTransformation.insertAccessVariable_access] at hnd hna ⊢
    exact ⟨hacc, by rw [hrun none hacc]⟩
  · intro mask accessed_exp write_location_exp h
    have := hrun _ h
    refine ⟨fun hn => by rw [this]; simp [hn], fun f hf => by rw [this]; simp [hf]⟩
  · intro hne mask accessed_exp write_location_exp h
    unfold Rted.RtedTransformation.insertAccessVariable_access at h
    cases derefExp with
    | none =>
      simp only [Option.some.injEq, Prod.mk.injEq] at h
      obtain ⟨hm, _, _⟩ := h
      subst hm
      exact ⟨⟨fun hx => absurd hx.symm hne, fun ⟨_, _, hx, _⟩ => by cases hx⟩, fun _ => rfl⟩
    | some e =>
      cases e with
      | arrowExp a lhs rhs =>
        simp only [Option.some.injEq, Prod.mk.injEq] at h
        obtain ⟨hm, _, _⟩ := h
        subst hm
        exact ⟨⟨fun hx => absurd hx.symm hne, fun ⟨_, _, hx, _⟩ => by cases hx⟩, fun _ => rfl⟩
      | pointerDerefExp a operand =>
        cases hl : tr.isUsedAsLvalue (.pointerDerefExp a operand)
        · simp only [hl, Bool.false_eq_true, if_false, Option.some.injEq, Prod.mk.injEq] at h
          obtain ⟨hm, _, _⟩ := h
          subst hm
          refine ⟨⟨fun hx => absurd hx.symm hne, ?_⟩, fun _ => rfl⟩
          rintro ⟨a2, op2, hx, hl2⟩
          simp only [Option.some.injEq, Rted.SgExpression.pointerDerefExp.injEq] at hx
          obtain ⟨h1, h2⟩ := hx
          subst h1 h2
          rw [hl] at hl2
          cases hl2
        · simp only [hl, if_true, Option.some.injEq, Prod.mk.injEq] at h
          obtain ⟨hm, _, _⟩ := h
          subst hm
          exact ⟨⟨fun _ => ⟨a, operand, rfl, hl⟩, fun _ => rfl⟩, fun hx => absurd rfl hx⟩
      | _ => simp at h

/-- Witness for C27: the access to `p` for the lvalue `*p` in the sample
program: the mask is `Read|Write` = 3, the accessed expression is `p` and the
write location is `*p`. -/
theorem insertAccessVariable_mask_and_expressions_witness :
    Rted.sampleRted.insertAccessVariable_isLhsOfDot Rted.refP = false ∧
    Rted.sampleRted.isNormalScope (some Rted.sampleMainBody) = true ∧
    Rted.sampleRted.isUsedAsLvalue Rted.derefP = true ∧
    Rted.sampleRted.insertAccessVariable_access Rted.refP (some Rted.derefP)
      = some (3, .varRefExp Rted.refP, Rted.derefP) :=
  ⟨by rfl, by rfl, by rfl,
   (insertAccessVariable_mask_and_expressions Rted.sampleRted Rted.refP (some Rted.derefP)
     Rted.stmtAssignSY Rted.stmtAssignSY (some Rted.sampleMainBody) (by rfl) (by rfl) (by rfl)
     (by rfl)).2.2.1 50 (.varRefExp Rted.refP) rfl (by rfl)⟩

/-- C23: let the statement and scope that the insert methods work with, after
the redirections for a class definition and for the global scope, be `stmt` and
`scope`, with `stmt` not in the init statement of a for loop and `scope` not a
normal scope.  Each of `insertVariableCreateCall(SgInitializedName*)` (for a
variable that is not skipped as a global extern variable),
`insertInitializeVariable` and `insertAccessVariable` (for a reference that is
not skipped as the left operand of a dot expression) returns without inserting
anything when `scope` is a namespace definition, and aborts when it is not. -/
theorem insert_namespace_skips_and_other_scope_aborts (tr : Rted.RtedTransformation)
    (stmt0 stmt : Rted.SgStatement) (scope : Option Rted.SgStatement)
    (hscope : tr.surroundingScope stmt0 = some (stmt, scope))
    (hfor : Rted.isSgForInitStatement stmt.get_parent = false)
    (hnormal : tr.isNormalScope scope = false) :
    (∀ initName : Rted.SgInitializedName,
      tr.getSurroundingStatement (.initializedName initName) = some stmt0 →
      tr.isGlobalExternVariable (some stmt0) = false →
      (Rted.isSgNamespaceDefinitionStatement scope = true →
        tr.insertVariableCreateCall initName = some []) ∧
      (Rted.isSgNamespaceDefinitionStatement scope = false →
        tr.insertVariableCreateCall initName = none)) ∧
    (∀ (initName : Rted.SgInitializedName) (varRefE : Rted.SgVarRefExp) (ismalloc : Bool),
      (if (tr.get_parent (.varRefExp varRefE)).isSome then
         tr.getSurroundingStatement (.expression (.varRefExp varRefE))
       else tr.getSurroundingStatement (.initializedName initName)) = some stmt0 →
      (Rted.isSgNamespaceDefinitionStatement scope = true →
        tr.insertInitializeVariable initName varRefE ismalloc = some []) ∧
      (Rted.isSgNamespaceDefinitionStatement scope = false →
        tr.insertInitializeVariable initName varRefE ismalloc = none)) ∧
    (∀ (varRefE : Rted.SgVarRefExp) (derefExp : Option Rted.SgExpression),
      tr.getSurroundingStatement (.expression (.varRefExp varRefE)) = some stmt0 →
      tr.insertAccessVariable_isLhsOfDot varRefE = false →
      (Rted.isSgNamespaceDefinitionStatement scope = true →
        tr.insertAccessVariable varRefE derefExp = some []) ∧
      (Rted.isSgNamespaceDefinitionStatement scope = false →
        tr.insertAccessVariable varRefE derefExp = none)) := by
  refine ⟨?_, ?_, ?_⟩
  · intro initName hs he
    unfold Rted.RtedTransformation.insertVariableCreateCall
    simp only [hs, he, hscope, hfor, hnormal, Bool.false_eq_true, if_false]
    constructor <;> intro hn <;> simp [hn]
  · intro initName varRefE ismalloc hs
    unfold Rted.RtedTransformation.insertInitializeVariable
    simp only [hs, hscope, hfor, hnormal, Bool.false_eq_true, if_false]
    constructor <;> intro hn <;> simp [hn]
  · intro varRefE derefExp hs hd
    unfold Rted.RtedTransformation.insertAccessVariable
    simp only [hs, hd, hscope, hnormal, Bool.false_eq_true, if_false]
    constructor <;> intro hn <;> simp [hn]

/-- Witness for C23: the variable `g` declared in namespace `N`: no method
inserts anything. -/
theorem insert_namespace_skips_and_other_scope_aborts_witness :
    Rted.namespaceRted.surroundingScope Rted.stmtDeclG
      = some (Rted.stmtDeclG, some Rted.sampleNamespace) ∧
    Rted.isSgNamespaceDefinitionStatement (some Rted.sampleNamespace) = true ∧
    Rted.namespaceRted.insertVariableCreateCall Rted.declG = some [] :=
  ⟨by rfl, by rfl,
   ((insert_namespace_skips_and_other_scope_aborts Rted.namespaceRted Rted.stmtDeclG
      Rted.stmtDeclG (some Rted.sampleNamespace) (by rfl) (by rfl) (by rfl)).1 Rted.declG
      (by rfl) (by rfl)).1 (by rfl)⟩

/-- In classic mode a round whose `local_var_decl` is null leaves the body as it
is: no unpack declaration and no repack statement. -/
theorem variableHandling_iter_classic_body (o : Outliner) (l : SageInterface)
    (q : Collaborators) (pdSyms fpSyms : VarSymSet_t) (readOnlyVars liveOutVars : InitNameSet)
    (isFirst : Bool) (i : SgVariableSymbol) (st st1 : LoopState)
    (hclassic : o.enable_classic = true) (hnull : st.local_var_decl = none)
    (h : variableHandling_iter o l q pdSyms fpSyms readOnlyVars liveOutVars isFirst i st
          = some st1) :
    st1.ast.body = st.ast.body := by
  unfold variableHandling_iter at h
  split at h
  · simp at h
  · rename_i st2 h2
    have hnull2 : st2.local_var_decl = none := by
      rw [variableHandling_unpack_classic_local o l q pdSyms fpSyms readOnlyVars isFirst i
        st st2 hclassic h2]
      exact hnull
    have hb2 : st2.ast.body = st.ast.body := by
      unfold variableHandling_unpack at h2
      split at h2
      · simp at h2
      · rename_i p sta ha
        have hba := variableHandling_step1_body o l q readOnlyVars isFirst i st sta p ha
        rw [← hba]
        unfold variableHandling_step2 at h2
        simp only [hclassic, if_true] at h2
        split at h2
        · simp at h2
        · split at h2
          · split at h2
            · simp at h2
            · rename_i m1 ast2 hrec
              simp only [Option.some.injEq] at h2
              subst h2
              unfold recordSymRemap at hrec
              split at hrec
              · simp only [Option.some.injEq, Prod.mk.injEq] at hrec
                rw [← hrec.2]
              · simp only at hrec
                split at hrec
                · simp at hrec
                · simp only [Option.some.injEq, Prod.mk.injEq] at hrec
                  rw [← hrec.2]
          · simp only [Option.some.injEq] at h2
            subst h2
            rfl
    split at h
    · simp at h
    · rename_i pack_stmt hp
      have hpn := variableHandling_repack_null_local o l pdSyms readOnlyVars liveOutVars i st2
        pack_stmt hnull2 hp
      subst hpn
      simp only [Option.some.injEq] at h
      subst h
      exact hb2

/-- In classic mode the loop, started with `local_var_decl` null, leaves the
body as it is. -/
theorem variableHandling_loop_classic_body (o : Outliner) (l : SageInterface)
    (q : Collaborators) (pdSyms fpSyms : VarSymSet_t) (readOnlyVars liveOutVars : InitNameSet)
    (hclassic : o.enable_classic = true) :
    ∀ (xs : List SgVariableSymbol) (isFirst : Bool) (st st1 : LoopState),
      st.local_var_decl = none →
      variableHandling_loop o l q pdSyms fpSyms readOnlyVars liveOutVars isFirst xs st
        = some st1 →
      st1.ast.body = st.ast.body
  | [], _, st, st1, _, h => by
      simp only [variableHandling_loop, Option.some.injEq] at h
      subst h
      rfl
  | x :: xs, isFirst, st, st1, hnull, h => by
      simp only [variableHandling_loop] at h
      split at h
      · simp at h
      · rename_i st2 h2
        have hnull2 : st2.local_var_decl = none := by
          rw [variableHandling_iter_classic_local o l q pdSyms fpSyms readOnlyVars liveOutVars
            isFirst x st st2 hclassic h2]
          exact hnull
        rw [variableHandling_loop_classic_body o l q pdSyms fpSyms readOnlyVars liveOutVars
          hclassic xs false st2 st1 hnull2 h]
        exact variableHandling_iter_classic_body o l q pdSyms fpSyms readOnlyVars liveOutVars
          isFirst x st st2 hclassic hnull h2

/-- The loop with the wrapper, in every mode and language: a first round appends
the one parameter `void **__out_argv` to the parameter list, and no other round
changes the list. -/
theorem variableHandling_loop_wrapper_args (o : Outliner) (l : SageInterface)
    (q : Collaborators) (pdSyms fpSyms : VarSymSet_t) (readOnlyVars liveOutVars : InitNameSet)
    (hw : o.useParameterWrapper = true) :
    ∀ (xs : List SgVariableSymbol) (isFirst : Bool) (st st1 : LoopState),
      variableHandling_loop o l q pdSyms fpSyms readOnlyVars liveOutVars isFirst xs st
        = some st1 →
      (xs = [] ∨ isFirst = false → st1.ast.args = st.ast.args) ∧
      (xs ≠ [] → isFirst = true → ∃ w : SgInitializedName, w.name = "__out_argv" ∧
        w.type = .pointerType (.pointerType .typeVoid) ∧ st1.ast.args = st.ast.args ++ [w])
  | [], _, st, st1, h => by
      simp only [variableHandling_loop, Option.some.injEq] at h
      subst h
      exact ⟨fun _ => rfl, fun hne => absurd rfl hne⟩
  | x :: xs, isFirst, st, st1, h => by
      simp only [variableHandling_loop] at h
      split at h
      · simp at h
      · rename_i st2 h2
        obtain ⟨p, sta, h1, ha⟩ := variableHandling_iter_args o l q pdSyms fpSyms readOnlyVars
          liveOutVars isFirst x st st2 h2
        obtain ⟨_, _, _, hnf, hf⟩ :=
          variableHandling_step1_wrapper o l q readOnlyVars isFirst x st sta p hw h1
        obtain ⟨hrest, _⟩ := variableHandling_loop_wrapper_args o l q pdSyms fpSyms readOnlyVars
          liveOutVars hw xs false st2 st1 h
        have hargs : st1.ast.args = sta.ast.args := (hrest (Or.inr rfl)).trans ha
        refine ⟨fun hor => ?_, fun _ hfirst => ?_⟩
        · rcases hor with hnil | hfalse
          · exact absurd hnil (List.cons_ne_nil _ _)
          · rw [hargs, hnf hfalse]
        · obtain ⟨_, h3, _⟩ := hf hfirst
          exact ⟨_, rfl, rfl, by rw [hargs, h3]⟩

/-- C16: let the symbols of `pSyms` be distinct and `variableHandling` return, in
any mode and language.  There is exactly one declaration per symbol of `pSyms`,
in the order of `pSyms`, each with the variable's name and type and no
initializer, and the returned private remap maps the variable to a symbol of
that declaration.  Everything else that the function gets is made by the rounds
over `syms`, one round per variable of `syms`:
* without the wrapper the new parameters are one per variable of `syms`, each
  made by `createParam` for that variable; with the wrapper the only new
  parameter is `__out_argv`, and there is none when `syms` is empty;
* with classic mode off the body is the unpack groups of the variables of
  `syms`, then the declarations of the private variables, unchanged, then the
  statements that the body had, then the repack statements, each made from the
  unpack declaration of a variable of `syms`; with classic mode on the body is
  the declarations of the private variables followed by the statements that
  the body had.
So a private variable that is not in `syms` gets its one declaration, no
parameter and no repack statement; it also has no entry in the shared remap. -/
theorem variableHandling_private_variables (o : Outliner) (l : SageInterface)
    (q : Collaborators) (syms pdSyms pSyms fpSyms reductionSyms : VarSymSet_t)
    (readOnlyVars liveOutVars : InitNameSet) (func : AstState) (st : LoopState)
    (hdistinct : pSyms.Pairwise (fun a b => a.addr ≠ b.addr))
    (h : variableHandling o l q syms pdSyms pSyms fpSyms reductionSyms readOnlyVars liveOutVars
          func = some st) :
    ∃ P : List SgNode,
      List.Forall₂ (IsPrivateCopy st.private_remap) pSyms P ∧
      (o.useParameterWrapper = false →
        ∃ rs : List (SgInitializedName × List SgNode × List SgNode),
          List.Forall₂ (IsParameterRound o l q readOnlyVars fpSyms) syms rs ∧
          st.ast.args = rs.map (fun r => r.1) ++ func.args) ∧
      (o.useParameterWrapper = true →
        (syms = [] → st.ast.args = func.args) ∧
        (syms ≠ [] → ∃ w : SgInitializedName, w.name = "__out_argv" ∧
          st.ast.args = func.args ++ [w])) ∧
      (o.enable_classic = false →
        ∃ rounds : List (List SgNode × List SgNode),
          List.Forall₂ (IsRound o l fpSyms) syms rounds ∧
          st.ast.body =
            remapVarSyms o l st.sym_remap pdSyms st.private_remap
                (rounds.map Prod.fst).flatten
              ++ P ++ remapVarSyms o l st.sym_remap pdSyms st.private_remap func.body
              ++ remapVarSyms o l st.sym_remap pdSyms st.private_remap
                  (rounds.reverse.map Prod.snd).flatten) ∧
      (o.enable_classic = true →
        st.ast.body = P ++ remapVarSyms o l st.sym_remap pdSyms st.private_remap func.body) ∧
      ∀ V ∈ pSyms, (∀ x ∈ syms, V.addr ≠ x.addr) → st.sym_remap.find V.addr = none := by
  obtain ⟨st0, st1, h0, h1, hs, hp, hb⟩ := variableHandling_tables o l q syms pdSyms pSyms
    fpSyms reductionSyms readOnlyVars liveOutVars func st h
  have ha : st.ast.args = st1.ast.args := by
    obtain ⟨st0a, st1a, h0a, h1a, _, _, ha, _⟩ := variableHandling_args o l q syms pdSyms pSyms
      fpSyms reductionSyms readOnlyVars liveOutVars func st h
    have e0 : st0a = st0 := Option.some.inj (h0a.symm.trans h0)
    subst e0
    have e1 : st1a = st1 := Option.some.inj (h1a.symm.trans h1)
    subst e1
    exact ha
  obtain ⟨hpriv, hs0, _, _⟩ := variableHandling_init_private pSyms func st0 h0
  unfold handlePrivateVariables at hpriv
  obtain ⟨⟨ds, hds, hbody⟩, hargs, _⟩ := handlePrivateVariables_rounds pSyms.reverse []
    st0.private_remap func st0.ast hpriv
    (by rw [List.pairwise_reverse]; exact hdistinct.imp (fun hab => Ne.symm hab))
    (fun _ _ => rfl)
  obtain ⟨hmono, hkeys⟩ := variableHandling_loop_tables o l q pdSyms fpSyms readOnlyVars
    liveOutVars syms.reverse true st0 st1 h1
  have hP : List.Forall₂ (IsPrivateCopy st.private_remap) pSyms ds.reverse := by
    rw [← List.reverse_reverse pSyms, List.forall₂_reverse_iff]
    refine hds.imp ?_
    rintro v s ⟨d, sym, hd, hn, ht, hi, hf, hsym⟩
    exact ⟨d, sym, hd, hn, ht, hi, by rw [hp]; exact hmono _ _ hf, hsym⟩
  have hplain : ∀ s ∈ ds.reverse, ∃ d : SgVariableDeclaration, s = d.toNode ∧
      d.initializer = none := by
    intro s hs
    obtain ⟨v, _, d, _, hd, _, _, hi, _⟩ := forall₂_mem_right _ _ _ hP s hs
    exact ⟨d, hd, hi⟩
  refine ⟨ds.reverse, hP, ?_, ?_, ?_, ?_, ?_⟩
  · intro hw
    obtain ⟨rs, hrs, hargs1, _⟩ := variableHandling_loop_parameters o l q pdSyms fpSyms
      readOnlyVars liveOutVars hw syms.reverse true st0 st1 h1
    refine ⟨rs.reverse, ?_, ?_⟩
    · rw [← List.reverse_reverse syms, List.forall₂_reverse_iff]
      exact hrs
    · rw [ha, hargs1, hargs]
      simp
  · intro hw
    obtain ⟨hnil, hcons⟩ := variableHandling_loop_wrapper_args o l q pdSyms fpSyms readOnlyVars
      liveOutVars hw syms.reverse true st0 st1 h1
    refine ⟨fun he => ?_, fun hne => ?_⟩
    · rw [ha, hnil (Or.inl (by simp [he])), hargs]
    · obtain ⟨w, hwn, _, hwa⟩ := hcons (by simpa using hne) rfl
      exact ⟨w, hwn, by rw [ha, hwa, hargs]⟩
  · intro hclassic
    obtain ⟨rs, hrs, hloop⟩ := variableHandling_loop_rounds o l q pdSyms fpSyms readOnlyVars
      liveOutVars hclassic syms.reverse true st0 st1 h1
    refine ⟨rs.reverse, ?_, ?_⟩
    · rw [← List.reverse_reverse syms, List.forall₂_reverse_iff]
      exact hrs
    · rw [hb, hloop, hbody, hs, hp, remapVarSyms_append, remapVarSyms_append,
        remapVarSyms_append, remapVarSyms_plain_declarations _ _ _ _ _ ds.reverse hplain]
      simp [List.append_assoc]
  · intro hclassic
    have hnull := (variableHandling_init_local pSyms func st0 h0).1
    rw [hb, variableHandling_loop_classic_body o l q pdSyms fpSyms readOnlyVars liveOutVars
      hclassic syms.reverse true st0 st1 hnull h1, hbody, hs, hp, remapVarSyms_append,
      remapVarSyms_plain_declarations _ _ _ _ _ ds.reverse hplain]
  · intro V _ hV
    rw [hs]
    refine hkeys V.addr ?_ (by rw [hs0]; rfl)
    intro x hx
    exact hV x (List.mem_reverse.mp hx)

/-- Witness for C16: the private t, u next to the shared x, y, z (`y`
firstprivate) in temp-variable mode for C on the body
`x = 1; y = 2; z = 5; t = 3;`.  The parameters are `xp__`, `yp__`, `zp__`; the
body holds the one declaration of `t` and the one of `u` between the unpack
declarations and the statements of the block, and the repack statements are
those of `z` and `x`; the private remap maps `u` and `t` (and the firstprivate
`y`) to their declarations. -/
theorem variableHandling_private_variables_witness :
    variableHandling tempMode langC sampleCollaborators [symX, symY, symZ] [symY] [symT, symU]
      [symY] [] [] [] funcXYZT = some handledXYZ ∧
    handledXYZ.ast.args.map (fun p => p.name) = ["xp__", "yp__", "zp__"] ∧
    handledXYZ.ast.body.map (fun s => (declaredName s, assignedName s, storedName s))
      = [(some "x", none, none), (some "y", none, none), (some "_p_y", none, none),
         (none, some "_p_y", none), (some "z", none, none),
         (some "t", none, none), (some "u", none, none),
         (none, some "x", none), (none, some "_p_y", none), (none, some "z", none),
         (none, some "t", none),
         (none, none, some "z"), (none, none, some "x")] ∧
    handledXYZ.private_remap.map (fun e => (e.1, e.2.declaration.name))
      = [(symU.addr, "u"), (symT.addr, "t"), (symY.addr, "_p_y")] ∧
    ∃ P : List SgNode,
      List.Forall₂ (IsPrivateCopy handledXYZ.private_remap) [symT, symU] P ∧
      (tempMode.useParameterWrapper = false →
        ∃ rs : List (SgInitializedName × List SgNode × List SgNode),
          List.Forall₂ (IsParameterRound tempMode langC sampleCollaborators [] [symY])
            [symX, symY, symZ] rs ∧
          handledXYZ.ast.args = rs.map (fun r => r.1) ++ funcXYZT.args) ∧
      (tempMode.useParameterWrapper = true →
        ([symX, symY, symZ] = [] → handledXYZ.ast.args = funcXYZT.args) ∧
        ([symX, symY, symZ] ≠ [] → ∃ w : SgInitializedName, w.name = "__out_argv" ∧
          handledXYZ.ast.args = funcXYZT.args ++ [w])) ∧
      (tempMode.enable_classic = false →
        ∃ rounds : List (List SgNode × List SgNode),
          List.Forall₂ (IsRound tempMode langC [symY]) [symX, symY, symZ] rounds ∧
          handledXYZ.ast.body =
            remapVarSyms tempMode langC handledXYZ.sym_remap [symY] handledXYZ.private_remap
                (rounds.map Prod.fst).flatten
              ++ P ++ remapVarSyms tempMode langC handledXYZ.sym_remap [symY]
                  handledXYZ.private_remap funcXYZT.body
              ++ remapVarSyms tempMode langC handledXYZ.sym_remap [symY]
                  handledXYZ.private_remap (rounds.reverse.map Prod.snd).flatten) ∧
      (tempMode.enable_classic = true →
        handledXYZ.ast.body = P ++ remapVarSyms tempMode langC handledXYZ.sym_remap [symY]
          handledXYZ.private_remap funcXYZT.body) ∧
      ∀ V ∈ [symT, symU], (∀ x ∈ [symX, symY, symZ], V.addr ≠ x.addr) →
        handledXYZ.sym_remap.find V.addr = none :=
  ⟨option_eq_some_getD _ _ (by decide!), by decide!, by decide!, by decide!,
   variableHandling_private_variables tempMode langC sampleCollaborators [symX, symY, symZ]
     [symY] [symT, symU] [symY] [] [] [] funcXYZT handledXYZ (by decide)
     (option_eq_some_getD _ _ (by decide!))⟩

/-- When steps 1 and 2 of a round return, the flag `isPointerDeref` of the round
was computed. -/
theorem variableHandling_unpack_isPointerDeref (o : Outliner) (l : SageInterface)
    (q : Collaborators) (pdSyms fpSyms : VarSymSet_t) (readOnlyVars : InitNameSet)
    (isFirst : Bool) (i : SgVariableSymbol) (st st2 : LoopState)
    (h : variableHandling_unpack o l q pdSyms fpSyms readOnlyVars isFirst i st = some st2) :
    ∃ isPD : Bool, variableHandling_isPointerDeref o pdSyms i.declaration = some isPD := by
  unfold variableHandling_unpack at h
  split at h
  · simp at h
  · unfold variableHandling_step2 at h
    simp only at h
    split at h
    · simp at h
    · rename_i isPD hpd
      exact ⟨isPD, hpd⟩

/-- For input that is not Fortran the declaration that `createUnpackDecl` builds
is named as the variable. -/
theorem createUnpackDecl_name (o : Outliner) (l : SageInterface) (param : SgInitializedName)
    (index : Int) (isPD : Bool) (i_name : SgInitializedName) (ast : AstState)
    (d : SgVariableDeclaration) (ast1 : AstState) (hlang : l.is_Fortran_language = false)
    (h : createUnpackDecl o l (some param) index isPD i_name ast = some (d, ast1)) :
    d.var.name = i_name.name := by
  obtain ⟨local_val, _, hb⟩ := createUnpackDecl_some o l param index isPD i_name ast d ast1 h
  have := congrArg (fun x => x.1.var.name) hb
  simpa [buildVariableDeclaration, hlang] using this

/-- C30: for input that is not Fortran, in every mode and for all variable sets,
in every round of the loop of `variableHandling` (reached from the start of the
call), let steps 1 and 2 have returned the state `st2`, on which step 3
(`variableHandling_repack`) runs.
* In classic mode `local_var_decl` is null: `createPackStmt`, if called, gets a
  null pointer and returns NULL before `createPackExpr`; step 3 appends
  nothing, and it aborts only at the debug output of temp-variable mode.
* With classic mode off `local_var_decl` is the unpack declaration `d` of this
  round, and step 3 is exactly: the call of `createPackStmt` on `d` when
  `variableHandling_repack_calls` holds, and nothing otherwise.  When it calls
  and `createPackExpr` gets past its first early return (it is not the case
  that temp-variable mode is off and the input is C), the initializer of `d`
  exists, is an assign-initializer, and its operand is a pointer dereference;
  and if the call aborts, then it is the lookup of the symbol of the local that
  failed, not an assertion on the initializer or on the dereference. -/
theorem variableHandling_pack_initializer_is_dereference (o : Outliner) (l : SageInterface)
    (q : Collaborators) (pdSyms pSyms fpSyms : VarSymSet_t)
    (readOnlyVars liveOutVars : InitNameSet) (func : AstState)
    (visited : List SgVariableSymbol) (first1 isFirst : Bool) (i : SgVariableSymbol)
    (st0 st1 st2 : LoopState)
    (hlang : l.is_Fortran_language = false)
    (hinit : variableHandling_init pSyms func = some st0)
    (hloop : variableHandling_loop o l q pdSyms fpSyms readOnlyVars liveOutVars first1
              visited st0 = some st1)
    (hunpack : variableHandling_unpack o l q pdSyms fpSyms readOnlyVars isFirst i st1 = some st2) :
    ∃ isPD : Bool,
      variableHandling_isPointerDeref o pdSyms i.declaration = some isPD ∧
      (o.enable_classic = true →
        st2.local_var_decl = none ∧
        variableHandling_repack o l pdSyms readOnlyVars liveOutVars i st2
          = if o.temp_variable && o.enable_debug then none else some none) ∧
      (o.enable_classic = false →
        ∃ d : SgVariableDeclaration, st2.local_var_decl = some d ∧
          variableHandling_repack o l pdSyms readOnlyVars liveOutVars i st2
            = (if variableHandling_repack_calls o readOnlyVars liveOutVars i isPD
               then createPackStmt o l (some d) (some st2.ast.body_symbols) else some none) ∧
          (variableHandling_repack_calls o readOnlyVars liveOutVars i isPD = true →
            ((!o.temp_variable && l.is_C_language) = false →
              ∃ e p, d.initializer = some (.assignInitializer (.pointerDerefExp e p))) ∧
            (createPackStmt o l (some d) (some st2.ast.body_symbols) = none →
              lookup_var_symbol st2.ast.body_symbols d.var.name = none))) := by
  obtain ⟨isPD, hpd⟩ := variableHandling_unpack_isPointerDeref o l q pdSyms fpSyms readOnlyVars
    isFirst i st1 st2 hunpack
  refine ⟨isPD, hpd, fun hclassic => ?_, fun hclassic => ?_⟩
  · have hnone : st2.local_var_decl = none := by
      rw [variableHandling_unpack_classic_local o l q pdSyms fpSyms readOnlyVars isFirst i st1
        st2 hclassic hunpack]
      rw [variableHandling_loop_classic_local o l q pdSyms fpSyms readOnlyVars liveOutVars
        hclassic visited first1 st0 st1 hloop]
      exact (variableHandling_init_local pSyms func st0 hinit).1
    refine ⟨hnone, ?_⟩
    unfold variableHandling_repack
    simp only [hpd, hnone, hclassic, hlang, debugTrace, createPackStmt]
    cases o.temp_variable <;> cases o.enable_debug <;> cases isPD <;>
      cases (!readOnlyVars.has i.declaration &&
        if o.enable_liveness = true then liveOutVars.has i.declaration else true) <;> simp
  · obtain ⟨isPD1, param, index, ast, ast1, d, hpd1, hd1, hl1⟩ :=
      variableHandling_unpack_local o l q pdSyms fpSyms readOnlyVars isFirst i st1 st2
        hclassic hunpack
    have hpp : isPD1 = isPD := Option.some.inj (hpd1.symm.trans hpd)
    subst hpp
    have hname := createUnpackDecl_name o l param index isPD1 i.declaration ast d ast1 hlang hd1
    refine ⟨d, hl1, ?_, fun hcalls => ?_⟩
    · unfold variableHandling_repack variableHandling_repack_calls
      simp only [hpd, hl1, hclassic, hlang, debugTrace, SgVariableDeclaration.get_decl_item,
        hname]
      cases o.temp_variable <;> cases o.enable_debug <;> cases isPD1 <;>
        cases (!readOnlyVars.has i.declaration &&
          if o.enable_liveness = true then liveOutVars.has i.declaration else true) <;> simp
    · have hinitz : (!o.temp_variable && l.is_C_language) = false →
          ∃ e p, d.initializer = some (.assignInitializer (.pointerDerefExp e p)) := by
        intro hearly
        obtain ⟨local_val, hv, hb⟩ := createUnpackDecl_some o l param index isPD1 i.declaration
          ast d ast1 hd1
        have hi : d.initializer = local_val := by
          have := congrArg (fun x => x.1.initializer) hb
          simpa [buildVariableDeclaration] using this
        rw [hi]
        unfold createUnpackDecl_local_val at hv
        simp only [hlang, Bool.false_eq_true, if_false] at hv
        cases ht : o.temp_variable
        · have hC : l.is_C_language = false := by simpa [ht] using hearly
          simp only [ht, hC, Bool.false_eq_true, if_false] at hv
          split at hv
          · simp only [Option.some.injEq] at hv
            exact ⟨_, _, hv.symm⟩
          · simp at hv
        · have hfalse : isPD1 = false := by
            unfold variableHandling_repack_calls at hcalls
            simp only [ht, if_true] at hcalls
            cases isPD1
            · rfl
            · simp at hcalls
          subst hfalse
          simp only [ht, if_true, Bool.false_eq_true, if_false, Option.some.injEq] at hv
          exact ⟨_, _, hv.symm⟩
      refine ⟨hinitz, fun habort => ?_⟩
      unfold createPackStmt at habort
      simp only [hlang, Bool.false_eq_true, if_false] at habort
      have hexpr : createPackExpr o l d (some st2.ast.body_symbols) = none := by
        cases hx : createPackExpr o l d (some st2.ast.body_symbols) with
        | none => rfl
        | some r =>
          rw [hx] at habort
          cases r <;> simp at habort
      cases hearly : (!o.temp_variable && l.is_C_language)
      · obtain ⟨e, p, hi⟩ := hinitz hearly
        unfold createPackExpr at hexpr
        simp only [hearly, hi, deepCopy_eq, Bool.false_eq_true, if_false] at hexpr
        split at hexpr
        · simp at hexpr
        · split at hexpr
          · split at hexpr
            · assumption
            · simp at hexpr
          · simp at hexpr
      · unfold createPackExpr at hexpr
        simp [hearly] at hexpr

/-- Witness for C30: the round for `x` after the rounds for `z` and `y`, in
temp-variable mode for C: step 3 calls `createPackStmt` on the unpack
declaration `int x = *(int *) xp__;` and appends the repack statement of
`x`. -/
theorem variableHandling_pack_initializer_is_dereference_witness :
    variableHandling_init [symT, symU] funcXYZT = some loopStartTU ∧
    variableHandling_loop tempMode langC sampleCollaborators [symY] [symY] [] [] true
      [symZ, symY] loopStartTU = some loopAfterZY ∧
    variableHandling_unpack tempMode langC sampleCollaborators [symY] [symY] [] false symX
      loopAfterZY = some loopAfterZYUnpackX ∧
    variableHandling_repack_calls tempMode [] [] symX false = true ∧
    (variableHandling_repack tempMode langC [symY] [] [] symX loopAfterZYUnpackX).map
      (fun r => r.map storedName) = some (some (some "x")) ∧
    ∃ isPD : Bool,
      variableHandling_isPointerDeref tempMode [symY] symX.declaration = some isPD ∧
      (tempMode.enable_classic = true →
        loopAfterZYUnpackX.local_var_decl = none ∧
        variableHandling_repack tempMode langC [symY] [] [] symX loopAfterZYUnpackX
          = if tempMode.temp_variable && tempMode.enable_debug then none else some none) ∧
      (tempMode.enable_classic = false →
        ∃ d : SgVariableDeclaration, loopAfterZYUnpackX.local_var_decl = some d ∧
          variableHandling_repack tempMode langC [symY] [] [] symX loopAfterZYUnpackX
            = (if variableHandling_repack_calls tempMode [] [] symX isPD
               then createPackStmt tempMode langC (some d)
                 (some loopAfterZYUnpackX.ast.body_symbols) else some none) ∧
          (variableHandling_repack_calls tempMode [] [] symX isPD = true →
            ((!tempMode.temp_variable && langC.is_C_language) = false →
              ∃ e p, d.initializer = some (.assignInitializer (.pointerDerefExp e p))) ∧
            (createPackStmt tempMode langC (some d)
                (some loopAfterZYUnpackX.ast.body_symbols) = none →
              lookup_var_symbol loopAfterZYUnpackX.ast.body_symbols d.var.name = none))) :=
  ⟨option_eq_some_getD _ _ (by decide!), option_eq_some_getD _ _ (by decide!),
   option_eq_some_getD _ _ (by decide!), by decide!, by decide!,
   variableHandling_pack_initializer_is_dereference tempMode langC sampleCollaborators [symY] [symT, symU] [symY] [] [] funcXYZT
     [symZ, symY] true false symX loopStartTU loopAfterZY loopAfterZYUnpackX rfl
     (option_eq_some_getD _ _ (by decide!)) (option_eq_some_getD _ _ (by decide!))
     (option_eq_some_getD _ _ (by decide!))⟩

end Outlining
